import Mathlib

/-!
# Departure boards (`departures.h`, `departures.cpp`, `departures_gui.cpp`)

A shallow embedding of the departure-board time arithmetic, of the order scanner
`FindFirstOrder`, of the per-vehicle walk of `RecalculateDepartures` and of the paging
functions `NumberOfDepartures` and `CreatePrintableDepartures`, followed by the
properties established about them.

Machine integers are mathematical integers with an explicit reduction wherever the C++
code converts to, or computes in, a fixed-width type.  Signed overflow, which C++ leaves
undefined, is taken as two's-complement wrap-around.
-/

namespace Departures

/-! ## Fixed-width integers -/

/-- Conversion to `uint16` (`DateFract`, `StationID`, timetable durations). -/
def wrapU16 (x : Int) : Int := x % 65536

/-- Conversion to `uint32`. -/
def wrapU32 (x : Int) : Int := x % 4294967296

/-- Conversion to `uint64`. -/
def wrapU64 (x : Int) : Int := x % 18446744073709551616

/-- Conversion to `int32` (`Date`, `int`), two's complement. -/
def wrapI32 (x : Int) : Int := (x + 2147483648) % 4294967296 - 2147483648

/-- Conversion to `int64`, two's complement. -/
def wrapI64 (x : Int) : Int :=
  (x + 9223372036854775808) % 18446744073709551616 - 9223372036854775808

/-! ## `struct ArrivalTime`

`DAY_TICKS` (declared in `date_type.h`, which is not part of the sources at hand) is a
parameter of every operation.  It is an `int` constant, 74 in OpenTTD.  `Date` is a signed
32-bit day count and `DateFract` an unsigned 16-bit tick count within the day. -/

/-- The `ArrivalTime` struct: a day and the ticks elapsed within that day. -/
structure ArrivalTime where
  /-- The field `Date date` (int32). -/
  date : Int
  /-- The field `DateFract date_fract` (uint16). -/
  date_fract : Int
deriving DecidableEq, Repr

namespace ArrivalTime

/-- The comparison `ArrivalTime::operator>`. -/
def gt (a that : ArrivalTime) : Bool :=
  decide (a.date > that.date) ||
    (decide (a.date = that.date) && decide (a.date_fract > that.date_fract))

/-- The method `ArrivalTime::Ticks`: `return date * DAY_TICKS + date_fract;`.  The product
and the sum are computed in `int` (the operands are `int32`, `int` and a promoted `uint16`); only the
result is converted to the `uint64` return type. -/
def Ticks (DAY_TICKS : Int) (a : ArrivalTime) : Int :=
  wrapU64 (wrapI32 (wrapI32 (a.date * DAY_TICKS) + a.date_fract))

/-- The local `uint64 total_ticks` shared by `operator+=`, `operator+` and `DateAfter`:
`(uint64)date * DAY_TICKS`, then `+= date_fract`, then `+= ticks`, where `ticks` has
already been converted to the parameter type. -/
def total_ticks (DAY_TICKS : Int) (a : ArrivalTime) (ticks : Int) : Int :=
  wrapU64 (wrapU64 (wrapU64 (wrapU64 a.date * wrapU64 DAY_TICKS) + a.date_fract) + ticks)

/-- The method `ArrivalTime::operator+(uint16 ticks)`; `operator+=` assigns the same value to
`*this`.  The argument is converted to `uint16` on entry. -/
def add (DAY_TICKS : Int) (a : ArrivalTime) (ticks : Int) : ArrivalTime :=
  let total := total_ticks DAY_TICKS a (wrapU16 ticks)
  { date := wrapI32 (total / wrapU64 DAY_TICKS)
    date_fract := wrapU16 (total % wrapU64 DAY_TICKS) }

/-- The method `ArrivalTime::DateAfter(int32 ticks)`: the `int32` argument is converted to `uint64`
when it is added to `total_ticks`; the quotient is converted to `Date`. -/
def DateAfter (DAY_TICKS : Int) (a : ArrivalTime) (ticks : Int) : Int :=
  wrapI32 (total_ticks DAY_TICKS a (wrapI32 ticks) / wrapU64 DAY_TICKS)

/-- The method `ArrivalTime::ExpectedArrival(int32 lateness_ticks)`: signed 64-bit accumulation,
division and remainder truncating towards zero. -/
def ExpectedArrival (DAY_TICKS : Int) (a : ArrivalTime) (lateness_ticks : Int) : ArrivalTime :=
  let ticks := wrapI64 (wrapI64 (wrapI64 (a.date * DAY_TICKS) + a.date_fract) +
    wrapI32 lateness_ticks)
  { date := wrapI32 (Int.tdiv ticks DAY_TICKS)
    date_fract := wrapU16 (Int.tmod ticks DAY_TICKS) }

/-- The timestamp `{ (Date)(t / DAY_TICKS), (DateFract)(t % DAY_TICKS) }` built from a
`uint64` tick count, as `FindFirstOrder` builds its initial arrival time. -/
def ofTicks (DAY_TICKS : Int) (t : Int) : ArrivalTime :=
  { date := wrapI32 (t / wrapU64 DAY_TICKS)
    date_fract := wrapU16 (t % wrapU64 DAY_TICKS) }

end ArrivalTime

/-! ## Orders and vehicles

`order_base.h`, `order_type.h`, `vehicle_base.h` and `station_type.h` are not part of the
sources at hand; the declarations below carry exactly the fields and accessors that
`departures.cpp` reads. -/

/-- Modelled from the spec: `StationID` (from `station_type.h`), the unsigned 16-bit id
shared by stations and waypoints. -/
abbrev StationID := Nat

/-- Modelled from the spec: `INVALID_STATION` (from `station_type.h`), the "none" station
id `0xFFFF`. -/
def INVALID_STATION : StationID := 65535

/-- Modelled from the spec: `enum OrderType` (from `order_type.h`). -/
inductive OrderType where
  | OT_NOTHING
  | OT_GOTO_STATION
  | OT_GOTO_DEPOT
  | OT_LOADING
  | OT_LEAVESTATION
  | OT_DUMMY
  | OT_GOTO_WAYPOINT
  | OT_CONDITIONAL
  | OT_IMPLICIT
deriving DecidableEq, Repr

/-- Modelled from the spec: `enum OrderLoadFlags` (from `order_type.h`). -/
inductive OrderLoadFlags where
  | OLF_LOAD_IF_POSSIBLE
  | OLFB_FULL_LOAD
  | OLF_FULL_LOAD_ANY
  | OLFB_NO_LOAD
deriving DecidableEq, Repr

/-- Modelled from the spec: `enum OrderUnloadFlags` (from `order_type.h`). -/
inductive OrderUnloadFlags where
  | OUF_UNLOAD_IF_POSSIBLE
  | OUFB_UNLOAD
  | OUFB_TRANSFER
  | OUFB_NO_UNLOAD
deriving DecidableEq, Repr

/-- Modelled from the spec: `enum OrderNonStopFlags` (from `order_type.h`). -/
inductive OrderNonStopFlags where
  | ONSF_STOP_EVERYWHERE
  | ONSF_NO_STOP_AT_INTERMEDIATE_STATIONS
  | ONSF_NO_STOP_AT_DESTINATION_STATION
  | ONSF_NO_STOP_AT_ANY_STATION
deriving DecidableEq, Repr

/-- Modelled from the spec: `enum VehicleType` (from `vehicle_type.h`); the company
vehicle types `VEH_BEGIN .. VEH_COMPANY_END` are the first four. -/
inductive VehicleType where
  | VEH_TRAIN
  | VEH_ROAD
  | VEH_SHIP
  | VEH_AIRCRAFT
  | VEH_EFFECT
  | VEH_DISASTER
deriving DecidableEq, Repr

/-- Modelled from the spec: `struct Order` (from `order_base.h`), with the fields that the
departure code reads through its accessors.  The timetable durations are `uint16`. -/
structure Order where
  type : OrderType
  dest : StationID
  travel_time : Fin 65536
  wait_time : Fin 65536
  load : OrderLoadFlags
  unload : OrderUnloadFlags
  non_stop : OrderNonStopFlags
deriving DecidableEq, Repr

namespace Order

/-- The accessor `Order::IsType`. -/
def IsType (o : Order) (t : OrderType) : Bool := o.type == t

/-- The accessor `Order::GetDestination`, as converted to `StationID` by the callers. -/
def GetDestination (o : Order) : StationID := o.dest

/-- The accessor `Order::GetTravelTime`. -/
def GetTravelTime (o : Order) : Int := ((o.travel_time : Nat) : Int)

/-- The accessor `Order::GetWaitTime`. -/
def GetWaitTime (o : Order) : Int := ((o.wait_time : Nat) : Int)

/-- The accessor `Order::GetLoadType`. -/
def GetLoadType (o : Order) : OrderLoadFlags := o.load

/-- The accessor `Order::GetUnloadType`. -/
def GetUnloadType (o : Order) : OrderUnloadFlags := o.unload

/-- The accessor `Order::GetNonStopType`. -/
def GetNonStopType (o : Order) : OrderNonStopFlags := o.non_stop

end Order

/-- Modelled from the spec: `struct Vehicle` (from `vehicle_base.h`).  The cyclic order
list is the sequence `orders`: `GetOrder i` is `orders[i]`, `GetFirstOrder` is index `0`,
`GetLastOrder` is index `GetNumOrders - 1`, and `order->next` is the following index.
`GetNumOrders` is a `byte` (`VehicleOrderID`), so a vehicle has at most 255 orders. -/
structure Vehicle where
  orders : List Order
  /-- The number of orders fits the `byte` returned by `GetNumOrders`. -/
  orders_le : orders.length ≤ 255 := by decide
  cur_implicit_order_index : Nat
  current_order : Order
  /-- The field `uint32 current_order_time`: ticks elapsed in the current order. -/
  current_order_time : Nat
  /-- The field `int32 lateness_counter`: negative when early, positive when late. -/
  lateness_counter : Int
  /-- The value of `IsStoppedInDepot()`. -/
  stopped_in_depot : Bool
  cargo_type : Nat
deriving DecidableEq, Repr

namespace Vehicle

/-- The accessor `Vehicle::GetNumOrders`. -/
def GetNumOrders (v : Vehicle) : Nat := v.orders.length

/-- The accessor `Vehicle::IsStoppedInDepot`. -/
def IsStoppedInDepot (v : Vehicle) : Bool := v.stopped_in_depot

end Vehicle

/-- The successor in the cyclic order list of a vehicle with `n` orders:
`order == vehicle->GetLastOrder() ? vehicle->GetFirstOrder() : order->next`,
on positions. -/
def nextOrder (n idx : Nat) : Nat := if idx + 1 = n then 0 else idx + 1

/-! ## `departures.h` -/

/-- The enum `DepartureType`: a departure board or an arrival board. -/
inductive DepartureType where
  | DT_DEPARTURE
  | DT_ARRIVAL
deriving DecidableEq, Repr

/-- The enum `DeparturesFrom`: a board for a station or for a waypoint. -/
inductive DeparturesFrom where
  | DF_STATION
  | DF_WAYPOINT
deriving DecidableEq, Repr

/-- The enum `VehicleStatus`. -/
inductive VehicleStatus where
  | VS_TRAVELLING
  | VS_ARRIVED
  | VS_GOING_TO_DEPOT
deriving DecidableEq, Repr

/-- The enum `DepartureStatus`. -/
inductive DepartureStatus where
  | DS_ON_TIME
  | DS_ARRIVED
  | DS_CANCELLED
  | DS_DELAYED
  | DS_EXPECTED
deriving DecidableEq, Repr

/-- The `CallingAt` struct. -/
structure CallingAt where
  station : StationID
  /-- A `uint32` tick count. -/
  ticks_after_departure_start : Int
deriving DecidableEq, Repr

/-- The `DepartureInfo<Tdeparture_type>` struct; the template argument is passed to the
member functions that depend on it. -/
structure DepartureInfo where
  calling_at : List CallingAt
  via : StationID
  arrival : ArrivalTime
  /-- A `uint16` tick count. -/
  wait_time : Int
  vehicle_status : VehicleStatus
  /-- An `int32` tick count. -/
  lateness : Int
  vehicle : Vehicle
  vehicle_type : VehicleType
  /-- A `uint32` tick count; 0 if this departure does not repeat. -/
  repeat_after : Int
deriving DecidableEq, Repr

namespace DepartureInfo

/-- The constructor of `DepartureInfo`.  It leaves `repeat_after` uninitialised; the value
found there is the extra argument `uninit`. -/
def construct (arrival : ArrivalTime) (wait_time : Int) (vehicle_status : VehicleStatus)
    (lateness : Int) (vehicle : Vehicle) (vehicle_type : VehicleType) (uninit : Int) :
    DepartureInfo :=
  { calling_at := []
    via := INVALID_STATION
    arrival := arrival
    wait_time := wait_time
    vehicle_status := vehicle_status
    lateness := lateness
    vehicle := vehicle
    vehicle_type := vehicle_type
    repeat_after := uninit }

/-- The method `DepartureInfo::Reset`. -/
def Reset (d : DepartureInfo) (arrival : ArrivalTime) (wait_time : Int)
    (vehicle_status : VehicleStatus) : DepartureInfo :=
  { d with
    calling_at := []
    via := INVALID_STATION
    arrival := arrival
    wait_time := wait_time
    vehicle_status := vehicle_status }

/-- The method `DepartureInfo::Repeats`. -/
def Repeats (d : DepartureInfo) : Bool := d.repeat_after != 0

/-- The method `DepartureInfo::ExpectedArrival`. -/
def ExpectedArrival (DAY_TICKS : Int) (d : DepartureInfo) : Int :=
  d.arrival.DateAfter DAY_TICKS d.lateness

/-- The method `DepartureInfo::ScheduledDeparture`. -/
def ScheduledDeparture (DAY_TICKS : Int) (d : DepartureInfo) : Int :=
  d.arrival.DateAfter DAY_TICKS d.wait_time

/-- The method `DepartureInfo::Status`; `_date` is the current day. -/
def Status (Tdeparture_type : DepartureType) (DAY_TICKS : Int) (_date : Int)
    (d : DepartureInfo) : DepartureStatus :=
  match d.vehicle_status with
  | .VS_ARRIVED => .DS_ARRIVED
  | .VS_GOING_TO_DEPOT => .DS_CANCELLED
  | .VS_TRAVELLING =>
    let expected := d.ExpectedArrival DAY_TICKS
    let scheduled := d.ScheduledDeparture DAY_TICKS
    match Tdeparture_type with
    | .DT_DEPARTURE =>
      if expected > scheduled then .DS_EXPECTED
      else if _date < scheduled then .DS_ON_TIME
      else .DS_DELAYED
    | .DT_ARRIVAL =>
      if expected > d.arrival.date then .DS_EXPECTED
      else if _date < d.arrival.date then .DS_ON_TIME
      else .DS_DELAYED

/-- The comparison `DepartureInfo::operator>`. -/
def gt (DAY_TICKS : Int) (d that : DepartureInfo) : Bool :=
  (d.arrival.add DAY_TICKS d.wait_time).gt (that.arrival.add DAY_TICKS that.wait_time)

/-- The method `DepartureInfo::ProgressToNextDeparture`: the `uint32` repeat time is passed
to `operator+=(uint16)`. -/
def ProgressToNextDeparture (DAY_TICKS : Int) (d : DepartureInfo) : DepartureInfo :=
  { d with
    arrival := d.arrival.add DAY_TICKS d.repeat_after
    vehicle_status :=
      if d.vehicle_status = .VS_ARRIVED then .VS_TRAVELLING else d.vehicle_status }

end DepartureInfo

/-! ## `departures.cpp`: the order scanner -/

/-- The outcome of one pass through a loop body: `next` when control reaches the loop
increment (the end of the body or a `continue`), `brk` when the body executes `break`. -/
inductive Flow (σ : Type) where
  | next (s : σ)
  | brk (s : σ)

/-- The struct `FirstOrder`.  The `const Order *order` is the position of the order in the
vehicle's order list, `none` for `NULL`. -/
structure FirstOrder where
  order : Option Nat
  arrival : ArrivalTime
  arrived : Bool
deriving DecidableEq, Repr

/-- The function `OrderIsVia`. -/
def OrderIsVia (order : Order) : Bool :=
  order.GetNonStopType == .ONSF_NO_STOP_AT_DESTINATION_STATION ||
    order.GetNonStopType == .ONSF_NO_STOP_AT_ANY_STATION

/-- The function `OrderIsPickUp`. -/
def OrderIsPickUp (order : Order) : Bool := order.GetLoadType != .OLFB_NO_LOAD

/-- The function `OrderIsSetDown`. -/
def OrderIsSetDown (order : Order) : Bool := order.GetUnloadType != .OUFB_NO_UNLOAD

/-- The function `OrderIsFullUnload`. -/
def OrderIsFullUnload (order : Order) : Bool := order.GetUnloadType == .OUFB_UNLOAD

/-- The `uint64 total_ticks` of `FindFirstOrder` (departures.cpp lines 62-76), where
`order` is the vehicle's current order in its order list and `_date`, `_date_fract` are the
current day and tick within the day. -/
def FindFirstOrder_total_ticks (DAY_TICKS _date _date_fract : Int) (vehicle : Vehicle)
    (order : Order) : Int :=
  let arrived := vehicle.current_order.IsType .OT_LOADING
  let total_ticks :=
    wrapU64 (wrapU64 (wrapU64 (wrapU64 _date * wrapU64 DAY_TICKS) + _date_fract) -
      vehicle.current_order_time)
  if arrived then
    let total_ticks := wrapU64 (total_ticks - order.GetTravelTime)
    if vehicle.lateness_counter < 0 then
      wrapU64 (total_ticks - wrapU64 vehicle.lateness_counter)
    else total_ticks
  else
    if vehicle.lateness_counter > 0 then
      wrapU64 (total_ticks - wrapU64 vehicle.lateness_counter)
    else total_ticks

/-- The body of the scanning loop of `FindFirstOrder` (departures.cpp lines 90-138) for
the order `order` found at position `idx`. -/
def FindFirstOrder_body (Tdepartures_from : DeparturesFrom) (DAY_TICKS : Int)
    (station : StationID) (idx : Nat) (order : Order) (result : FirstOrder) :
    Flow FirstOrder :=
  if order.IsType .OT_CONDITIONAL || order.GetTravelTime == 0 then
    .brk result
  else
    let via := OrderIsVia order
    if order.IsType .OT_GOTO_STATION && (!via && order.GetWaitTime == 0) then
      .brk result
    else if order.IsType .OT_GOTO_STATION &&
        (order.GetDestination == station && OrderIsPickUp order && !via) then
      .brk { result with
        order := some idx
        arrival := result.arrival.add DAY_TICKS order.GetTravelTime }
    else if (order.IsType .OT_GOTO_WAYPOINT && Tdepartures_from == .DF_WAYPOINT) &&
        order.GetDestination == station then
      .brk { result with
        order := some idx
        arrival := result.arrival.add DAY_TICKS order.GetTravelTime }
    else
      .next { result with
        arrival := (result.arrival.add DAY_TICKS order.GetTravelTime).add DAY_TICKS
          order.GetWaitTime
        arrived := false }

/-- The scanning loop of `FindFirstOrder`: `remaining` is `GetNumOrders() - i`, the number
of iterations the loop counter still allows, and `idx` the position of `order`. -/
def FindFirstOrder_loop (Tdepartures_from : DeparturesFrom) (DAY_TICKS : Int)
    (station : StationID) (orders : List Order) :
    Nat → Nat → FirstOrder → FirstOrder
  | 0, _, result => result
  | remaining + 1, idx, result =>
    match orders[idx]? with
    | none => result
    | some order =>
      match FindFirstOrder_body Tdepartures_from DAY_TICKS station idx order result with
      | .brk result => result
      | .next result =>
        FindFirstOrder_loop Tdepartures_from DAY_TICKS station orders remaining
          (nextOrder orders.length idx) result

/-- The function `FindFirstOrder<Tdepartures_from>(station, vehicle)`.  For a vehicle
without orders the source divides by zero; the embedding returns no order. -/
def FindFirstOrder (Tdepartures_from : DeparturesFrom) (DAY_TICKS _date _date_fract : Int)
    (station : StationID) (vehicle : Vehicle) : FirstOrder :=
  let idx := vehicle.cur_implicit_order_index % vehicle.GetNumOrders
  match vehicle.orders[idx]? with
  | none => { order := none, arrival := ArrivalTime.ofTicks DAY_TICKS 0, arrived := false }
  | some order =>
    let arrived := vehicle.current_order.IsType .OT_LOADING
    let total_ticks := FindFirstOrder_total_ticks DAY_TICKS _date _date_fract vehicle order
    let result : FirstOrder :=
      { order := none, arrival := ArrivalTime.ofTicks DAY_TICKS total_ticks, arrived := arrived }
    FindFirstOrder_loop Tdepartures_from DAY_TICKS station vehicle.orders
      vehicle.GetNumOrders idx result

/-! ## `departures.cpp`: the departure synthesizer -/

/-- The local variables of the per-vehicle part of `RecalculateDepartures`
(departures.cpp lines 181-193) that the walk over the orders updates.  `result` holds the
entries pushed for this vehicle, oldest first; `departures_added` is a `byte`. -/
structure WalkState where
  result : List DepartureInfo
  departures_added : Nat
  departure : DepartureInfo
  start : ArrivalTime
  /-- A `uint32`. -/
  timetable_total_duration : Int
  /-- A `uint32`. -/
  ticks_after_departure_start : Int
  unloaded_everything : Bool
  via : StationID
deriving DecidableEq, Repr

/-- The status given to a departure that starts at a later visit:
`cancelled ? VS_GOING_TO_DEPOT : VS_TRAVELLING`. -/
def laterStatus (cancelled : Bool) : VehicleStatus :=
  if cancelled then .VS_GOING_TO_DEPOT else .VS_TRAVELLING

/-- The status of the first departure:
`cancelled ? VS_GOING_TO_DEPOT : (first_order.arrived ? VS_ARRIVED : VS_TRAVELLING)`. -/
def firstStatus (cancelled arrived : Bool) : VehicleStatus :=
  if cancelled then .VS_GOING_TO_DEPOT
  else if arrived then .VS_ARRIVED else .VS_TRAVELLING

/-- The search for `order_station` in `departure.calling_at` (lines 226-232). -/
def already_seen (calling_at : List CallingAt) (order_station : StationID) : Bool :=
  calling_at.any (fun ca => ca.station == order_station)

/-- The search for `existing_index` in arrival mode (lines 279-285), `none` for `-1`. -/
def existing_index (calling_at : List CallingAt) (order_station : StationID) : Option Nat :=
  calling_at.findIdx? (fun ca => ca.station == order_station)

/-- The `DT_DEPARTURE` case of the switch on `Tdeparture_type` (lines 241-263). -/
def walkDeparture (station : StationID) (cancelled : Bool) (order : Order) (s : WalkState) :
    WalkState :=
  let order_station := order.GetDestination
  let seen := already_seen s.departure.calling_at order_station
  let set_down := OrderIsSetDown order
  let full_unload := OrderIsFullUnload order
  let pick_up := OrderIsPickUp order
  if station == order_station && pick_up then
    let s :=
      if s.departure.calling_at.length != 0 then
        { s with
          result := s.result ++ [s.departure]
          departures_added := (s.departures_added + 1) % 256
          ticks_after_departure_start := 0 }
      else s
    { s with
      unloaded_everything := false
      departure := s.departure.Reset s.start order.GetWaitTime (laterStatus cancelled) }
  else if set_down && !seen && !s.unloaded_everything then
    let departure := { s.departure with
      calling_at := s.departure.calling_at ++
        [{ station := order_station
           ticks_after_departure_start :=
             wrapU32 (s.ticks_after_departure_start - order.GetWaitTime) }] }
    let s := { s with
      departure := departure
      unloaded_everything := s.unloaded_everything || full_unload }
    if s.via == order_station && s.departure.via == INVALID_STATION then
      { s with departure := { s.departure with via := order_station }, via := INVALID_STATION }
    else s
  else
    { s with via := INVALID_STATION }

/-- The `DT_ARRIVAL` case of the switch on `Tdeparture_type` (lines 265-307). -/
def walkArrival (station : StationID) (cancelled : Bool) (order : Order) (s : WalkState) :
    WalkState :=
  let order_station := order.GetDestination
  let set_down := OrderIsSetDown order
  let full_unload := OrderIsFullUnload order
  let pick_up := OrderIsPickUp order
  if station == order_station && set_down then
    let s :=
      if s.departure.calling_at.length != 0 then
        { s with
          result := s.result ++ [{ s.departure with arrival := s.start }]
          departure := { s.departure with arrival := s.start }
          departures_added := (s.departures_added + 1) % 256
          ticks_after_departure_start := 0 }
      else s
    { s with
      departure := s.departure.Reset s.start order.GetWaitTime (laterStatus cancelled) }
  else if pick_up then
    let calling_at :=
      match existing_index s.departure.calling_at order_station with
      | some index => s.departure.calling_at.eraseIdx index
      | none => s.departure.calling_at
    let departure := { s.departure with calling_at := calling_at }
    let departure :=
      if full_unload then { departure with calling_at := [], via := INVALID_STATION }
      else departure
    let departure := { departure with
      calling_at := departure.calling_at ++
        [{ station := order_station
           ticks_after_departure_start :=
             wrapU32 (s.ticks_after_departure_start - order.GetWaitTime) }] }
    let s := { s with departure := departure }
    if s.via == order_station && s.departure.via == INVALID_STATION then
      { s with departure := { s.departure with via := order_station }, via := INVALID_STATION }
    else s
  else
    let s :=
      if full_unload then { s with departure := { s.departure with calling_at := [] } }
      else s
    { s with via := INVALID_STATION }

/-- The handling of a goto-waypoint order in waypoint mode (lines 312-320). -/
def walkWaypoint (cancelled : Bool) (order : Order) (s : WalkState) : WalkState :=
  let s :=
    if s.departure.calling_at.length != 0 then
      { s with
        result := s.result ++ [s.departure]
        departures_added := (s.departures_added + 1) % 256
        ticks_after_departure_start := 0 }
    else s
  { s with
    unloaded_everything := false
    departure := s.departure.Reset s.start order.GetWaitTime (laterStatus cancelled) }

/-- The switch on `Tdeparture_type` for a goto-station order that stops at its destination
with a wait time (lines 226-308), followed by the handling of a goto-waypoint order
(lines 311-321). -/
def walkStops (Tdeparture_type : DepartureType) (Tdepartures_from : DeparturesFrom)
    (station : StationID) (cancelled : Bool) (order : Order) (s : WalkState) : WalkState :=
  let s :=
    if order.IsType .OT_GOTO_STATION then
      match Tdeparture_type with
      | .DT_DEPARTURE => walkDeparture station cancelled order s
      | .DT_ARRIVAL => walkArrival station cancelled order s
    else s
  if order.IsType .OT_GOTO_WAYPOINT && Tdepartures_from == .DF_WAYPOINT then
    walkWaypoint cancelled order s
  else s

/-- The body of the walk over the orders that follow the first departure
(departures.cpp lines 195-323). -/
def walkBody (Tdeparture_type : DepartureType) (Tdepartures_from : DeparturesFrom)
    (DAY_TICKS : Int) (station : StationID) (cancelled : Bool) (order : Order)
    (s : WalkState) : Flow WalkState :=
  if order.IsType .OT_CONDITIONAL || order.GetTravelTime == 0 then
    .brk { s with timetable_total_duration := 0 }
  else
    let s := { s with start := s.start.add DAY_TICKS order.GetTravelTime }
    if order.IsType .OT_IMPLICIT then
      .next s
    else
      let s := { s with
        timetable_total_duration :=
          wrapU32 (s.timetable_total_duration + (order.GetTravelTime + order.GetWaitTime))
        ticks_after_departure_start :=
          wrapU32 (s.ticks_after_departure_start +
            (order.GetTravelTime + order.GetWaitTime)) }
      if order.IsType .OT_GOTO_STATION && OrderIsVia order then
        .next { s with via := order.GetDestination }
      else if order.IsType .OT_GOTO_STATION && order.GetWaitTime == 0 then
        .brk { s with timetable_total_duration := 0 }
      else
        let s := walkStops Tdeparture_type Tdepartures_from station cancelled order s
        .next { s with start := s.start.add DAY_TICKS order.GetWaitTime }

/-- The walk `for (; order != first_order.order; order = ...)` (line 194): `idx` is the
position of `order`, `first` the position of `first_order.order`, and `fuel` bounds the
number of iterations. -/
def walkLoop (Tdeparture_type : DepartureType) (Tdepartures_from : DeparturesFrom)
    (DAY_TICKS : Int) (station : StationID) (cancelled : Bool) (orders : List Order)
    (first : Nat) : Nat → Nat → WalkState → WalkState
  | 0, _, s => s
  | fuel + 1, idx, s =>
    if idx = first then s
    else
      match orders[idx]? with
      | none => s
      | some order =>
        match walkBody Tdeparture_type Tdepartures_from DAY_TICKS station cancelled order s with
        | .brk s => s
        | .next s =>
          walkLoop Tdeparture_type Tdepartures_from DAY_TICKS station cancelled orders first
            fuel (nextOrder orders.length idx) s

/-- The code after the walk that pushes the departure still being built
(departures.cpp lines 325-337). -/
def walkFinish (Tdeparture_type : DepartureType) (cancelled : Bool)
    (first_order : FirstOrder) (s : WalkState) : WalkState :=
  if s.departure.calling_at.length != 0 then
    let departure :=
      match Tdeparture_type with
      | .DT_DEPARTURE => s.departure
      | .DT_ARRIVAL =>
        { s.departure with
          arrival := first_order.arrival
          vehicle_status := firstStatus cancelled first_order.arrived }
    { s with
      departure := departure
      result := s.result ++ [departure]
      departures_added := (s.departures_added + 1) % 256 }
  else s

/-- The loop that sets the repeat time (departures.cpp lines 341-343): the last
`departures_added` entries of the result receive `timetable_total_duration`. -/
def setRepeatAfter (result : List DepartureInfo) (departures_added : Nat)
    (timetable_total_duration : Int) : List DepartureInfo :=
  result.take (result.length - departures_added) ++
    (result.drop (result.length - departures_added)).map
      (fun d => { d with repeat_after := timetable_total_duration })

/-- The local variables as initialised before the walk (departures.cpp lines 181-193);
`order` is `first_order.order`. -/
def walkStart (DAY_TICKS : Int) (vehicle_type : VehicleType) (uninit : Int)
    (vehicle : Vehicle) (cancelled : Bool) (first_order : FirstOrder) (order : Order) :
    WalkState :=
  let start := first_order.arrival
  let departure := DepartureInfo.construct start order.GetWaitTime
    (firstStatus cancelled first_order.arrived) vehicle.lateness_counter vehicle
    vehicle_type uninit
  { result := []
    departures_added := 0
    departure := departure
    start := start.add DAY_TICKS order.GetWaitTime
    timetable_total_duration := wrapU32 (order.GetTravelTime + order.GetWaitTime)
    ticks_after_departure_start := 0
    unloaded_everything := false
    via := INVALID_STATION }

/-- The body of the loop over the vehicles of `RecalculateDepartures`
(departures.cpp lines 165-345): the entries that one vehicle adds to the result.
`uninit` is the value found in the uninitialised `repeat_after` of the entry under
construction. -/
def vehicleDepartures (Tdeparture_type : DepartureType) (Tdepartures_from : DeparturesFrom)
    (DAY_TICKS _date _date_fract : Int) (station : StationID) (vehicle_type : VehicleType)
    (uninit : Int) (vehicle : Vehicle) : List DepartureInfo :=
  if vehicle.IsStoppedInDepot then []
  else
    let cancelled := vehicle.current_order.IsType .OT_GOTO_DEPOT
    let first_order := FindFirstOrder Tdepartures_from DAY_TICKS _date _date_fract station vehicle
    match first_order.order with
    | none => []
    | some first =>
      match vehicle.orders[first]? with
      | none => []
      | some order =>
        let s := walkStart DAY_TICKS vehicle_type uninit vehicle cancelled first_order order
        let s := walkLoop Tdeparture_type Tdepartures_from DAY_TICKS station cancelled
          vehicle.orders first vehicle.GetNumOrders
          (nextOrder vehicle.GetNumOrders first) s
        let s := walkFinish Tdeparture_type cancelled first_order s
        setRepeatAfter s.result s.departures_added s.timetable_total_duration

/-- The company vehicle types, `VEH_BEGIN` up to `VEH_COMPANY_END`. -/
def companyVehicleTypes : List VehicleType :=
  [.VEH_TRAIN, .VEH_ROAD, .VEH_SHIP, .VEH_AIRCRAFT]

/-- The function `RecalculateDepartures<Tdeparture_type, Tdepartures_from>(station)`.
The vehicle
lists come from `GenerateVehicleSortList`, which is outside the sources at hand:
`vehicles vehicle_type` is the list it produces for a vehicle type, or `none` when it
fails. -/
def RecalculateDepartures (Tdeparture_type : DepartureType)
    (Tdepartures_from : DeparturesFrom) (DAY_TICKS _date _date_fract : Int)
    (vehicles : VehicleType → Option (List Vehicle)) (uninit : Int) (station : StationID) :
    List DepartureInfo :=
  companyVehicleTypes.flatMap fun vehicle_type =>
    match vehicles vehicle_type with
    | none => []
    | some list =>
      list.flatMap
        (vehicleDepartures Tdeparture_type Tdepartures_from DAY_TICKS _date _date_fract
          station vehicle_type uninit)

/-! ## `departures_gui.cpp`: ranking of the entries -/

/-- The functor `DepartureAfter<Tdeparture_type>::operator()`: whether `lhs` ranks after
`rhs` in the queue of `CreatePrintableDepartures`. -/
def DepartureAfter (Tdeparture_type : DepartureType) (DAY_TICKS : Int)
    (lhs rhs : DepartureInfo) : Bool :=
  match Tdeparture_type with
  | .DT_DEPARTURE => lhs.gt DAY_TICKS rhs
  | .DT_ARRIVAL => lhs.arrival.gt rhs.arrival

/-! ## `departures_gui.cpp`: the filter on vehicle types -/

/-- Modelled from the spec: the numeric value of a `VehicleType` (from `vehicle_type.h`):
`VEH_TRAIN = 0`, `VEH_ROAD`, `VEH_SHIP`, `VEH_AIRCRAFT`, `VEH_EFFECT`, `VEH_DISASTER`. -/
def VehicleType.toNat : VehicleType → Nat
  | .VEH_TRAIN => 0
  | .VEH_ROAD => 1
  | .VEH_SHIP => 2
  | .VEH_AIRCRAFT => 3
  | .VEH_EFFECT => 4
  | .VEH_DISASTER => 5

/-- The `enum ShowVehicleType`: the positions of the bits of `VehicleTypes`. -/
inductive ShowVehicleType where
  | SVT_TRAINS
  | SVT_BUSES
  | SVT_LORRIES
  | SVT_SHIPS
  | SVT_PLANES
deriving DecidableEq, Repr

/-- The numeric value of a `ShowVehicleType`. -/
def ShowVehicleType.toNat : ShowVehicleType → Nat
  | .SVT_TRAINS => 0
  | .SVT_BUSES => 1
  | .SVT_LORRIES => 2
  | .SVT_SHIPS => 3
  | .SVT_PLANES => 4

/-- The type `VehicleTypes`, a `std::bitset<5>`, given by its five bits from position 0
to position 4. -/
structure VehicleTypes where
  bit0 : Bool
  bit1 : Bool
  bit2 : Bool
  bit3 : Bool
  bit4 : Bool
deriving DecidableEq, Repr

/-- The access `vehicle_types[pos]`.  A position beyond the five bits, which C++ leaves
undefined, reads as `false`; the entries of `RecalculateDepartures` have a vehicle type
below `VEH_COMPANY_END = 4`. -/
def VehicleTypes.test (vehicle_types : VehicleTypes) (pos : Nat) : Bool :=
  match pos with
  | 0 => vehicle_types.bit0
  | 1 => vehicle_types.bit1
  | 2 => vehicle_types.bit2
  | 3 => vehicle_types.bit3
  | 4 => vehicle_types.bit4
  | _ => false

/-- The function `ShowDeparture`.  `IsCargoInClassPassengers c` stands for
`IsCargoInClass(c, CC_PASSENGERS)`, which belongs to `cargotype.h`. -/
def ShowDeparture (IsCargoInClassPassengers : Nat → Bool) (di : DepartureInfo)
    (vehicle_types : VehicleTypes) : Bool :=
  match di.vehicle_type with
  | .VEH_TRAIN => vehicle_types.test ShowVehicleType.SVT_TRAINS.toNat
  | .VEH_ROAD =>
    let pax := IsCargoInClassPassengers di.vehicle.cargo_type
    (pax && vehicle_types.test ShowVehicleType.SVT_BUSES.toNat) ||
      (!pax && vehicle_types.test ShowVehicleType.SVT_LORRIES.toNat)
  | .VEH_SHIP => vehicle_types.test ShowVehicleType.SVT_SHIPS.toNat
  | .VEH_AIRCRAFT => vehicle_types.test ShowVehicleType.SVT_PLANES.toNat
  | _ => false

/-! ## `departures_gui.cpp`: `NumberOfDepartures`

The static `uint16 days_of_departures` (initialised to `DAYS_IN_LEAP_YEAR * 1`, 366 days)
is a parameter of the functions that read it. -/

/-- The body of the loop of `NumberOfDepartures` for the entry `it`: `scheduled` is an
`int64`, `limit` a `Date` and `result` a `uint16`; the quotient is computed in `int64`. -/
def NumberOfDepartures_body (Tdeparture_type : DepartureType)
    (IsCargoInClassPassengers : Nat → Bool) (DAY_TICKS : Int) (limit : Int)
    (vehicle_types : VehicleTypes) (result : Int) (it : DepartureInfo) : Int :=
  let scheduled := wrapI64 (it.arrival.Ticks DAY_TICKS)
  let scheduled :=
    match Tdeparture_type with
    | .DT_DEPARTURE => wrapI64 (scheduled + it.wait_time)
    | .DT_ARRIVAL => scheduled
  if decide (scheduled < limit) && ShowDeparture IsCargoInClassPassengers it vehicle_types then
    let result := wrapU16 (result + 1)
    if it.repeat_after != 0 then
      wrapU16 (wrapI64 (result + Int.tdiv (wrapI64 (limit - scheduled)) it.repeat_after))
    else result
  else result

/-- The function `NumberOfDepartures`; `_date` is the current day.  The limit
`(_date + days_of_departures) * DAY_TICKS` is computed in `int` and stored in a `Date`. -/
def NumberOfDepartures (Tdeparture_type : DepartureType)
    (IsCargoInClassPassengers : Nat → Bool) (DAY_TICKS _date days_of_departures : Int)
    (departures : List DepartureInfo) (vehicle_types : VehicleTypes) : Int :=
  let limit := wrapI32 (wrapI32 (_date + days_of_departures) * DAY_TICKS)
  departures.foldl
    (NumberOfDepartures_body Tdeparture_type IsCargoInClassPassengers DAY_TICKS limit
      vehicle_types) 0

/-! ## `departures_gui.cpp`: `CreatePrintableDepartures` -/

/-- The `PrintableDeparture<Tdeparture_type>` struct; the pointers `calling_at` and
`vehicle` are modelled by the values they point to. -/
structure PrintableDeparture where
  scheduled_arrival : Int
  scheduled_departure : Int
  expected : Int
  status : DepartureStatus
  calling_at : List CallingAt
  destination_index : Nat
  via : StationID
  vehicle : Vehicle
  vehicle_type : VehicleType
deriving DecidableEq, Repr

/-- The constructor of `PrintableDeparture`; `_date` is the current day, read by
`Status()`. -/
def PrintableDeparture.construct (Tdeparture_type : DepartureType) (DAY_TICKS _date : Int)
    (di : DepartureInfo) (destination_index : Nat) (via : StationID) : PrintableDeparture :=
  { scheduled_arrival := di.arrival.date
    scheduled_departure := di.ScheduledDeparture DAY_TICKS
    expected := di.ExpectedArrival DAY_TICKS
    status := di.Status Tdeparture_type DAY_TICKS _date
    calling_at := di.calling_at
    destination_index := destination_index
    via := via
    vehicle := di.vehicle
    vehicle_type := di.vehicle_type }

/-- The `DestinationStationArrival` struct: a `uint64` and two `uint32` tick counts. -/
structure DestinationStationArrival where
  start_ticks : Int
  after_ticks : Int
  every_ticks : Int
deriving DecidableEq, Repr

/-- The list that the map `arrival_times` of `CreatePrintableDepartures` holds for
`station` once it is filled (departures_gui.cpp lines 172-188); an empty list stands for
a missing key.  The map stays empty in arrival mode. -/
def arrival_times (Tdeparture_type : DepartureType) (DAY_TICKS : Int)
    (departures : List DepartureInfo) (vehicle_types : VehicleTypes) (station : StationID) :
    List DestinationStationArrival :=
  match Tdeparture_type with
  | .DT_DEPARTURE =>
    departures.flatMap fun di =>
      di.calling_at.filterMap fun calling_at =>
        if vehicle_types.test di.vehicle_type.toNat && calling_at.station == station then
          some
            { start_ticks := wrapU64 (di.arrival.Ticks DAY_TICKS + di.wait_time)
              after_ticks := calling_at.ticks_after_departure_start
              every_ticks := di.repeat_after }
        else none
  | .DT_ARRIVAL => []

/-- Whether the service `arrival` makes `found_later_departure_that_arrives_earlier` true
(departures_gui.cpp lines 242-257): its first departure at or after `departure_ticks`
reaches the station before `calling_at_ticks`.  The tick counts are `uint64`, `diff` is an
`int64`. -/
def laterDepartureArrivesEarlier (departure_ticks calling_at_ticks : Int)
    (arrival : DestinationStationArrival) : Bool :=
  if arrival.every_ticks == 0 then
    decide (arrival.start_ticks ≥ departure_ticks) &&
      decide (wrapU64 (arrival.start_ticks + arrival.after_ticks) < calling_at_ticks)
  else
    let diff := wrapI64 (wrapU64 (wrapI64 departure_ticks - arrival.start_ticks))
    let first_departure_time_after :=
      if diff > 0 then
        wrapU64 (arrival.start_ticks +
          wrapI64 (Int.tdiv (wrapI64 (wrapI64 (diff + arrival.every_ticks) - 1))
            arrival.every_ticks * arrival.every_ticks))
      else arrival.start_ticks
    decide (wrapU64 (first_departure_time_after + arrival.after_ticks) < calling_at_ticks)

/-- The loop `for (destination_index = ...; destination_index > 0; destination_index--)`
of `CreatePrintableDepartures` entered with the given index and via station: the index
and the via station with which it ends, or `none` when `di->calling_at[destination_index]`
lies outside the list. -/
def findDestination (DAY_TICKS : Int)
    (arrivals : StationID → List DestinationStationArrival) (di : DepartureInfo) :
    Nat → StationID → Option (Nat × StationID)
  | 0, via => some (0, via)
  | destination_index + 1, via =>
    match di.calling_at[destination_index + 1]? with
    | none => none
    | some calling_at =>
      let via := if calling_at.station == via then INVALID_STATION else via
      let departure_ticks := wrapU64 (di.arrival.Ticks DAY_TICKS + di.wait_time)
      let calling_at_ticks :=
        wrapU64 (departure_ticks + calling_at.ticks_after_departure_start)
      if (arrivals calling_at.station).any
          (laterDepartureArrivesEarlier departure_ticks calling_at_ticks) then
        findDestination DAY_TICKS arrivals di destination_index via
      else some (destination_index + 1, via)

/-- The `switch` that computes `destination_index` and `via` for the entry `di`
(departures_gui.cpp lines 225-269).  In departure mode the loop starts at
`di->calling_at.Length() - 1`, an unsigned value that lies outside the list when the list
is empty. -/
def destinationOf (Tdeparture_type : DepartureType) (DAY_TICKS : Int)
    (arrivals : StationID → List DestinationStationArrival) (di : DepartureInfo) :
    Option (Nat × StationID) :=
  match Tdeparture_type with
  | .DT_DEPARTURE =>
    if di.calling_at.length = 0 then none
    else findDestination DAY_TICKS arrivals di (di.calling_at.length - 1) di.via
  | .DT_ARRIVAL => some (0, di.via)

/-- The queue `q` of `CreatePrintableDepartures` is modelled by the list of its entries in
the order in which they were pushed.  `queuePop` is `q.top()` followed by `q.pop()`: the
entry that ranks after no other one, with the entries that stay in the queue.
`std::priority_queue` leaves the choice among entries of equal rank to the library; the
model takes the one that was pushed first. -/
def queuePop (Tordering : DepartureInfo → DepartureInfo → Bool) :
    List DepartureInfo → Option (DepartureInfo × List DepartureInfo)
  | [] => none
  | x :: xs =>
    match queuePop Tordering xs with
    | none => some (x, [])
    | some (y, rest) => if Tordering x y then some (y, x :: rest) else some (x, xs)

/-- The common tail of both loops of `CreatePrintableDepartures`: a repeating entry is
progressed and pushed again if its scheduled departure is before `limit`. -/
def requeue (DAY_TICKS limit : Int) (q : List DepartureInfo) (di : DepartureInfo) :
    List DepartureInfo :=
  if di.Repeats then
    let di := di.ProgressToNextDeparture DAY_TICKS
    if di.ScheduledDeparture DAY_TICKS < limit then q ++ [di] else q
  else q

/-- The loop `for (uint i = 0; i < skip && !q.empty(); i++)` of
`CreatePrintableDepartures`, with the number of iterations that `skip` still allows. -/
def skipLoop (Tordering : DepartureInfo → DepartureInfo → Bool) (DAY_TICKS limit : Int) :
    Nat → List DepartureInfo → List DepartureInfo
  | 0, q => q
  | skip + 1, q =>
    match queuePop Tordering q with
    | none => q
    | some (di, q) => skipLoop Tordering DAY_TICKS limit skip (requeue DAY_TICKS limit q di)

/-- The loop `for (uint i = 0; i < len && !q.empty(); i++)` of
`CreatePrintableDepartures`, with the number of iterations that `len` still allows: the
printable departures that it appends to `result`, or `none` when the destination loop
leaves the calling-at list. -/
def pageLoop (Tdeparture_type : DepartureType)
    (Tordering : DepartureInfo → DepartureInfo → Bool) (DAY_TICKS _date limit : Int)
    (arrivals : StationID → List DestinationStationArrival) :
    Nat → List DepartureInfo → Option (List PrintableDeparture)
  | 0, _ => some []
  | len + 1, q =>
    match queuePop Tordering q with
    | none => some []
    | some (di, q) =>
      match destinationOf Tdeparture_type DAY_TICKS arrivals di with
      | none => none
      | some (destination_index, via) =>
        match pageLoop Tdeparture_type Tordering DAY_TICKS _date limit arrivals len
            (requeue DAY_TICKS limit q di) with
        | none => none
        | some result =>
          some (PrintableDeparture.construct Tdeparture_type DAY_TICKS _date di
            destination_index via :: result)

/-- The function `CreatePrintableDepartures<Tdeparture_type, Tordering>`; `_date` is the
current day.  The result is `none` when the destination loop reads outside a calling-at
list.  The entries in the queue are modelled by their values; the changes that the
function makes to the list of the caller are not part of the result. -/
def CreatePrintableDepartures (Tdeparture_type : DepartureType)
    (Tordering : DepartureInfo → DepartureInfo → Bool)
    (IsCargoInClassPassengers : Nat → Bool) (DAY_TICKS _date days_of_departures : Int)
    (_station : StationID) (departures : List DepartureInfo) (vehicle_types : VehicleTypes)
    (skip len : Nat) : Option (List PrintableDeparture) :=
  let arrivals := arrival_times Tdeparture_type DAY_TICKS departures vehicle_types
  let limit := wrapI32 (_date + days_of_departures)
  let q := departures.filter fun it =>
    decide (it.ScheduledDeparture DAY_TICKS < limit) &&
      ShowDeparture IsCargoInClassPassengers it vehicle_types
  let q := skipLoop Tordering DAY_TICKS limit skip q
  pageLoop Tdeparture_type Tordering DAY_TICKS _date limit arrivals len q

/-- The call of `CreatePrintableDepartures` in the departures window: the ordering is
`DepartureAfter<Tdeparture_type>`. -/
def windowDepartures (Tdeparture_type : DepartureType)
    (IsCargoInClassPassengers : Nat → Bool) (DAY_TICKS _date days_of_departures : Int)
    (station : StationID) (departures : List DepartureInfo) (vehicle_types : VehicleTypes)
    (skip len : Nat) : Option (List PrintableDeparture) :=
  CreatePrintableDepartures Tdeparture_type (DepartureAfter Tdeparture_type DAY_TICKS)
    IsCargoInClassPassengers DAY_TICKS _date days_of_departures station departures
    vehicle_types skip len

/-! ## Vocabulary of the properties -/

/-- The departure predicate of the scanner: a goto-station order that targets the
station, allows pick-up and is not via-only, or, in waypoint mode, a goto-waypoint order
whose destination is the station. -/
def qualifies (Tdepartures_from : DeparturesFrom) (station : StationID) (o : Order) : Bool :=
  (o.IsType .OT_GOTO_STATION &&
      (o.GetDestination == station && OrderIsPickUp o && !OrderIsVia o)) ||
    ((o.IsType .OT_GOTO_WAYPOINT && Tdepartures_from == .DF_WAYPOINT) &&
      o.GetDestination == station)

/-- The orders at which the scanner gives up: a conditional order, an order without
travel time, or a goto-station order that stops at its destination without wait time. -/
def scanBreaks (o : Order) : Bool :=
  (o.IsType .OT_CONDITIONAL || o.GetTravelTime == 0) ||
    (o.IsType .OT_GOTO_STATION && (!OrderIsVia o && o.GetWaitTime == 0))

/-- The position of the `k`-th order of the cyclic scan that starts at position `start`
of a list of `n` orders (`k` counted from 0). -/
def scanIndex (n start k : Nat) : Nat := (nextOrder n)^[k] start

/-- Travel time plus wait time of the order at position `i`. -/
def orderTravelWait (orders : List Order) (i : Nat) : Int :=
  match orders[i]? with
  | some o => o.GetTravelTime + o.GetWaitTime
  | none => 0

/-- The sum of travel time plus wait time over the first `k` orders of the cyclic scan
that starts at position `start`. -/
def scanTicks (orders : List Order) (start k : Nat) : Int :=
  ((List.range k).map fun j => orderTravelWait orders (scanIndex orders.length start j)).sum

/-- The state carried by a loop outcome. -/
def Flow.state {σ : Type} : Flow σ → σ
  | .next s => s
  | .brk s => s

/-- The walk of `RecalculateDepartures` over an explicit sequence of orders: the body is
run on each order in turn until it breaks. -/
def walkListF (Tdeparture_type : DepartureType) (Tdepartures_from : DeparturesFrom)
    (DAY_TICKS : Int) (station : StationID) (cancelled : Bool) :
    List Order → WalkState → Flow WalkState
  | [], s => .next s
  | order :: rest, s =>
    match walkBody Tdeparture_type Tdepartures_from DAY_TICKS station cancelled order s with
    | .brk s => .brk s
    | .next s => walkListF Tdeparture_type Tdepartures_from DAY_TICKS station cancelled rest s

/-- The orders that the walk visits when it starts after position `first`: the orders
behind `first`, then the orders in front of it. -/
def visitedOrders (orders : List Order) (first : Nat) : List Order :=
  orders.drop (first + 1) ++ orders.take first

/-- What an order adds to the timetable total duration of the walk: nothing for an
implicit order, travel time plus wait time otherwise. -/
def durationOf (o : Order) : Int :=
  if o.IsType .OT_IMPLICIT then 0 else o.GetTravelTime + o.GetWaitTime

/-- Whether a stop at the station of the board starts a new entry: an order that allows
pick-up on a departure board, an order that allows set-down on an arrival board. -/
def boardsAt (Tdeparture_type : DepartureType) (o : Order) : Bool :=
  match Tdeparture_type with
  | .DT_DEPARTURE => OrderIsPickUp o
  | .DT_ARRIVAL => OrderIsSetDown o

/-! ## Example data -/

/-- A goto-station order that stops at its destination, loads and unloads if possible. -/
def stationOrder (dest : StationID) (travel_time wait_time : Fin 65536) : Order :=
  { type := .OT_GOTO_STATION
    dest := dest
    travel_time := travel_time
    wait_time := wait_time
    load := .OLF_LOAD_IF_POSSIBLE
    unload := .OUF_UNLOAD_IF_POSSIBLE
    non_stop := .ONSF_STOP_EVERYWHERE }

/-- A vehicle on the road (not loading, not heading for a depot, on time) at the start
of the order at position `cur`. -/
def vehicleWith (orders : List Order) (cur : Nat)
    (orders_le : orders.length ≤ 255 := by decide) : Vehicle :=
  { orders := orders
    orders_le := orders_le
    cur_implicit_order_index := cur
    current_order := { stationOrder 0 0 0 with type := .OT_NOTHING }
    current_order_time := 0
    lateness_counter := 0
    stopped_in_depot := false
    cargo_type := 0 }

/-- A vehicle shuttling between station 2 and station 1, currently heading for
station 2. -/
def shuttle : Vehicle :=
  vehicleWith [stationOrder 2 15 5, stationOrder 1 25 10] 0

/-- A vehicle loading at station 1, 30 ticks into its current order, 5 ticks early;
the travel time of the current order is 15 ticks. -/
def loadingEarly : Vehicle :=
  { vehicleWith [stationOrder 1 15 10, stationOrder 2 20 5] 0 with
    current_order := { stationOrder 1 15 10 with type := .OT_LOADING }
    current_order_time := 30
    lateness_counter := -5 }

/-- A vehicle whose only order goes to station 1 with pick-up but without wait time. -/
def zeroWaitOnly : Vehicle :=
  vehicleWith [stationOrder 1 25 0] 0

/-- A vehicle that passes station 2 without stopping and then calls at station 1. -/
def viaThenStation : Vehicle :=
  vehicleWith
    [{ stationOrder 2 15 5 with non_stop := .ONSF_NO_STOP_AT_DESTINATION_STATION },
     stationOrder 1 25 10] 0

/-- A vehicle with a conditional order in front of its order for station 1. -/
def conditionalFirst : Vehicle :=
  vehicleWith [{ stationOrder 0 0 0 with type := .OT_CONDITIONAL }, stationOrder 1 25 10] 0

/-- A vehicle calling at station 1 and station 2 whose order list ends with a conditional
order. -/
def conditionalLater : Vehicle :=
  vehicleWith
    [stationOrder 1 25 10, stationOrder 2 15 5,
     { stationOrder 0 0 0 with type := .OT_CONDITIONAL }] 0

/-- A vehicle with an implicit order (travel time 7) between its timetabled orders for
station 1 and station 2. -/
def withImplicit : Vehicle :=
  vehicleWith
    [stationOrder 1 10 5, { stationOrder 3 7 0 with type := .OT_IMPLICIT },
     stationOrder 2 10 5] 0

/-- A vehicle whose third order stops at station 3 without wait time. -/
def zeroWaitLater : Vehicle :=
  vehicleWith [stationOrder 1 25 10, stationOrder 2 15 5, stationOrder 3 20 0] 0

/-- A vehicle that loads at station 1, calls at station 2 and comes back to station 1
for unloading only. -/
def loopBack : Vehicle :=
  vehicleWith
    [stationOrder 1 5 10, stationOrder 2 5 5,
     { stationOrder 1 5 5 with load := .OLFB_NO_LOAD }] 0

/-- A vehicle that calls at station 1, at station 2, and again at station 1 for loading
only. -/
def loopBackLoadOnly : Vehicle :=
  vehicleWith
    [stationOrder 1 5 10, stationOrder 2 5 5,
     { stationOrder 1 5 5 with unload := .OUFB_NO_UNLOAD }] 0

/-- The shuttle on its way to a depot. -/
def shuttleToDepot : Vehicle :=
  { shuttle with current_order := { stationOrder 0 0 0 with type := .OT_GOTO_DEPOT } }

/-- The shuttle stopped in a depot. -/
def shuttleInDepot : Vehicle :=
  { shuttle with stopped_in_depot := true }

/-- A vehicle that picks up at stations 1 and 2 and unloads everything at station 3. -/
def unloadAtThree : Vehicle :=
  vehicleWith
    [stationOrder 1 25 10, stationOrder 2 15 5,
     { stationOrder 3 20 5 with unload := .OUFB_UNLOAD }] 0

/-- A travelling train entry of the shuttle with the given arrival, wait time, lateness
and repeat time, calling at station 2 after 15 ticks. -/
def entryAt (arrival : ArrivalTime) (wait_time lateness repeat_after : Int) : DepartureInfo :=
  { calling_at := [{ station := 2, ticks_after_departure_start := 15 }]
    via := INVALID_STATION
    arrival := arrival
    wait_time := wait_time
    vehicle_status := .VS_TRAVELLING
    lateness := lateness
    vehicle := shuttle
    vehicle_type := .VEH_TRAIN
    repeat_after := repeat_after }

/-- The order for station A of the scenario: load, travel 25, wait 10. -/
def scenarioA : Order :=
  { stationOrder 1 25 10 with unload := .OUFB_NO_UNLOAD }

/-- The order for station B of the scenario: unload, travel 15, wait 5. -/
def scenarioB : Order :=
  { stationOrder 2 15 5 with load := .OLFB_NO_LOAD }

/-- The order for station C of the scenario: unload and via-only, travel 20, wait 0. -/
def scenarioC : Order :=
  { stationOrder 3 20 0 with
    load := .OLFB_NO_LOAD
    non_stop := .ONSF_NO_STOP_AT_DESTINATION_STATION }

/-- The vehicle of the scenario with the three orders A, B, C. -/
def scenarioVehicle : Vehicle :=
  vehicleWith [scenarioA, scenarioB, scenarioC] 0

/-- A vehicle that picks up at station 1, picks up at station 3 without unloading,
picks up at station 1 again and then calls at station 2. -/
def pickupTwice : Vehicle :=
  vehicleWith
    [stationOrder 1 5 10, { stationOrder 3 5 5 with unload := .OUFB_NO_UNLOAD },
     stationOrder 1 5 10, stationOrder 2 5 5] 0

/-! ## Vocabulary of the properties of the page -/

/-- An entry fits below the day `bound`: its arrival is normalized with a non-negative
day, its wait time is a `uint16`, and the tick count of its scheduled departure
`arrival + wait_time` lies before the start of day `bound`. -/
def DepartureInfo.fits (DAY_TICKS bound : Int) (e : DepartureInfo) : Prop :=
  0 ≤ e.arrival.date ∧ 0 ≤ e.arrival.date_fract ∧ e.arrival.date_fract < DAY_TICKS ∧
    0 ≤ e.wait_time ∧ e.wait_time < 65536 ∧
    e.arrival.date * DAY_TICKS + e.arrival.date_fract + e.wait_time < bound * DAY_TICKS

instance (DAY_TICKS bound : Int) (e : DepartureInfo) :
    Decidable (DepartureInfo.fits DAY_TICKS bound e) := by
  unfold DepartureInfo.fits
  infer_instance

/-- The filter of the departures window with every vehicle type enabled. -/
def allVehicleTypes : VehicleTypes :=
  { bit0 := true, bit1 := true, bit2 := true, bit3 := true, bit4 := true }

/-- The filter with no vehicle type enabled. -/
def noVehicleTypes : VehicleTypes :=
  { bit0 := false, bit1 := false, bit2 := false, bit3 := false, bit4 := false }

/-- A goto-waypoint order. -/
def waypointOrder (dest : StationID) (travel_time wait_time : Fin 65536) : Order :=
  { stationOrder dest travel_time wait_time with type := .OT_GOTO_WAYPOINT }

/-- A vehicle that passes waypoint 1, calls at station 2, passes waypoint 5 and calls at
station 3. -/
def twoWaypoints : Vehicle :=
  vehicleWith
    [waypointOrder 1 10 0, stationOrder 2 10 5, waypointOrder 5 10 0, stationOrder 3 10 5] 0

/-- A vehicle that calls at station 1, passes station 5 without stopping, then stops at
station 5, unloads everything at station 6 without loading, and calls at station 7. -/
def viaThenFullUnload : Vehicle :=
  vehicleWith
    [stationOrder 1 10 5,
     { stationOrder 5 10 0 with non_stop := .ONSF_NO_STOP_AT_DESTINATION_STATION },
     stationOrder 5 10 5,
     { stationOrder 6 10 5 with load := .OLFB_NO_LOAD, unload := .OUFB_UNLOAD },
     stationOrder 7 10 5] 0

/-- A vehicle that calls at station 1 twice per round trip, with station 2 and station 3
in between, and is loading at station 1 at its first order, 30 ticks into that order. -/
def loadingTwice : Vehicle :=
  { vehicleWith
      [stationOrder 1 15 10, stationOrder 2 20 5, stationOrder 1 15 10, stationOrder 3 20 5]
      0 with
    current_order := { stationOrder 1 15 10 with type := .OT_LOADING }
    current_order_time := 30 }

/-- The entry `entryAt` as a ship entry. -/
def shipEntryAt (arrival : ArrivalTime) (wait_time lateness repeat_after : Int) :
    DepartureInfo :=
  { entryAt arrival wait_time lateness repeat_after with vehicle_type := .VEH_SHIP }

/-- The filter with only the ships enabled. -/
def shipsOnly : VehicleTypes :=
  { noVehicleTypes with bit3 := true }

/-- The filter with only the lorries enabled. -/
def lorriesOnly : VehicleTypes :=
  { noVehicleTypes with bit2 := true }

/-- A travelling train entry that calls at station 2 after 15 ticks and at station 3
after 30 ticks. -/
def entryTwoStops (arrival : ArrivalTime) (wait_time repeat_after : Int) : DepartureInfo :=
  { entryAt arrival wait_time 0 repeat_after with
    calling_at :=
      [{ station := 2, ticks_after_departure_start := 15 },
       { station := 3, ticks_after_departure_start := 30 }] }

/-- A travelling train entry that calls at station 3 only, after the given number of
ticks. -/
def entryToThree (arrival : ArrivalTime) (wait_time repeat_after after : Int) :
    DepartureInfo :=
  { entryAt arrival wait_time 0 repeat_after with
    calling_at := [{ station := 3, ticks_after_departure_start := after }] }

/-- The value of `found_later_departure_that_arrives_earlier` at the end of the body of
the destination loop of `CreatePrintableDepartures` for the index `destination_index` of
the entry `di` (departures_gui.cpp lines 230-260): whether the stop at that index is
dropped.  An index outside the calling-at list counts as not dropped. -/
def stopDropped (DAY_TICKS : Int) (arrivals : StationID → List DestinationStationArrival)
    (di : DepartureInfo) (destination_index : Nat) : Bool :=
  match di.calling_at[destination_index]? with
  | none => false
  | some calling_at =>
    let departure_ticks := wrapU64 (di.arrival.Ticks DAY_TICKS + di.wait_time)
    let calling_at_ticks :=
      wrapU64 (departure_ticks + calling_at.ticks_after_departure_start)
    (arrivals calling_at.station).any
      (laterDepartureArrivesEarlier departure_ticks calling_at_ticks)

/-- An entry whose tick counts are computed without wrap-around: its arrival has a
non-negative day and tick and a tick count `date * DAY_TICKS + date_fract` below `2^31`
(so that `Ticks()` is exact), its wait time is a `uint16`, and its repeat time and the
offsets of its calling-at list are `uint32` values. -/
def DepartureInfo.ticksFit (DAY_TICKS : Int) (e : DepartureInfo) : Prop :=
  0 ≤ e.arrival.date ∧ 0 ≤ e.arrival.date_fract ∧
    e.arrival.date * DAY_TICKS + e.arrival.date_fract < 2147483648 ∧
    0 ≤ e.wait_time ∧ e.wait_time < 65536 ∧
    0 ≤ e.repeat_after ∧ e.repeat_after < 4294967296 ∧
    ∀ ca ∈ e.calling_at,
      0 ≤ ca.ticks_after_departure_start ∧ ca.ticks_after_departure_start < 4294967296

instance (DAY_TICKS : Int) (e : DepartureInfo) :
    Decidable (DepartureInfo.ticksFit DAY_TICKS e) := by
  unfold DepartureInfo.ticksFit
  infer_instance

/-! ## Time arithmetic: lemmas -/

theorem wrapU64_eq_self {x : Int} (h0 : 0 ≤ x) (h1 : x < 18446744073709551616) :
    wrapU64 x = x := by
  unfold wrapU64; omega

theorem wrapI32_eq_self {x : Int} (h0 : -2147483648 ≤ x) (h1 : x < 2147483648) :
    wrapI32 x = x := by
  unfold wrapI32; omega

theorem wrapU16_eq_self {x : Int} (h0 : 0 ≤ x) (h1 : x < 65536) : wrapU16 x = x := by
  unfold wrapU16; omega

/-- The product of a day below `2^31` and a day length below `2^31` is below `2^62`. -/
theorem day_mul_bound {d T : Int} (hd0 : 0 ≤ d) (hd1 : d < 2147483648) (hT0 : 0 < T)
    (hT1 : T < 2147483648) : 0 ≤ d * T ∧ d * T < 4611686018427387904 := by
  constructor
  · exact Int.mul_nonneg hd0 (le_of_lt hT0)
  · nlinarith

/-- Without wrap-around, `total_ticks` is the plain sum. -/
theorem ArrivalTime.total_ticks_exact (DAY_TICKS : Int) (a : ArrivalTime) (ticks : Int)
    (hT0 : 0 < DAY_TICKS) (hT1 : DAY_TICKS < 2147483648)
    (hd0 : 0 ≤ a.date) (hd1 : a.date < 2147483648)
    (h0 : 0 ≤ a.date * DAY_TICKS + a.date_fract + ticks)
    (h1 : a.date * DAY_TICKS + a.date_fract + ticks < 18446744073709551616) :
    ArrivalTime.total_ticks DAY_TICKS a ticks = a.date * DAY_TICKS + a.date_fract + ticks := by
  have hp := day_mul_bound hd0 hd1 hT0 hT1
  unfold ArrivalTime.total_ticks
  rw [wrapU64_eq_self hd0 (by omega), wrapU64_eq_self (le_of_lt hT0) (by omega)]
  unfold wrapU64
  omega

/-- The timestamp of a tick count whose day fits the 32-bit `Date`. -/
theorem ArrivalTime.ofTicks_eq (DAY_TICKS t : Int) (hT0 : 0 < DAY_TICKS)
    (hT1 : DAY_TICKS ≤ 65536) (ht : 0 ≤ t) (hfit : t < 2147483648 * DAY_TICKS) :
    ArrivalTime.ofTicks DAY_TICKS t = ⟨t / DAY_TICKS, t % DAY_TICKS⟩ := by
  have hq0 : 0 ≤ t / DAY_TICKS := Int.ediv_nonneg ht (le_of_lt hT0)
  have hq1 : t / DAY_TICKS < 2147483648 := Int.ediv_lt_of_lt_mul hT0 hfit
  have hr0 : 0 ≤ t % DAY_TICKS := Int.emod_nonneg _ (by omega)
  have hr1 : t % DAY_TICKS < DAY_TICKS := Int.emod_lt_of_pos _ hT0
  unfold ArrivalTime.ofTicks
  rw [wrapU64_eq_self (le_of_lt hT0) (by omega), wrapI32_eq_self (by omega) hq1,
    wrapU16_eq_self hr0 (by omega)]

/-- For a timestamp with a non-negative day, `operator+` yields the timestamp of the sum of
the tick counts, as long as the day of the sum fits the 32-bit `Date`. -/
theorem ArrivalTime.add_eq (DAY_TICKS : Int) (a : ArrivalTime) (ticks : Int)
    (hT0 : 0 < DAY_TICKS) (hT1 : DAY_TICKS ≤ 65536)
    (hd0 : 0 ≤ a.date) (hf0 : 0 ≤ a.date_fract)
    (hk0 : 0 ≤ ticks) (hk1 : ticks < 65536)
    (hfit : a.date * DAY_TICKS + a.date_fract + ticks < 2147483648 * DAY_TICKS) :
    a.add DAY_TICKS ticks =
      ⟨(a.date * DAY_TICKS + a.date_fract + ticks) / DAY_TICKS,
       (a.date * DAY_TICKS + a.date_fract + ticks) % DAY_TICKS⟩ := by
  have hd1 : a.date < 2147483648 := by
    by_contra hc
    have : (2147483648 : Int) * DAY_TICKS ≤ a.date * DAY_TICKS :=
      Int.mul_le_mul_of_nonneg_right (by omega) (le_of_lt hT0)
    omega
  have hp := day_mul_bound hd0 hd1 hT0 (by omega : DAY_TICKS < 2147483648)
  have hbig : (2147483648 : Int) * DAY_TICKS ≤ 2147483648 * 65536 :=
    Int.mul_le_mul_of_nonneg_left hT1 (by norm_num)
  have htot := ArrivalTime.total_ticks_exact DAY_TICKS a ticks hT0 (by omega) hd0 hd1
    (by omega) (by omega)
  have hof := ArrivalTime.ofTicks_eq DAY_TICKS (a.date * DAY_TICKS + a.date_fract + ticks)
    hT0 hT1 (by omega) hfit
  unfold ArrivalTime.ofTicks at hof
  unfold ArrivalTime.add
  rw [wrapU16_eq_self hk0 hk1, htot]
  exact hof

/-- Adding ticks to the timestamp of a tick count `t` gives the timestamp of `t + ticks`,
as long as the day of the sum fits the 32-bit `Date`. -/
theorem ArrivalTime.add_ofTicks (DAY_TICKS t ticks : Int)
    (hT0 : 0 < DAY_TICKS) (hT1 : DAY_TICKS ≤ 65536)
    (ht : 0 ≤ t) (hk0 : 0 ≤ ticks) (hk1 : ticks < 65536)
    (hfit : t + ticks < 2147483648 * DAY_TICKS) :
    (ArrivalTime.ofTicks DAY_TICKS t).add DAY_TICKS ticks =
      ArrivalTime.ofTicks DAY_TICKS (t + ticks) := by
  have hq0 : 0 ≤ t / DAY_TICKS := Int.ediv_nonneg ht (le_of_lt hT0)
  have hr0 : 0 ≤ t % DAY_TICKS := Int.emod_nonneg _ (by omega)
  have hsplit : t / DAY_TICKS * DAY_TICKS + t % DAY_TICKS = t := by
    have := Int.ediv_add_emod t DAY_TICKS
    rw [Int.mul_comm] at this; exact this
  rw [ArrivalTime.ofTicks_eq DAY_TICKS t hT0 hT1 ht (by omega),
    ArrivalTime.ofTicks_eq DAY_TICKS (t + ticks) hT0 hT1 (by omega) hfit,
    ArrivalTime.add_eq DAY_TICKS _ ticks hT0 hT1 hq0 hr0 hk0 hk1
      (by show t / DAY_TICKS * DAY_TICKS + t % DAY_TICKS + ticks < _; omega)]
  show (⟨_, _⟩ : ArrivalTime) = _
  simp only [hsplit]

/-! ## C1: `Ticks` and `operator+` -/

/-- C1, evaluation of the code at the offending input: with 74 ticks per day, the
timestamp `t` of day 29020049, tick 21 has `t.Ticks() = 2^31 - 1`; one tick later,
`(t + 1)` is day 29020049, tick 22, and `(t + 1).Ticks()` is `2^64 - 2^31` instead of
`t.Ticks() + 1 = 2^31`, because `Ticks` multiplies and adds in 32-bit `int` before the
result is widened to 64 bits. -/
theorem Ticks_add_overflow :
    ArrivalTime.add 74 ⟨29020049, 21⟩ 1 = ⟨29020049, 22⟩ ∧
    ArrivalTime.Ticks 74 ⟨29020049, 21⟩ = 2147483647 ∧
    ArrivalTime.Ticks 74 (ArrivalTime.add 74 ⟨29020049, 21⟩ 1) = 18446744071562067968 ∧
    ArrivalTime.Ticks 74 (ArrivalTime.add 74 ⟨29020049, 21⟩ 1) ≠
      wrapU64 (ArrivalTime.Ticks 74 ⟨29020049, 21⟩ + 1) := by
  decide

/-- As long as the tick count stays below `2^31`, `Ticks` is exact and `operator+` adds
the tick delta to it. -/
theorem ArrivalTime.Ticks_add_of_small (DAY_TICKS : Int) (t : ArrivalTime) (d : Int)
    (hT0 : 0 < DAY_TICKS) (hT1 : DAY_TICKS ≤ 65536)
    (hd0 : 0 ≤ t.date) (hf0 : 0 ≤ t.date_fract) (hf1 : t.date_fract < DAY_TICKS)
    (hk0 : 0 ≤ d) (hk1 : d ≤ 65535)
    (hsmall : t.date * DAY_TICKS + t.date_fract + d < 2147483648) :
    (t.add DAY_TICKS d).Ticks DAY_TICKS = t.Ticks DAY_TICKS + d := by
  have hp : 0 ≤ t.date * DAY_TICKS := Int.mul_nonneg hd0 (le_of_lt hT0)
  have hle : (1 : Int) * DAY_TICKS ≤ 2147483648 * DAY_TICKS :=
    Int.mul_le_mul_of_nonneg_right (by norm_num) (le_of_lt hT0)
  have hq0 : 0 ≤ (t.date * DAY_TICKS + t.date_fract + d) / DAY_TICKS :=
    Int.ediv_nonneg (by omega) (le_of_lt hT0)
  have hr0 : 0 ≤ (t.date * DAY_TICKS + t.date_fract + d) % DAY_TICKS :=
    Int.emod_nonneg _ (by omega)
  have hsplit : (t.date * DAY_TICKS + t.date_fract + d) / DAY_TICKS * DAY_TICKS +
      (t.date * DAY_TICKS + t.date_fract + d) % DAY_TICKS =
      t.date * DAY_TICKS + t.date_fract + d := by
    have := Int.ediv_add_emod (t.date * DAY_TICKS + t.date_fract + d) DAY_TICKS
    rw [Int.mul_comm] at this; exact this
  have hqp : 0 ≤ (t.date * DAY_TICKS + t.date_fract + d) / DAY_TICKS * DAY_TICKS :=
    Int.mul_nonneg hq0 (le_of_lt hT0)
  rw [ArrivalTime.add_eq DAY_TICKS t d hT0 hT1 hd0 hf0 hk0 (by omega) (by omega)]
  unfold ArrivalTime.Ticks wrapU64 wrapI32
  simp only []
  omega

/-! ## C2: `DateAfter` -/

/-- C2 as stated fails at the upper end of the 32-bit day range: the timestamp of day
`2^31 - 1`, tick 0 is normalized and has a non-negative day, and 74 ticks (one day of 74
ticks) later the day is `2^31`, but `DateAfter(74)` returns `-2^31`, because the quotient
is converted to the 32-bit `Date`. -/
theorem DateAfter_wraps_at_last_day :
    (0 : Int) ≤ 2147483647 * 74 + 0 + 74 ∧
    (2147483647 * 74 + 0 + 74 : Int) / 74 = 2147483648 ∧
    ArrivalTime.DateAfter 74 ⟨2147483647, 0⟩ 74 = -2147483648 ∧
    ArrivalTime.DateAfter 74 ⟨2147483647, 0⟩ 74 ≠ (2147483647 * 74 + 0 + 74 : Int) / 74 := by
  decide

/-- C2, amended: for a normalized timestamp `t` with a non-negative day and a signed
32-bit tick count `n` such that the tick count of `t` plus `n` is non-negative and the day
of the sum fits the 32-bit `Date`, `DateAfter(n)` is the floor of
`(day * DAY_TICKS + fraction + n) / DAY_TICKS`; for `n` in `0..65535` it is the day of
`t + n`; hence `ScheduledDeparture()` is the day of `arrival + wait_time` and
`ExpectedArrival()` the day of the arrival moved by the lateness. -/
theorem DateAfter_eq_day_of_sum (DAY_TICKS : Int) (t : ArrivalTime) (n : Int)
    (hT0 : 0 < DAY_TICKS) (hT1 : DAY_TICKS < 2147483648)
    (hd0 : 0 ≤ t.date) (hd1 : t.date < 2147483648)
    (hf0 : 0 ≤ t.date_fract) (hf1 : t.date_fract < DAY_TICKS)
    (hn0 : -2147483648 ≤ n) (hn1 : n < 2147483648)
    (h0 : 0 ≤ t.date * DAY_TICKS + t.date_fract + n)
    (hfit : (t.date * DAY_TICKS + t.date_fract + n) / DAY_TICKS < 2147483648) :
    t.DateAfter DAY_TICKS n = (t.date * DAY_TICKS + t.date_fract + n) / DAY_TICKS ∧
    (0 ≤ n → n ≤ 65535 → t.DateAfter DAY_TICKS n = (t.add DAY_TICKS n).date) ∧
    (∀ d : DepartureInfo, d.arrival = t → d.wait_time = n →
      d.ScheduledDeparture DAY_TICKS =
        (t.date * DAY_TICKS + t.date_fract + n) / DAY_TICKS ∧
      (0 ≤ n → n ≤ 65535 →
        d.ScheduledDeparture DAY_TICKS = (d.arrival.add DAY_TICKS d.wait_time).date)) ∧
    (∀ d : DepartureInfo, d.arrival = t → d.lateness = n →
      d.ExpectedArrival DAY_TICKS =
        (t.date * DAY_TICKS + t.date_fract + n) / DAY_TICKS) := by
  have hp := day_mul_bound hd0 hd1 hT0 hT1
  have hq0 : 0 ≤ (t.date * DAY_TICKS + t.date_fract + n) / DAY_TICKS :=
    Int.ediv_nonneg h0 (le_of_lt hT0)
  have hmain : t.DateAfter DAY_TICKS n =
      (t.date * DAY_TICKS + t.date_fract + n) / DAY_TICKS := by
    unfold ArrivalTime.DateAfter
    rw [wrapI32_eq_self hn0 hn1, wrapU64_eq_self (le_of_lt hT0) (by omega),
      ArrivalTime.total_ticks_exact DAY_TICKS t n hT0 hT1 hd0 hd1 h0 (by omega),
      wrapI32_eq_self (by omega) hfit]
  have hadd : 0 ≤ n → n ≤ 65535 → t.DateAfter DAY_TICKS n = (t.add DAY_TICKS n).date := by
    intro hn2 hn3
    unfold ArrivalTime.DateAfter ArrivalTime.add
    rw [wrapI32_eq_self hn0 hn1, wrapU16_eq_self hn2 (by omega)]
  refine ⟨hmain, hadd, ?_, ?_⟩
  · intro d hd hw
    unfold DepartureInfo.ScheduledDeparture
    rw [hd, hw]
    exact ⟨hmain, hadd⟩
  · intro d hd hl
    unfold DepartureInfo.ExpectedArrival
    rw [hd, hl]
    exact hmain

/-- The amended C2 at day 1000, tick 70 with 74 ticks per day and `n = 10`: the day
after 10 ticks is 1001. -/
theorem DateAfter_eq_day_of_sum_witness :
    ArrivalTime.DateAfter 74 ⟨1000, 70⟩ 10 = (1000 * 74 + 70 + 10) / 74 ∧
    ArrivalTime.DateAfter 74 ⟨1000, 70⟩ 10 = 1001 :=
  ⟨(DateAfter_eq_day_of_sum 74 ⟨1000, 70⟩ 10 (by decide) (by decide) (by decide) (by decide)
      (by decide) (by decide) (by decide) (by decide) (by decide) (by decide)).1,
    by decide⟩

/-! ## C3: the base time of `FindFirstOrder` -/

/-- C3, amended: the base time of `FindFirstOrder`, computed in unsigned 64-bit
arithmetic, is in each of the four cases the stated expression reduced modulo `2^64`,
hence the expression itself whenever that is a non-negative 64-bit value
(`now = day * DAY_TICKS + fraction`); in the scenario of a loading vehicle with elapsed
30, travel 15 and lateness -5 it is `now - 40` whenever `now` is at least 40. -/
theorem FindFirstOrder_total_ticks_eq (DAY_TICKS _date _date_fract : Int) (vehicle : Vehicle)
    (order : Order) :
    let now := _date * DAY_TICKS + _date_fract
    let loading := vehicle.current_order.IsType .OT_LOADING
    let base :=
      if loading = true ∧ vehicle.lateness_counter < 0 then
        now - vehicle.current_order_time - order.GetTravelTime - vehicle.lateness_counter
      else if loading = true then
        now - vehicle.current_order_time - order.GetTravelTime
      else if vehicle.lateness_counter > 0 then
        now - vehicle.current_order_time - vehicle.lateness_counter
      else
        now - vehicle.current_order_time
    FindFirstOrder_total_ticks DAY_TICKS _date _date_fract vehicle order = wrapU64 base ∧
    (0 ≤ base → base < 18446744073709551616 →
      FindFirstOrder_total_ticks DAY_TICKS _date _date_fract vehicle order = base) ∧
    (loading = true → vehicle.current_order_time = 30 → order.GetTravelTime = 15 →
      vehicle.lateness_counter = -5 → 40 ≤ now → now < 18446744073709551616 →
      FindFirstOrder_total_ticks DAY_TICKS _date _date_fract vehicle order = now - 40) := by
  intro now loading base
  have hmul : wrapU64 (wrapU64 _date * wrapU64 DAY_TICKS) = wrapU64 (_date * DAY_TICKS) := by
    unfold wrapU64
    rw [← Int.mul_emod]
  have hmain : FindFirstOrder_total_ticks DAY_TICKS _date _date_fract vehicle order =
      wrapU64 base := by
    unfold FindFirstOrder_total_ticks
    simp only [hmul, base, loading, now]
    unfold wrapU64
    split_ifs <;> first | omega | (exfalso; simp_all)
  refine ⟨hmain, ?_, ?_⟩
  · intro h0 h1
    rw [hmain, wrapU64_eq_self h0 h1]
  · intro hl he ht hlat h40 hnow
    rw [hmain]
    have hb : base = now - 40 := by
      simp only [base, hl, hlat, ht, he]
      norm_num
      omega
    rw [hb, wrapU64_eq_self (by omega) (by omega)]

/-- C3 on the loading vehicle of the scenario (elapsed 30, travel 15, lateness -5) at
day 1000, tick 0 with 74 ticks per day: the base time is `now - 40`. -/
theorem FindFirstOrder_total_ticks_eq_witness :
    FindFirstOrder_total_ticks 74 1000 0 loadingEarly (stationOrder 1 15 10) =
      1000 * 74 + 0 - 40 :=
  (FindFirstOrder_total_ticks_eq 74 1000 0 loadingEarly (stationOrder 1 15 10)).2.2
    (by decide) (by decide) (by decide) (by decide) (by decide) (by decide)

/-- C3, counterexample: at day 0, tick 0 a vehicle that is not loading, has no lateness
and is 100 ticks into its current order gets the base time `2^64 - 100`, not
`now - elapsed = -100`: the subtraction is done in unsigned 64-bit arithmetic. -/
theorem FindFirstOrder_total_ticks_wraps_below_zero :
    ({ shuttle with current_order_time := 100 } : Vehicle).current_order.IsType .OT_LOADING =
      false ∧
    ({ shuttle with current_order_time := 100 } : Vehicle).lateness_counter = 0 ∧
    FindFirstOrder_total_ticks 74 0 0 { shuttle with current_order_time := 100 }
      (stationOrder 2 15 5) = 18446744073709551516 ∧
    FindFirstOrder_total_ticks 74 0 0 { shuttle with current_order_time := 100 }
      (stationOrder 2 15 5) ≠
        0 * 74 + 0 -
          ({ shuttle with current_order_time := 100 } : Vehicle).current_order_time := by
  decide

/-! ## The order scanner: lemmas -/

theorem Order.GetTravelTime_nonneg (o : Order) : 0 ≤ o.GetTravelTime := by
  unfold Order.GetTravelTime; omega

theorem Order.GetTravelTime_lt (o : Order) : o.GetTravelTime < 65536 := by
  unfold Order.GetTravelTime; omega

theorem Order.GetWaitTime_nonneg (o : Order) : 0 ≤ o.GetWaitTime := by
  unfold Order.GetWaitTime; omega

theorem Order.GetWaitTime_lt (o : Order) : o.GetWaitTime < 65536 := by
  unfold Order.GetWaitTime; omega

/-- The three ways through the body of the scanning loop. -/
theorem FindFirstOrder_body_cases (Tdepartures_from : DeparturesFrom) (DAY_TICKS : Int)
    (station : StationID) (idx : Nat) (o : Order) (r : FirstOrder) :
    (scanBreaks o = true ∧
      FindFirstOrder_body Tdepartures_from DAY_TICKS station idx o r = .brk r) ∨
    (scanBreaks o = false ∧ qualifies Tdepartures_from station o = true ∧
      FindFirstOrder_body Tdepartures_from DAY_TICKS station idx o r =
        .brk { r with
          order := some idx
          arrival := r.arrival.add DAY_TICKS o.GetTravelTime }) ∨
    (scanBreaks o = false ∧ qualifies Tdepartures_from station o = false ∧
      FindFirstOrder_body Tdepartures_from DAY_TICKS station idx o r =
        .next { r with
          arrival := (r.arrival.add DAY_TICKS o.GetTravelTime).add DAY_TICKS o.GetWaitTime
          arrived := false }) := by
  unfold FindFirstOrder_body scanBreaks qualifies
  by_cases h1 : (o.IsType .OT_CONDITIONAL || o.GetTravelTime == 0) = true
  · left; simp [h1]
  · by_cases h2 : (o.IsType .OT_GOTO_STATION && (!OrderIsVia o && o.GetWaitTime == 0)) = true
    · left; simp only [h1, h2]; simp
    · by_cases h3 : (o.IsType .OT_GOTO_STATION &&
          (o.GetDestination == station && OrderIsPickUp o && !OrderIsVia o)) = true
      · right; left; simp only [h1, h2, h3]; simp
      · by_cases h4 : ((o.IsType .OT_GOTO_WAYPOINT && Tdepartures_from == .DF_WAYPOINT) &&
            o.GetDestination == station) = true
        · right; left; simp only [h1, h2, h3, h4]; simp
        · right; right; simp only [h1, h2, h3, h4]; simp

theorem scanIndex_zero (n start : Nat) : scanIndex n start 0 = start := rfl

theorem scanIndex_succ (n start k : Nat) :
    scanIndex n start (k + 1) = scanIndex n (nextOrder n start) k := by
  unfold scanIndex
  rw [Function.iterate_succ_apply]

theorem scanTicks_zero (orders : List Order) (start : Nat) : scanTicks orders start 0 = 0 := rfl

theorem scanTicks_succ (orders : List Order) (start k : Nat) :
    scanTicks orders start (k + 1) =
      orderTravelWait orders start + scanTicks orders (nextOrder orders.length start) k := by
  unfold scanTicks
  rw [List.range_succ_eq_map, List.map_cons, List.sum_cons, List.map_map, scanIndex_zero]
  congr 2

theorem scanTicks_nonneg (orders : List Order) (start k : Nat) :
    0 ≤ scanTicks orders start k := by
  unfold scanTicks
  apply List.sum_nonneg
  intro x hx
  rw [List.mem_map] at hx
  obtain ⟨j, _, rfl⟩ := hx
  unfold orderTravelWait
  split
  · rename_i o _
    have := o.GetTravelTime_nonneg
    have := o.GetWaitTime_nonneg
    omega
  · exact le_refl 0

/-- What the scanning loop establishes when it returns an order: the order is the first
of the scan that qualifies, no order up to it makes the scanner give up, and the arrived
flag survives only a match at the very first order. -/
theorem FindFirstOrder_loop_spec (Tdepartures_from : DeparturesFrom) (DAY_TICKS : Int)
    (station : StationID) (orders : List Order) :
    ∀ (remaining idx : Nat) (r : FirstOrder) (m : Nat),
      r.order = none →
      (FindFirstOrder_loop Tdepartures_from DAY_TICKS station orders remaining idx r).order =
        some m →
      ∃ k, k < remaining ∧ m = scanIndex orders.length idx k ∧
        (∃ o, orders[m]? = some o ∧ qualifies Tdepartures_from station o = true ∧
          scanBreaks o = false) ∧
        (∀ j, j < k → ∃ oj, orders[scanIndex orders.length idx j]? = some oj ∧
          qualifies Tdepartures_from station oj = false ∧ scanBreaks oj = false) ∧
        (FindFirstOrder_loop Tdepartures_from DAY_TICKS station orders remaining idx
          r).arrived = (r.arrived && decide (k = 0)) := by
  intro remaining
  induction remaining with
  | zero =>
    intro idx r m hr hm
    simp only [FindFirstOrder_loop] at hm
    rw [hr] at hm
    exact absurd hm (by simp)
  | succ remaining ih =>
    intro idx r m hr hm
    unfold FindFirstOrder_loop at hm ⊢
    cases ho : orders[idx]? with
    | none =>
      simp only [ho] at hm
      rw [hr] at hm
      exact absurd hm (by simp)
    | some o =>
      simp only [ho] at hm ⊢
      rcases FindFirstOrder_body_cases Tdepartures_from DAY_TICKS station idx o r with
        ⟨_, hb⟩ | ⟨hbr, hq, hb⟩ | ⟨hbr, hq, hb⟩
      · simp only [hb] at hm
        rw [hr] at hm
        exact absurd hm (by simp)
      · simp only [hb] at hm ⊢
        have hmi : idx = m := by simpa using hm
        subst hmi
        refine ⟨0, Nat.succ_pos _, (scanIndex_zero _ _).symm, ⟨o, ho, hq, hbr⟩, ?_, ?_⟩
        · intro j hj
          exact absurd hj (Nat.not_lt_zero j)
        · simp
      · simp only [hb] at hm ⊢
        obtain ⟨k, hk, hmk, hmatch, hpre, harrived⟩ :=
          ih (nextOrder orders.length idx)
            { r with
              arrival := (r.arrival.add DAY_TICKS o.GetTravelTime).add DAY_TICKS o.GetWaitTime
              arrived := false } m hr hm
        refine ⟨k + 1, Nat.succ_lt_succ hk, ?_, hmatch, ?_, ?_⟩
        · rw [scanIndex_succ]; exact hmk
        · intro j hj
          cases j with
          | zero => exact ⟨o, by rw [scanIndex_zero]; exact ho, hq, hbr⟩
          | succ j =>
            rw [scanIndex_succ]
            exact hpre j (Nat.lt_of_succ_lt_succ hj)
        · rw [harrived]; simp

/-- The scanning loop run forward: when the first `k` orders of the scan neither qualify
nor make the scanner give up and the `k`-th one qualifies, the loop returns that order,
with the arrival time advanced by the travel and wait times of the skipped orders and the
travel time of the match (as long as the day of the result fits the 32-bit `Date`). -/
theorem FindFirstOrder_loop_run (Tdepartures_from : DeparturesFrom) (DAY_TICKS : Int)
    (station : StationID) (orders : List Order) (hD0 : 0 < DAY_TICKS)
    (hD1 : DAY_TICKS ≤ 65536) :
    ∀ (k remaining idx : Nat) (r : FirstOrder) (T : Int) (o : Order),
      k < remaining → r.arrival = ArrivalTime.ofTicks DAY_TICKS T → 0 ≤ T →
      orders[scanIndex orders.length idx k]? = some o →
      qualifies Tdepartures_from station o = true → scanBreaks o = false →
      (∀ j, j < k → ∃ oj, orders[scanIndex orders.length idx j]? = some oj ∧
          qualifies Tdepartures_from station oj = false ∧ scanBreaks oj = false) →
      T + scanTicks orders idx k + o.GetTravelTime < 2147483648 * DAY_TICKS →
      (FindFirstOrder_loop Tdepartures_from DAY_TICKS station orders remaining idx
          r).arrival =
        ArrivalTime.ofTicks DAY_TICKS (T + scanTicks orders idx k + o.GetTravelTime) := by
  intro k
  induction k with
  | zero =>
    intro remaining idx r T o hk hT hT0 ho hq hbr _ hfit
    obtain ⟨rem, rfl⟩ : ∃ rem, remaining = rem + 1 := ⟨remaining - 1, by omega⟩
    rw [scanIndex_zero] at ho
    unfold FindFirstOrder_loop
    simp only [ho]
    rcases FindFirstOrder_body_cases Tdepartures_from DAY_TICKS station idx o r with
      ⟨hbr', _⟩ | ⟨_, _, hb⟩ | ⟨_, hq', _⟩
    · rw [hbr] at hbr'; exact absurd hbr' (by simp)
    · simp only [hb]
      rw [scanTicks_zero] at hfit ⊢
      simp only [Int.add_zero] at hfit ⊢
      rw [hT]
      exact ArrivalTime.add_ofTicks DAY_TICKS T o.GetTravelTime hD0 hD1 hT0
        o.GetTravelTime_nonneg o.GetTravelTime_lt hfit
    · rw [hq] at hq'; exact absurd hq' (by simp)
  | succ k ih =>
    intro remaining idx r T o hk hT hT0 ho hq hbr hpre hfit
    obtain ⟨rem, rfl⟩ : ∃ rem, remaining = rem + 1 := ⟨remaining - 1, by omega⟩
    obtain ⟨o0, ho0, hq0, hbr0⟩ := hpre 0 (Nat.succ_pos k)
    rw [scanIndex_zero] at ho0
    rw [scanIndex_succ] at ho
    have hotw : orderTravelWait orders idx = o0.GetTravelTime + o0.GetWaitTime := by
      unfold orderTravelWait; rw [ho0]
    rw [scanTicks_succ, hotw] at hfit ⊢
    have hw0 := o0.GetWaitTime_nonneg
    have hw1 := o0.GetWaitTime_lt
    have ht0 := o0.GetTravelTime_nonneg
    have ht1 := o0.GetTravelTime_lt
    have hs0 := scanTicks_nonneg orders (nextOrder orders.length idx) k
    have hot0 := o.GetTravelTime_nonneg
    unfold FindFirstOrder_loop
    simp only [ho0]
    rcases FindFirstOrder_body_cases Tdepartures_from DAY_TICKS station idx o0 r with
      ⟨hbr', _⟩ | ⟨_, hq', _⟩ | ⟨_, _, hb⟩
    · rw [hbr0] at hbr'; exact absurd hbr' (by simp)
    · rw [hq0] at hq'; exact absurd hq' (by simp)
    · simp only [hb]
      have harr : ((r.arrival.add DAY_TICKS o0.GetTravelTime).add DAY_TICKS
          o0.GetWaitTime) =
          ArrivalTime.ofTicks DAY_TICKS (T + o0.GetTravelTime + o0.GetWaitTime) := by
        rw [hT, ArrivalTime.add_ofTicks DAY_TICKS T o0.GetTravelTime hD0 hD1 hT0 ht0 ht1
          (by omega),
          ArrivalTime.add_ofTicks DAY_TICKS _ o0.GetWaitTime hD0 hD1 (by omega) hw0 hw1
          (by omega)]
      have hrec := ih rem (nextOrder orders.length idx)
        { r with
          arrival := (r.arrival.add DAY_TICKS o0.GetTravelTime).add DAY_TICKS o0.GetWaitTime
          arrived := false } (T + o0.GetTravelTime + o0.GetWaitTime) o
        (by omega) harr (by omega) ho hq hbr
        (fun j hj => by
          have := hpre (j + 1) (Nat.succ_lt_succ hj)
          rw [scanIndex_succ] at this
          exact this)
        (by omega)
      rw [hrec]
      congr 1
      omega

/-- The scanner started on a vehicle: the initial result has no order. -/
theorem FindFirstOrder_eq_loop (Tdepartures_from : DeparturesFrom)
    (DAY_TICKS _date _date_fract : Int) (station : StationID) (vehicle : Vehicle) (m : Nat)
    (h : (FindFirstOrder Tdepartures_from DAY_TICKS _date _date_fract station vehicle).order =
      some m) :
    ∃ cur, vehicle.orders[vehicle.cur_implicit_order_index % vehicle.GetNumOrders]? =
        some cur ∧
      FindFirstOrder Tdepartures_from DAY_TICKS _date _date_fract station vehicle =
        FindFirstOrder_loop Tdepartures_from DAY_TICKS station vehicle.orders
          vehicle.GetNumOrders (vehicle.cur_implicit_order_index % vehicle.GetNumOrders)
          { order := none
            arrival := ArrivalTime.ofTicks DAY_TICKS
              (FindFirstOrder_total_ticks DAY_TICKS _date _date_fract vehicle cur)
            arrived := vehicle.current_order.IsType .OT_LOADING } := by
  unfold FindFirstOrder at h ⊢
  cases ho : vehicle.orders[vehicle.cur_implicit_order_index % vehicle.GetNumOrders]? with
  | none =>
    simp only [ho] at h
    exact absurd h (by simp)
  | some cur =>
    exact ⟨cur, rfl, by simp only [ho]⟩

theorem FindFirstOrder_total_ticks_nonneg (DAY_TICKS _date _date_fract : Int)
    (vehicle : Vehicle) (order : Order) :
    0 ≤ FindFirstOrder_total_ticks DAY_TICKS _date _date_fract vehicle order := by
  unfold FindFirstOrder_total_ticks
  simp only []
  split_ifs <;> exact Int.emod_nonneg _ (by norm_num)

/-! ## C4: the scanner returns the first qualifying order -/

/-- C4: if `FindFirstOrder` returns an order, it is the `k`-th order of the cyclic scan
that starts at the vehicle's current order for some `k` below the number of orders, that
order qualifies (goto-station to the station with pick-up and not via-only, or in waypoint
mode goto-waypoint to the station), and none of the orders scanned before it qualifies. -/
theorem FindFirstOrder_returns_first_qualifying (Tdepartures_from : DeparturesFrom)
    (DAY_TICKS _date _date_fract : Int) (station : StationID) (vehicle : Vehicle) (m : Nat)
    (h : (FindFirstOrder Tdepartures_from DAY_TICKS _date _date_fract station vehicle).order =
      some m) :
    ∃ k, k < vehicle.GetNumOrders ∧
      m = scanIndex vehicle.GetNumOrders
        (vehicle.cur_implicit_order_index % vehicle.GetNumOrders) k ∧
      (∃ o, vehicle.orders[m]? = some o ∧ qualifies Tdepartures_from station o = true) ∧
      ∀ j, j < k → ∃ oj,
        vehicle.orders[scanIndex vehicle.GetNumOrders
          (vehicle.cur_implicit_order_index % vehicle.GetNumOrders) j]? = some oj ∧
        qualifies Tdepartures_from station oj = false := by
  obtain ⟨cur, _, heq⟩ := FindFirstOrder_eq_loop _ _ _ _ _ _ _ h
  rw [heq] at h
  obtain ⟨k, hk, hmk, ⟨o, ho, hq, _⟩, hpre, _⟩ :=
    FindFirstOrder_loop_spec _ _ _ _ _ _ _ _ rfl h
  refine ⟨k, hk, hmk, ⟨o, ho, hq⟩, ?_⟩
  intro j hj
  obtain ⟨oj, hoj, hqj, _⟩ := hpre j hj
  exact ⟨oj, hoj, hqj⟩

/-- C4 on the shuttle seen from station 1: the scan starts at the order for station 2
and returns the order at position 1. -/
theorem FindFirstOrder_returns_first_qualifying_witness :
    (FindFirstOrder .DF_STATION 74 1000 0 1 shuttle).order = some 1 ∧
    ∃ k, k < shuttle.GetNumOrders ∧
      1 = scanIndex shuttle.GetNumOrders
        (shuttle.cur_implicit_order_index % shuttle.GetNumOrders) k ∧
      (∃ o, shuttle.orders[1]? = some o ∧ qualifies .DF_STATION 1 o = true) ∧
      ∀ j, j < k → ∃ oj,
        shuttle.orders[scanIndex shuttle.GetNumOrders
          (shuttle.cur_implicit_order_index % shuttle.GetNumOrders) j]? = some oj ∧
        qualifies .DF_STATION 1 oj = false :=
  ⟨by decide,
    FindFirstOrder_returns_first_qualifying .DF_STATION 74 1000 0 1 shuttle 1 (by decide)⟩

/-! ## C5: the arrival time and the arrived flag of the scanner -/

/-- C5, amended: when `FindFirstOrder` matches the `k`-th scanned order `o`, the returned
arrival time is the timestamp (day, fraction) of the tick count
`base + sum over j < k of (travel + wait of the j-th scanned order) + travel of o`, where
`base` is the unsigned 64-bit base time the function computed, provided that tick count
is expressible as a timestamp (its day fits the 32-bit `Date`, and `DAY_TICKS`, at least
1, fits the 16-bit fraction); the returned arrived flag is true exactly when the vehicle
is loading and `k = 0`. -/
theorem FindFirstOrder_arrival (Tdepartures_from : DeparturesFrom)
    (DAY_TICKS _date _date_fract : Int) (station : StationID) (vehicle : Vehicle) (m : Nat)
    (hD0 : 0 < DAY_TICKS) (hD1 : DAY_TICKS ≤ 65536)
    (h : (FindFirstOrder Tdepartures_from DAY_TICKS _date _date_fract station vehicle).order =
      some m) :
    ∃ k cur o, k < vehicle.GetNumOrders ∧
      m = scanIndex vehicle.GetNumOrders
        (vehicle.cur_implicit_order_index % vehicle.GetNumOrders) k ∧
      vehicle.orders[vehicle.cur_implicit_order_index % vehicle.GetNumOrders]? = some cur ∧
      vehicle.orders[m]? = some o ∧
      qualifies Tdepartures_from station o = true ∧
      (∀ j, j < k → ∃ oj,
        vehicle.orders[scanIndex vehicle.GetNumOrders
          (vehicle.cur_implicit_order_index % vehicle.GetNumOrders) j]? = some oj ∧
        qualifies Tdepartures_from station oj = false) ∧
      (∀ T : Int,
        T = FindFirstOrder_total_ticks DAY_TICKS _date _date_fract vehicle cur +
          scanTicks vehicle.orders
            (vehicle.cur_implicit_order_index % vehicle.GetNumOrders) k +
          o.GetTravelTime →
        T < 2147483648 * DAY_TICKS →
        (FindFirstOrder Tdepartures_from DAY_TICKS _date _date_fract station vehicle).arrival =
          ⟨T / DAY_TICKS, T % DAY_TICKS⟩) ∧
      (FindFirstOrder Tdepartures_from DAY_TICKS _date _date_fract station vehicle).arrived =
        (vehicle.current_order.IsType .OT_LOADING && decide (k = 0)) := by
  obtain ⟨cur, hcur, heq⟩ := FindFirstOrder_eq_loop _ _ _ _ _ _ _ h
  rw [heq] at h ⊢
  obtain ⟨k, hk, hmk, ⟨o, ho, hq, hbr⟩, hpre, harrived⟩ :=
    FindFirstOrder_loop_spec _ _ _ _ _ _ _ _ rfl h
  refine ⟨k, cur, o, hk, hmk, hcur, ho, hq, ?_, ?_, harrived⟩
  · intro j hj
    obtain ⟨oj, hoj, hqj, _⟩ := hpre j hj
    exact ⟨oj, hoj, hqj⟩
  · intro T hT hfit
    have hb0 := FindFirstOrder_total_ticks_nonneg DAY_TICKS _date _date_fract vehicle cur
    have hs0 := scanTicks_nonneg vehicle.orders
      (vehicle.cur_implicit_order_index % vehicle.GetNumOrders) k
    have ht0 := o.GetTravelTime_nonneg
    have hrun := FindFirstOrder_loop_run Tdepartures_from DAY_TICKS station vehicle.orders
      hD0 hD1 k vehicle.GetNumOrders
      (vehicle.cur_implicit_order_index % vehicle.GetNumOrders)
      { order := none
        arrival := ArrivalTime.ofTicks DAY_TICKS
          (FindFirstOrder_total_ticks DAY_TICKS _date _date_fract vehicle cur)
        arrived := vehicle.current_order.IsType .OT_LOADING }
      (FindFirstOrder_total_ticks DAY_TICKS _date _date_fract vehicle cur) o hk rfl hb0
      (by rw [← hmk]; exact ho) hq hbr hpre (by rw [← hT]; exact hfit)
    rw [hrun, ← hT]
    exact ArrivalTime.ofTicks_eq DAY_TICKS T hD0 hD1 (by omega) hfit

/-- C5 on the shuttle seen from station 1 at day 1000, tick 0 with 74 ticks per day:
the order at position 1 is matched after one skipped order, at tick
74000 + (15 + 5) + 25 = 74045, which is day 1000, tick 45. -/
theorem FindFirstOrder_arrival_witness :
    FindFirstOrder .DF_STATION 74 1000 0 1 shuttle =
      { order := some 1, arrival := ⟨1000, 45⟩, arrived := false } ∧
    ∃ k cur o, k < shuttle.GetNumOrders ∧
      1 = scanIndex shuttle.GetNumOrders
        (shuttle.cur_implicit_order_index % shuttle.GetNumOrders) k ∧
      shuttle.orders[shuttle.cur_implicit_order_index % shuttle.GetNumOrders]? = some cur ∧
      shuttle.orders[1]? = some o ∧
      qualifies .DF_STATION 1 o = true ∧
      (∀ j, j < k → ∃ oj,
        shuttle.orders[scanIndex shuttle.GetNumOrders
          (shuttle.cur_implicit_order_index % shuttle.GetNumOrders) j]? = some oj ∧
        qualifies .DF_STATION 1 oj = false) ∧
      (∀ T : Int,
        T = FindFirstOrder_total_ticks 74 1000 0 shuttle cur +
          scanTicks shuttle.orders
            (shuttle.cur_implicit_order_index % shuttle.GetNumOrders) k +
          o.GetTravelTime →
        T < 2147483648 * 74 →
        (FindFirstOrder .DF_STATION 74 1000 0 1 shuttle).arrival = ⟨T / 74, T % 74⟩) ∧
      (FindFirstOrder .DF_STATION 74 1000 0 1 shuttle).arrived =
        (shuttle.current_order.IsType .OT_LOADING && decide (k = 0)) :=
  ⟨by decide,
    FindFirstOrder_arrival .DF_STATION 74 1000 0 1 shuttle 1 (by decide) (by decide)
      (by decide)⟩

/-- C5, counterexample: at day 0, tick 0 the shuttle, 100 ticks into its current order,
is matched at its second order (`k = 1`) after skipping 15 + 5 ticks, with 25 ticks of
travel.  The base time is `2^64 - 100`, the tick count of the claim `2^64 - 55`, and the
returned arrival is day 812561379, tick 43: neither the timestamp of `2^64 - 55` (its day
does not fit the 32-bit `Date`) nor the one of `-100 + 20 + 25 = -55`. -/
theorem FindFirstOrder_arrival_wraps :
    FindFirstOrder .DF_STATION 74 0 0 1 { shuttle with current_order_time := 100 } =
      { order := some 1, arrival := ⟨812561379, 43⟩, arrived := false } ∧
    FindFirstOrder_total_ticks 74 0 0 { shuttle with current_order_time := 100 }
        (stationOrder 2 15 5) +
      scanTicks ({ shuttle with current_order_time := 100 } : Vehicle).orders 0 1 +
      (stationOrder 1 25 10).GetTravelTime = 18446744073709551561 ∧
    (FindFirstOrder .DF_STATION 74 0 0 1 { shuttle with current_order_time := 100 }).arrival ≠
      ⟨18446744073709551561 / 74, 18446744073709551561 % 74⟩ ∧
    (FindFirstOrder .DF_STATION 74 0 0 1 { shuttle with current_order_time := 100 }).arrival ≠
      ⟨(-100 + (15 + 5) + 25) / 74, (-100 + (15 + 5) + 25) % 74⟩ := by
  decide

/-! ## C6 and C7: when the scanner gives up -/

/-- The scanner returns no order when the scan meets an order at which it gives up and
no order before that one qualifies. -/
theorem FindFirstOrder_none_of_break (Tdepartures_from : DeparturesFrom)
    (DAY_TICKS _date _date_fract : Int) (station : StationID) (vehicle : Vehicle)
    (k : Nat) (o : Order)
    (ho : vehicle.orders[scanIndex vehicle.GetNumOrders
      (vehicle.cur_implicit_order_index % vehicle.GetNumOrders) k]? = some o)
    (hbr : scanBreaks o = true)
    (hpre : ∀ j, j < k → ∀ oj,
      vehicle.orders[scanIndex vehicle.GetNumOrders
        (vehicle.cur_implicit_order_index % vehicle.GetNumOrders) j]? = some oj →
      qualifies Tdepartures_from station oj = false) :
    (FindFirstOrder Tdepartures_from DAY_TICKS _date _date_fract station vehicle).order =
      none := by
  cases hres : (FindFirstOrder Tdepartures_from DAY_TICKS _date _date_fract station
      vehicle).order with
  | none => rfl
  | some m =>
    exfalso
    obtain ⟨cur, _, heq⟩ := FindFirstOrder_eq_loop _ _ _ _ _ _ _ hres
    rw [heq] at hres
    obtain ⟨k', _, hmk, ⟨o', ho', hq', hbr'⟩, hpre', _⟩ :=
      FindFirstOrder_loop_spec _ _ _ _ _ _ _ _ rfl hres
    rw [hmk] at ho'
    rcases Nat.lt_trichotomy k' k with hlt | heq' | hgt
    · have := hpre k' hlt o' ho'
      rw [hq'] at this
      exact absurd this (by simp)
    · subst heq'
      have hsome : some o = some o' := ho.symm.trans ho'
      have : o = o' := by simpa using hsome
      subst this
      rw [hbr] at hbr'
      exact absurd hbr' (by simp)
    · obtain ⟨oj, hoj, _, hbj⟩ := hpre' k hgt
      have hsome : some o = some oj := ho.symm.trans hoj
      have : o = oj := by simpa using hsome
      subst this
      rw [hbr] at hbj
      exact absurd hbj (by simp)

/-- A vehicle for which the scanner finds no order adds no entries. -/
theorem vehicleDepartures_of_no_first_order (Tdeparture_type : DepartureType)
    (Tdepartures_from : DeparturesFrom) (DAY_TICKS _date _date_fract : Int)
    (station : StationID) (vehicle_type : VehicleType) (uninit : Int) (vehicle : Vehicle)
    (h : (FindFirstOrder Tdepartures_from DAY_TICKS _date _date_fract station vehicle).order =
      none) :
    vehicleDepartures Tdeparture_type Tdepartures_from DAY_TICKS _date _date_fract station
      vehicle_type uninit vehicle = [] := by
  unfold vehicleDepartures
  simp only [h]
  split <;> rfl

/-- C6 as stated fails in both directions.  A goto-station order for the station with
pick-up, not via-only, but without wait time is not returned as the match: the scanner
returns no order (`zeroWaitOnly`, station 1).  A via-only goto-station order does not end
the scan: the scanner goes on and returns the order after it (`viaThenStation`,
station 1). -/
theorem FindFirstOrder_zero_wait_match_and_via_counterexample :
    (qualifies .DF_STATION 1 (stationOrder 1 25 0) = true ∧
      (FindFirstOrder .DF_STATION 74 1000 0 1 zeroWaitOnly).order = none) ∧
    (OrderIsVia { stationOrder 2 15 5 with non_stop := .ONSF_NO_STOP_AT_DESTINATION_STATION }
        = true ∧
      (FindFirstOrder .DF_STATION 74 1000 0 1 viaThenStation).order = some 1) := by
  decide

/-- C6, amended: a goto-station order that is not via-only and has zero wait time ends the
scan with the result unchanged, whether or not it targets the station and allows pick-up,
so a scan that reaches it before any qualifying order returns no order; a via-only
goto-station order with a travel time never matches and does not end the scan: its travel
and wait times are added to the clock and the scan goes on; and the order that
`FindFirstOrder` returns is never a via-only or zero-wait goto-station order. -/
theorem FindFirstOrder_zero_wait_and_via (Tdepartures_from : DeparturesFrom)
    (DAY_TICKS _date _date_fract : Int) (station : StationID) (o : Order)
    (hst : o.IsType .OT_GOTO_STATION = true) :
    (OrderIsVia o = false → o.GetWaitTime = 0 →
      (∀ idx r, FindFirstOrder_body Tdepartures_from DAY_TICKS station idx o r = .brk r) ∧
      ∀ (vehicle : Vehicle) (k : Nat),
        vehicle.orders[scanIndex vehicle.GetNumOrders
          (vehicle.cur_implicit_order_index % vehicle.GetNumOrders) k]? = some o →
        (∀ j, j < k → ∀ oj,
          vehicle.orders[scanIndex vehicle.GetNumOrders
            (vehicle.cur_implicit_order_index % vehicle.GetNumOrders) j]? = some oj →
          qualifies Tdepartures_from station oj = false) →
        (FindFirstOrder Tdepartures_from DAY_TICKS _date _date_fract station vehicle).order =
          none) ∧
    (OrderIsVia o = true → o.GetTravelTime ≠ 0 →
      ∀ idx r, FindFirstOrder_body Tdepartures_from DAY_TICKS station idx o r =
        .next { r with
          arrival := (r.arrival.add DAY_TICKS o.GetTravelTime).add DAY_TICKS o.GetWaitTime
          arrived := false }) ∧
    (∀ (vehicle : Vehicle) (m : Nat),
      (FindFirstOrder Tdepartures_from DAY_TICKS _date _date_fract station vehicle).order =
        some m →
      vehicle.orders[m]? = some o → OrderIsVia o = false ∧ o.GetWaitTime ≠ 0) := by
  have hty : o.type = .OT_GOTO_STATION := by
    unfold Order.IsType at hst; simpa using hst
  refine ⟨?_, ?_, ?_⟩
  · intro hvia hw
    have hbr : scanBreaks o = true := by
      unfold scanBreaks; simp [hst, hvia, hw]
    refine ⟨?_, ?_⟩
    · intro idx r
      rcases FindFirstOrder_body_cases Tdepartures_from DAY_TICKS station idx o r with
        ⟨_, hb⟩ | ⟨hbr', _, _⟩ | ⟨hbr', _, _⟩
      · exact hb
      · rw [hbr] at hbr'; exact absurd hbr' (by simp)
      · rw [hbr] at hbr'; exact absurd hbr' (by simp)
    · intro vehicle k ho hpre
      exact FindFirstOrder_none_of_break _ _ _ _ _ _ k o ho hbr hpre
  · intro hvia ht idx r
    have hbr : scanBreaks o = false := by
      unfold scanBreaks Order.IsType; simp [hty, hvia, ht]
    have hq : qualifies Tdepartures_from station o = false := by
      unfold qualifies Order.IsType; simp [hty, hvia]
    rcases FindFirstOrder_body_cases Tdepartures_from DAY_TICKS station idx o r with
      ⟨hbr', _⟩ | ⟨_, hq', _⟩ | ⟨_, _, hb⟩
    · rw [hbr] at hbr'; exact absurd hbr' (by simp)
    · rw [hq] at hq'; exact absurd hq' (by simp)
    · exact hb
  · intro vehicle m hres hom
    obtain ⟨cur, _, heq⟩ := FindFirstOrder_eq_loop _ _ _ _ _ _ _ hres
    rw [heq] at hres
    obtain ⟨k', _, _, ⟨o', ho', hq', hbr'⟩, _, _⟩ :=
      FindFirstOrder_loop_spec _ _ _ _ _ _ _ _ rfl hres
    rw [hom] at ho'
    have : o = o' := by simpa using ho'
    subst this
    unfold qualifies Order.IsType at hq'
    unfold scanBreaks Order.IsType at hbr'
    simp [hty] at hq' hbr'
    refine ⟨hq'.2, ?_⟩
    intro hw
    have := hbr'.2 hq'.2
    exact this hw

/-- The amended C6 at the station order of `zeroWaitOnly` (not via-only, zero wait):
the body breaks, and the scan that meets it first returns no order. -/
theorem FindFirstOrder_zero_wait_and_via_witness :
    (stationOrder 1 25 0).IsType .OT_GOTO_STATION = true ∧
    (∀ idx r, FindFirstOrder_body .DF_STATION 74 1 idx (stationOrder 1 25 0) r = .brk r) ∧
    (FindFirstOrder .DF_STATION 74 1000 0 1 zeroWaitOnly).order = none :=
  ⟨by decide,
    ((FindFirstOrder_zero_wait_and_via .DF_STATION 74 1000 0 1 (stationOrder 1 25 0)
      (by decide)).1 (by decide) (by decide)).1,
    ((FindFirstOrder_zero_wait_and_via .DF_STATION 74 1000 0 1 (stationOrder 1 25 0)
      (by decide)).1 (by decide) (by decide)).2 zeroWaitOnly 0 (by decide)
      (fun j hj => absurd hj (Nat.not_lt_zero j))⟩

/-- C7: a vehicle none of whose orders satisfies the departure/waypoint predicate, and
likewise a vehicle whose scan meets a conditional or zero-travel-time order before any
qualifying order, gets no order from `FindFirstOrder` and adds no entries in
`RecalculateDepartures`. -/
theorem FindFirstOrder_no_departure (Tdepartures_from : DeparturesFrom)
    (DAY_TICKS _date _date_fract : Int) (station : StationID) (vehicle : Vehicle)
    (h : (∀ o, o ∈ vehicle.orders → qualifies Tdepartures_from station o = false) ∨
      (∃ k o,
        vehicle.orders[scanIndex vehicle.GetNumOrders
          (vehicle.cur_implicit_order_index % vehicle.GetNumOrders) k]? = some o ∧
        (o.IsType .OT_CONDITIONAL = true ∨ o.GetTravelTime = 0) ∧
        ∀ j, j < k → ∀ oj,
          vehicle.orders[scanIndex vehicle.GetNumOrders
            (vehicle.cur_implicit_order_index % vehicle.GetNumOrders) j]? = some oj →
          qualifies Tdepartures_from station oj = false)) :
    (FindFirstOrder Tdepartures_from DAY_TICKS _date _date_fract station vehicle).order =
      none ∧
    ∀ (Tdeparture_type : DepartureType) (vehicle_type : VehicleType) (uninit : Int),
      vehicleDepartures Tdeparture_type Tdepartures_from DAY_TICKS _date _date_fract station
        vehicle_type uninit vehicle = [] := by
  have hnone : (FindFirstOrder Tdepartures_from DAY_TICKS _date _date_fract station
      vehicle).order = none := by
    rcases h with hall | ⟨k, o, ho, hco, hpre⟩
    · cases hres : (FindFirstOrder Tdepartures_from DAY_TICKS _date _date_fract station
          vehicle).order with
      | none => rfl
      | some m =>
        exfalso
        obtain ⟨cur, _, heq⟩ := FindFirstOrder_eq_loop _ _ _ _ _ _ _ hres
        rw [heq] at hres
        obtain ⟨_, _, _, ⟨o', ho', hq', _⟩, _, _⟩ :=
          FindFirstOrder_loop_spec _ _ _ _ _ _ _ _ rfl hres
        have hmem : o' ∈ vehicle.orders := List.getElem?_mem ho'
        have := hall o' hmem
        rw [hq'] at this
        exact absurd this (by simp)
    · have hbr : scanBreaks o = true := by
        unfold scanBreaks
        rcases hco with hc | ht
        · simp [hc]
        · simp [ht]
      exact FindFirstOrder_none_of_break _ _ _ _ _ _ k o ho hbr hpre
  exact ⟨hnone, fun _ _ _ => vehicleDepartures_of_no_first_order _ _ _ _ _ _ _ _ _ hnone⟩

/-- C7 on a vehicle whose scan starts with a conditional order: no order, no entries. -/
theorem FindFirstOrder_no_departure_witness :
    (FindFirstOrder .DF_STATION 74 1000 0 1 conditionalFirst).order = none ∧
    ∀ (Tdeparture_type : DepartureType) (vehicle_type : VehicleType) (uninit : Int),
      vehicleDepartures Tdeparture_type .DF_STATION 74 1000 0 1 vehicle_type uninit
        conditionalFirst = [] :=
  FindFirstOrder_no_departure .DF_STATION 74 1000 0 1 conditionalFirst
    (Or.inr ⟨0, { stationOrder 0 0 0 with type := .OT_CONDITIONAL }, by decide,
      Or.inl (by decide), fun j hj => absurd hj (Nat.not_lt_zero j)⟩)

/-! ## The departure synthesizer: the walk as a traversal of a list -/

theorem walkListF_append (Tdeparture_type : DepartureType) (Tdepartures_from : DeparturesFrom)
    (DAY_TICKS : Int) (station : StationID) (cancelled : Bool) (l1 l2 : List Order) :
    ∀ s, walkListF Tdeparture_type Tdepartures_from DAY_TICKS station cancelled (l1 ++ l2) s =
      match walkListF Tdeparture_type Tdepartures_from DAY_TICKS station cancelled l1 s with
      | .brk t => .brk t
      | .next t => walkListF Tdeparture_type Tdepartures_from DAY_TICKS station cancelled l2 t := by
  induction l1 with
  | nil => intro s; rfl
  | cons o l1 ih =>
    intro s
    simp only [List.cons_append, walkListF]
    cases walkBody Tdeparture_type Tdepartures_from DAY_TICKS station cancelled o s with
    | brk t => rfl
    | next t => exact ih t

/-- The part of the walk in front of the first departure: from a position `idx` at or
before `first`, the walk runs through the orders at positions `idx` up to `first - 1`. -/
theorem walkLoop_front (Tdeparture_type : DepartureType) (Tdepartures_from : DeparturesFrom)
    (DAY_TICKS : Int) (station : StationID) (cancelled : Bool) (orders : List Order)
    (first : Nat) (hfirst : first < orders.length) :
    ∀ (d idx fuel : Nat) (s : WalkState), idx + d = first → d ≤ fuel →
      walkLoop Tdeparture_type Tdepartures_from DAY_TICKS station cancelled orders first
          fuel idx s =
        (walkListF Tdeparture_type Tdepartures_from DAY_TICKS station cancelled
          ((orders.take first).drop idx) s).state := by
  intro d
  induction d with
  | zero =>
    intro idx fuel s hidx _
    have hi : idx = first := by omega
    subst hi
    have hnil : (orders.take idx).drop idx = [] := by
      apply List.drop_eq_nil_of_le
      simp
    rw [hnil]
    cases fuel with
    | zero => rfl
    | succ fuel => simp [walkLoop, walkListF, Flow.state]
  | succ d ih =>
    intro idx fuel s hidx hfuel
    obtain ⟨fuel, rfl⟩ : ∃ f, fuel = f + 1 := ⟨fuel - 1, by omega⟩
    have hne : idx ≠ first := by omega
    have hlt : idx < orders.length := by omega
    have hlt2 : idx < (orders.take first).length := by
      rw [List.length_take]; omega
    have hget : orders[idx]? = some orders[idx] := List.getElem?_eq_getElem hlt
    have hcons : (orders.take first).drop idx =
        orders[idx] :: (orders.take first).drop (idx + 1) := by
      rw [List.drop_eq_getElem_cons hlt2]
      congr 1
      exact List.getElem_take orders
    have hnext : nextOrder orders.length idx = idx + 1 := by
      unfold nextOrder
      rw [if_neg (by omega)]
    rw [hcons]
    unfold walkLoop
    rw [if_neg hne]
    simp only [hget, walkListF]
    cases walkBody Tdeparture_type Tdepartures_from DAY_TICKS station cancelled orders[idx] s with
    | brk t => rfl
    | next t =>
      simp only [hnext]
      exact ih (idx + 1) fuel t (by omega) (by omega)

/-- The part of the walk behind the first departure: from a position `idx` after `first`,
the walk runs through the orders from `idx` to the last one, wraps around to the first
order of the list and runs through the orders in front of `first`. -/
theorem walkLoop_back (Tdeparture_type : DepartureType) (Tdepartures_from : DeparturesFrom)
    (DAY_TICKS : Int) (station : StationID) (cancelled : Bool) (orders : List Order)
    (first : Nat) (hfirst : first < orders.length) :
    ∀ (d idx fuel : Nat) (s : WalkState), first < idx → idx + d + 1 = orders.length →
      d + 1 + first ≤ fuel →
      walkLoop Tdeparture_type Tdepartures_from DAY_TICKS station cancelled orders first
          fuel idx s =
        (walkListF Tdeparture_type Tdepartures_from DAY_TICKS station cancelled
          (orders.drop idx ++ orders.take first) s).state := by
  intro d
  induction d with
  | zero =>
    intro idx fuel s hlt hidx hfuel
    obtain ⟨fuel, rfl⟩ : ∃ f, fuel = f + 1 := ⟨fuel - 1, by omega⟩
    have hne : idx ≠ first := by omega
    have hlt' : idx < orders.length := by omega
    have hget : orders[idx]? = some orders[idx] := List.getElem?_eq_getElem hlt'
    have hcons : orders.drop idx = [orders[idx]] := by
      rw [List.drop_eq_getElem_cons hlt']
      congr 1
      apply List.drop_eq_nil_of_le
      omega
    have hnext : nextOrder orders.length idx = 0 := by
      unfold nextOrder
      rw [if_pos (by omega)]
    rw [hcons]
    unfold walkLoop
    rw [if_neg hne]
    simp only [hget, List.singleton_append, walkListF]
    cases walkBody Tdeparture_type Tdepartures_from DAY_TICKS station cancelled orders[idx] s with
    | brk t => rfl
    | next t =>
      simp only [hnext]
      have := walkLoop_front Tdeparture_type Tdepartures_from DAY_TICKS station cancelled
        orders first hfirst first 0 fuel t (by omega) (by omega)
      rw [List.drop_zero] at this
      exact this
  | succ d ih =>
    intro idx fuel s hlt hidx hfuel
    obtain ⟨fuel, rfl⟩ : ∃ f, fuel = f + 1 := ⟨fuel - 1, by omega⟩
    have hne : idx ≠ first := by omega
    have hlt' : idx < orders.length := by omega
    have hget : orders[idx]? = some orders[idx] := List.getElem?_eq_getElem hlt'
    have hcons : orders.drop idx = orders[idx] :: orders.drop (idx + 1) :=
      List.drop_eq_getElem_cons hlt'
    have hnext : nextOrder orders.length idx = idx + 1 := by
      unfold nextOrder
      rw [if_neg (by omega)]
    rw [hcons]
    unfold walkLoop
    rw [if_neg hne]
    simp only [hget, List.cons_append, walkListF]
    cases walkBody Tdeparture_type Tdepartures_from DAY_TICKS station cancelled orders[idx] s with
    | brk t => rfl
    | next t =>
      simp only [hnext]
      exact ih (idx + 1) fuel t (by omega) (by omega) (by omega)

/-- The walk of `RecalculateDepartures`, given as many iterations as the vehicle has
orders, runs the body over every order other than the first departure, in cyclic order,
until the body breaks: the iteration bound never cuts the walk short. -/
theorem walkLoop_eq_walkListF (Tdeparture_type : DepartureType)
    (Tdepartures_from : DeparturesFrom) (DAY_TICKS : Int) (station : StationID)
    (cancelled : Bool) (orders : List Order) (first : Nat) (hfirst : first < orders.length)
    (s : WalkState) :
    walkLoop Tdeparture_type Tdepartures_from DAY_TICKS station cancelled orders first
        orders.length (nextOrder orders.length first) s =
      (walkListF Tdeparture_type Tdepartures_from DAY_TICKS station cancelled
        (visitedOrders orders first) s).state := by
  unfold visitedOrders
  by_cases hlast : first + 1 = orders.length
  · have hnext : nextOrder orders.length first = 0 := by
      unfold nextOrder
      rw [if_pos hlast]
    have hnil : orders.drop (first + 1) = [] := by
      apply List.drop_eq_nil_of_le
      omega
    rw [hnext, hnil, List.nil_append]
    have := walkLoop_front Tdeparture_type Tdepartures_from DAY_TICKS station cancelled
      orders first hfirst first 0 orders.length s (by omega) (by omega)
    rw [List.drop_zero] at this
    exact this
  · have hnext : nextOrder orders.length first = first + 1 := by
      unfold nextOrder
      rw [if_neg hlast]
    rw [hnext]
    exact walkLoop_back Tdeparture_type Tdepartures_from DAY_TICKS station cancelled
      orders first hfirst (orders.length - first - 2) (first + 1) orders.length s
      (by omega) (by omega) (by omega)

/-- The visited orders together with the first departure are the orders of the vehicle:
every order other than the one at `first` is visited. -/
theorem mem_visitedOrders (orders : List Order) (first : Nat) (o o1 : Order)
    (h1 : orders[first]? = some o1) (ho : o ∈ orders) :
    o = o1 ∨ o ∈ visitedOrders orders first := by
  have hlt : first < orders.length := by
    rcases List.getElem?_eq_some.mp h1 with ⟨h, _⟩
    exact h
  have hsplit : orders = orders.take first ++ (o1 :: orders.drop (first + 1)) := by
    have h2 : orders[first] = o1 := by
      rcases List.getElem?_eq_some.mp h1 with ⟨_, h⟩
      exact h
    rw [← h2, ← List.drop_eq_getElem_cons hlt, List.take_append_drop]
  rw [hsplit] at ho
  unfold visitedOrders
  simp only [List.mem_append, List.mem_cons] at ho ⊢
  tauto

theorem visitedOrders_subset (orders : List Order) (first : Nat) (o : Order)
    (ho : o ∈ visitedOrders orders first) : o ∈ orders := by
  unfold visitedOrders at ho
  rcases List.mem_append.mp ho with h | h
  · exact List.mem_of_mem_drop h
  · exact List.mem_of_mem_take h

theorem visitedOrders_length (orders : List Order) (first : Nat)
    (hfirst : first < orders.length) :
    (visitedOrders orders first).length + 1 = orders.length := by
  unfold visitedOrders
  rw [List.length_append, List.length_drop, List.length_take]
  omega

/-- The durations of the visited orders and of the first departure add up to the sum over
the whole order list. -/
theorem visitedOrders_sum (orders : List Order) (first : Nat) (o1 : Order)
    (h1 : orders[first]? = some o1) (f : Order → Int) :
    ((visitedOrders orders first).map f).sum + f o1 = (orders.map f).sum := by
  have hlt : first < orders.length := by
    rcases List.getElem?_eq_some.mp h1 with ⟨h, _⟩
    exact h
  have hsplit : orders = orders.take first ++ (o1 :: orders.drop (first + 1)) := by
    have h2 : orders[first] = o1 := by
      rcases List.getElem?_eq_some.mp h1 with ⟨_, h⟩
      exact h
    rw [← h2, ← List.drop_eq_getElem_cons hlt, List.take_append_drop]
  conv_rhs => rw [hsplit]
  unfold visitedOrders
  simp only [List.map_append, List.sum_append, List.map_cons, List.sum_cons]
  omega

/-! ## The departure synthesizer: one pass through the body -/

/-- The handlers of a goto-station order push at most one entry, which has the
calling-at list of the departure under construction, and leave the timetable total
duration alone. -/
theorem walkDeparture_result (station : StationID) (cancelled : Bool) (o : Order)
    (s : WalkState) :
    (walkDeparture station cancelled o s).timetable_total_duration =
      s.timetable_total_duration ∧
    (((walkDeparture station cancelled o s).result = s.result ∧
        (walkDeparture station cancelled o s).departures_added = s.departures_added) ∨
      (∃ e, e.calling_at = s.departure.calling_at ∧
        (walkDeparture station cancelled o s).result = s.result ++ [e] ∧
        (walkDeparture station cancelled o s).departures_added =
          (s.departures_added + 1) % 256)) := by
  unfold walkDeparture
  simp only []
  split_ifs <;> simp

theorem walkArrival_result (station : StationID) (cancelled : Bool) (o : Order)
    (s : WalkState) :
    (walkArrival station cancelled o s).timetable_total_duration =
      s.timetable_total_duration ∧
    (((walkArrival station cancelled o s).result = s.result ∧
        (walkArrival station cancelled o s).departures_added = s.departures_added) ∨
      (∃ e, e.calling_at = s.departure.calling_at ∧
        (walkArrival station cancelled o s).result = s.result ++ [e] ∧
        (walkArrival station cancelled o s).departures_added =
          (s.departures_added + 1) % 256)) := by
  unfold walkArrival
  simp only []
  split_ifs <;> simp

theorem walkWaypoint_result (cancelled : Bool) (o : Order) (s : WalkState) :
    (walkWaypoint cancelled o s).timetable_total_duration = s.timetable_total_duration ∧
    (walkWaypoint cancelled o s).departure.calling_at = [] ∧
    (((walkWaypoint cancelled o s).result = s.result ∧
        (walkWaypoint cancelled o s).departures_added = s.departures_added) ∨
      (∃ e, e.calling_at = s.departure.calling_at ∧
        (walkWaypoint cancelled o s).result = s.result ++ [e] ∧
        (walkWaypoint cancelled o s).departures_added = (s.departures_added + 1) % 256)) := by
  unfold walkWaypoint DepartureInfo.Reset
  simp only []
  split_ifs <;> simp

/-- In departure mode a stop enters the calling-at list only through an order that is not
a pick-up at the station of the board. -/
theorem walkDeparture_calling_at (station : StationID) (cancelled : Bool) (o : Order)
    (s : WalkState) (ca : CallingAt)
    (hca : ca ∈ (walkDeparture station cancelled o s).departure.calling_at) :
    ca ∈ s.departure.calling_at ∨
      (ca.station = o.GetDestination ∧
        ¬(station = o.GetDestination ∧ OrderIsPickUp o = true)) := by
  unfold walkDeparture DepartureInfo.Reset at hca
  simp only [] at hca
  split_ifs at hca with h1
  all_goals simp at hca
  all_goals first
    | (left; exact hca)
    | (rcases hca with h | h
       · left; exact h
       · right; subst h; refine ⟨rfl, ?_⟩; simpa using h1)

/-- In arrival mode a stop enters the calling-at list only through an order that is not
a set-down at the station of the board. -/
theorem walkArrival_calling_at (station : StationID) (cancelled : Bool) (o : Order)
    (s : WalkState) (ca : CallingAt)
    (hca : ca ∈ (walkArrival station cancelled o s).departure.calling_at) :
    ca ∈ s.departure.calling_at ∨
      (ca.station = o.GetDestination ∧
        ¬(station = o.GetDestination ∧ OrderIsSetDown o = true)) := by
  have herase : ∀ x, x ∈ (match existing_index s.departure.calling_at o.GetDestination with
      | some index => s.departure.calling_at.eraseIdx index
      | none => s.departure.calling_at) → x ∈ s.departure.calling_at := by
    intro x hx
    split at hx
    · exact List.mem_of_mem_eraseIdx hx
    · exact hx
  unfold walkArrival DepartureInfo.Reset at hca
  simp only [] at hca
  split_ifs at hca with h1 h2 h3 h4 h5 h6 h7
  all_goals simp only [List.mem_append, List.mem_singleton, List.not_mem_nil, false_or,
    List.nil_append] at hca
  all_goals first
    | exact False.elim hca
    | (left; exact hca)
    | (right; subst hca; exact ⟨rfl, by simpa using h1⟩)
    | (rcases hca with h | h
       · left; exact herase _ h
       · right; subst h; exact ⟨rfl, by simpa using h1⟩)

/-- The handling of the stop of an order pushes at most one entry (with the calling-at
list built so far), leaves the timetable total duration alone, and lets a stop enter the
calling-at list only through a goto-station order that does not restart the board. -/
theorem walkStops_spec (Tdeparture_type : DepartureType) (Tdepartures_from : DeparturesFrom)
    (station : StationID) (cancelled : Bool) (o : Order) (s : WalkState) :
    (walkStops Tdeparture_type Tdepartures_from station cancelled o s).timetable_total_duration
      = s.timetable_total_duration ∧
    (((walkStops Tdeparture_type Tdepartures_from station cancelled o s).result = s.result ∧
        (walkStops Tdeparture_type Tdepartures_from station cancelled o s).departures_added =
          s.departures_added) ∨
      (∃ e, e.calling_at = s.departure.calling_at ∧
        (walkStops Tdeparture_type Tdepartures_from station cancelled o s).result =
          s.result ++ [e] ∧
        (walkStops Tdeparture_type Tdepartures_from station cancelled o s).departures_added =
          (s.departures_added + 1) % 256)) ∧
    (∀ ca,
      ca ∈ (walkStops Tdeparture_type Tdepartures_from station cancelled o
        s).departure.calling_at →
      ca ∈ s.departure.calling_at ∨
      (ca.station = o.GetDestination ∧ o.IsType .OT_GOTO_STATION = true ∧
        ¬(station = o.GetDestination ∧
          boardsAt Tdeparture_type o = true))) := by
  unfold walkStops
  cases hst : o.IsType .OT_GOTO_STATION with
  | true =>
    have hty : o.type = .OT_GOTO_STATION := by
      unfold Order.IsType at hst; simpa using hst
    have hwp : (o.IsType .OT_GOTO_WAYPOINT && Tdepartures_from == .DF_WAYPOINT) = false := by
      unfold Order.IsType; simp [hty]
    simp only [hwp, if_true, Bool.false_eq_true, if_false]
    cases Tdeparture_type with
    | DT_DEPARTURE =>
      simp only []
      have hr := walkDeparture_result station cancelled o s
      refine ⟨hr.1, hr.2, ?_⟩
      intro ca hca
      rcases walkDeparture_calling_at station cancelled o s ca hca with hc | hc
      · left; exact hc
      · right; exact ⟨hc.1, trivial, hc.2⟩
    | DT_ARRIVAL =>
      simp only []
      have hr := walkArrival_result station cancelled o s
      refine ⟨hr.1, hr.2, ?_⟩
      intro ca hca
      rcases walkArrival_calling_at station cancelled o s ca hca with hc | hc
      · left; exact hc
      · right; exact ⟨hc.1, trivial, hc.2⟩
  | false =>
    simp only [Bool.false_eq_true, if_false]
    by_cases hwp : (o.IsType .OT_GOTO_WAYPOINT && Tdepartures_from == .DF_WAYPOINT) = true
    · rw [if_pos hwp]
      have hr := walkWaypoint_result cancelled o s
      refine ⟨hr.1, hr.2.2, ?_⟩
      intro ca hca
      rw [hr.2.1] at hca
      exact absurd hca (List.not_mem_nil ca)
    · rw [if_neg hwp]
      exact ⟨rfl, Or.inl ⟨rfl, rfl⟩, fun ca hca => Or.inl hca⟩

/-- A pass through the body that breaks: the order is one at which the scanner gives up
as well, the timetable total duration is reset to 0, and nothing is pushed. -/
theorem walkBody_brk (Tdeparture_type : DepartureType) (Tdepartures_from : DeparturesFrom)
    (DAY_TICKS : Int) (station : StationID) (cancelled : Bool) (o : Order)
    (s t : WalkState)
    (h : walkBody Tdeparture_type Tdepartures_from DAY_TICKS station cancelled o s = .brk t) :
    scanBreaks o = true ∧ t.timetable_total_duration = 0 ∧ t.result = s.result ∧
      t.departures_added = s.departures_added ∧ t.departure = s.departure := by
  unfold walkBody at h
  by_cases h1 : (o.IsType .OT_CONDITIONAL || o.GetTravelTime == 0) = true
  · rw [if_pos h1] at h
    injection h with h
    subst h
    refine ⟨?_, rfl, rfl, rfl, rfl⟩
    unfold scanBreaks
    simp [h1]
  · rw [if_neg h1] at h
    simp only [] at h
    by_cases h2 : o.IsType .OT_IMPLICIT = true
    · rw [if_pos h2] at h
      exact Flow.noConfusion h
    · rw [if_neg h2] at h
      by_cases h3 : (o.IsType .OT_GOTO_STATION && OrderIsVia o) = true
      · rw [if_pos h3] at h
        exact Flow.noConfusion h
      · rw [if_neg h3] at h
        by_cases h4 : (o.IsType .OT_GOTO_STATION && o.GetWaitTime == 0) = true
        · rw [if_pos h4] at h
          injection h with h
          subst h
          refine ⟨?_, rfl, rfl, rfl, rfl⟩
          unfold scanBreaks
          simp only [Bool.and_eq_true, Bool.not_eq_true] at h3 h4
          have hvia : OrderIsVia o = false := by
            cases hv : OrderIsVia o with
            | false => rfl
            | true => exact absurd ⟨h4.1, hv⟩ h3
          simp [h4.1, h4.2, hvia]
        · rw [if_neg h4] at h
          exact Flow.noConfusion h

/-- A pass through the body that reaches the loop increment: the order is not one at
which the scanner gives up, the timetable total duration grows by the duration of the
order unless the order is implicit, at most one entry is pushed (with the calling-at list
built so far), and a stop enters the calling-at list only through a goto-station order
that stops at its destination and does not restart the board. -/
theorem walkBody_next (Tdeparture_type : DepartureType) (Tdepartures_from : DeparturesFrom)
    (DAY_TICKS : Int) (station : StationID) (cancelled : Bool) (o : Order)
    (s t : WalkState)
    (h : walkBody Tdeparture_type Tdepartures_from DAY_TICKS station cancelled o s = .next t) :
    scanBreaks o = false ∧
    t.timetable_total_duration =
      (if o.IsType .OT_IMPLICIT then s.timetable_total_duration
        else wrapU32 (s.timetable_total_duration + (o.GetTravelTime + o.GetWaitTime))) ∧
    ((t.result = s.result ∧ t.departures_added = s.departures_added) ∨
      (∃ e, e.calling_at = s.departure.calling_at ∧ t.result = s.result ++ [e] ∧
        t.departures_added = (s.departures_added + 1) % 256)) ∧
    (∀ ca, ca ∈ t.departure.calling_at → ca ∈ s.departure.calling_at ∨
      (ca.station = o.GetDestination ∧ o.IsType .OT_GOTO_STATION = true ∧
        OrderIsVia o = false ∧
        ¬(station = o.GetDestination ∧
          boardsAt Tdeparture_type o = true))) := by
  unfold walkBody at h
  by_cases h1 : (o.IsType .OT_CONDITIONAL || o.GetTravelTime == 0) = true
  · rw [if_pos h1] at h
    exact Flow.noConfusion h
  · rw [if_neg h1] at h
    simp only [] at h
    by_cases h2 : o.IsType .OT_IMPLICIT = true
    · rw [if_pos h2] at h
      injection h with h
      subst h
      have hty : o.type = .OT_IMPLICIT := by
        unfold Order.IsType at h2; simpa using h2
      refine ⟨?_, ?_, Or.inl ⟨rfl, rfl⟩, fun ca hca => Or.inl hca⟩
      · unfold scanBreaks
        unfold Order.IsType at h1 ⊢
        simp [hty] at h1 ⊢
        exact h1
      · rw [if_pos h2]
    · rw [if_neg h2] at h
      by_cases h3 : (o.IsType .OT_GOTO_STATION && OrderIsVia o) = true
      · rw [if_pos h3] at h
        injection h with h
        subst h
        simp only [Bool.and_eq_true] at h3
        refine ⟨?_, ?_, Or.inl ⟨rfl, rfl⟩, fun ca hca => Or.inl hca⟩
        · unfold scanBreaks
          simp only [Bool.or_eq_true, not_or] at h1
          simp [h3.2]
          simpa using h1
        · rw [if_neg h2]
      · rw [if_neg h3] at h
        by_cases h4 : (o.IsType .OT_GOTO_STATION && o.GetWaitTime == 0) = true
        · rw [if_pos h4] at h
          exact Flow.noConfusion h
        · rw [if_neg h4] at h
          injection h with h
          subst h
          have hbr : scanBreaks o = false := by
            unfold scanBreaks
            simp only [Bool.and_eq_true, not_and, Bool.not_eq_true, Bool.or_eq_true,
              not_or] at h1 h3 h4
            cases hst : o.IsType .OT_GOTO_STATION with
            | false => simp; simpa using h1
            | true =>
              have := h4 hst
              simp [this]
              simpa using h1
          rw [if_neg h2]
          have hvia : o.IsType .OT_GOTO_STATION = true → OrderIsVia o = false := by
            intro hst
            rw [hst] at h3
            simpa using h3
          have hsp := walkStops_spec Tdeparture_type Tdepartures_from station cancelled o
            { s with
              start := s.start.add DAY_TICKS o.GetTravelTime
              timetable_total_duration :=
                wrapU32 (s.timetable_total_duration + (o.GetTravelTime + o.GetWaitTime))
              ticks_after_departure_start :=
                wrapU32 (s.ticks_after_departure_start +
                  (o.GetTravelTime + o.GetWaitTime)) }
          refine ⟨hbr, hsp.1, hsp.2.1, ?_⟩
          intro ca hca
          rcases hsp.2.2 ca hca with hc | hc
          · left; exact hc
          · right; exact ⟨hc.1, hc.2.1, hvia hc.2.1, hc.2.2⟩

/-! ## The departure synthesizer: the whole walk -/

/-- Along the walk the byte `departures_added` counts the pushed entries modulo 256, and
each order pushes at most one entry. -/
theorem walkListF_count (Tdeparture_type : DepartureType) (Tdepartures_from : DeparturesFrom)
    (DAY_TICKS : Int) (station : StationID) (cancelled : Bool) :
    ∀ (l : List Order) (s : WalkState),
      s.departures_added = s.result.length % 256 →
      (walkListF Tdeparture_type Tdepartures_from DAY_TICKS station cancelled l
          s).state.departures_added =
        (walkListF Tdeparture_type Tdepartures_from DAY_TICKS station cancelled l
          s).state.result.length % 256 ∧
      (walkListF Tdeparture_type Tdepartures_from DAY_TICKS station cancelled l
          s).state.result.length ≤ s.result.length + l.length := by
  intro l
  induction l with
  | nil =>
    intro s hs
    exact ⟨hs, Nat.le_refl _⟩
  | cons o l ih =>
    intro s hs
    unfold walkListF
    cases hb : walkBody Tdeparture_type Tdepartures_from DAY_TICKS station cancelled o s with
    | brk t =>
      obtain ⟨_, _, hr, hd, _⟩ := walkBody_brk _ _ _ _ _ _ _ _ hb
      simp only [Flow.state, hr, hd, List.length_cons]
      exact ⟨hs, by omega⟩
    | next t =>
      obtain ⟨_, _, hshape, _⟩ := walkBody_next _ _ _ _ _ _ _ _ hb
      simp only []
      have ht : t.departures_added = t.result.length % 256 ∧
          t.result.length ≤ s.result.length + 1 := by
        rcases hshape with ⟨hr, hd⟩ | ⟨e, _, hr, hd⟩
        · rw [hr, hd]; exact ⟨hs, by omega⟩
        · rw [hr, hd, hs, List.length_append, List.length_singleton]
          exact ⟨by omega, Nat.le_refl _⟩
      obtain ⟨h1, h2⟩ := ih t ht.1
      refine ⟨h1, ?_⟩
      rw [List.length_cons]
      omega

/-- A walk that meets an order at which the body breaks ends with a timetable total
duration of 0. -/
theorem walkListF_duration_zero (Tdeparture_type : DepartureType)
    (Tdepartures_from : DeparturesFrom) (DAY_TICKS : Int) (station : StationID)
    (cancelled : Bool) :
    ∀ (l : List Order) (s : WalkState), (∃ o, o ∈ l ∧ scanBreaks o = true) →
      (walkListF Tdeparture_type Tdepartures_from DAY_TICKS station cancelled l
        s).state.timetable_total_duration = 0 := by
  intro l
  induction l with
  | nil =>
    intro s h
    obtain ⟨o, ho, _⟩ := h
    exact absurd ho (List.not_mem_nil o)
  | cons o l ih =>
    intro s h
    unfold walkListF
    cases hb : walkBody Tdeparture_type Tdepartures_from DAY_TICKS station cancelled o s with
    | brk t =>
      obtain ⟨_, hz, _⟩ := walkBody_brk _ _ _ _ _ _ _ _ hb
      exact hz
    | next t =>
      obtain ⟨hnb, _⟩ := walkBody_next _ _ _ _ _ _ _ _ hb
      simp only []
      apply ih
      obtain ⟨o', ho', hbr'⟩ := h
      rcases List.mem_cons.mp ho' with heq | hmem
      · subst heq
        rw [hnb] at hbr'
        exact absurd hbr' (by simp)
      · exact ⟨o', hmem, hbr'⟩

/-- A walk that meets no order at which the body breaks adds up the durations of the
orders it visits, in unsigned 32-bit arithmetic. -/
theorem walkListF_duration_sum (Tdeparture_type : DepartureType)
    (Tdepartures_from : DeparturesFrom) (DAY_TICKS : Int) (station : StationID)
    (cancelled : Bool) :
    ∀ (l : List Order) (s : WalkState), (∀ o, o ∈ l → scanBreaks o = false) →
      0 ≤ s.timetable_total_duration → s.timetable_total_duration < 4294967296 →
      (walkListF Tdeparture_type Tdepartures_from DAY_TICKS station cancelled l
        s).state.timetable_total_duration =
        wrapU32 (s.timetable_total_duration + (l.map durationOf).sum) := by
  intro l
  induction l with
  | nil =>
    intro s _ h0 h1
    simp only [walkListF, Flow.state, List.map_nil, List.sum_nil, Int.add_zero]
    unfold wrapU32
    omega
  | cons o l ih =>
    intro s h h0 h1
    unfold walkListF
    cases hb : walkBody Tdeparture_type Tdepartures_from DAY_TICKS station cancelled o s with
    | brk t =>
      obtain ⟨hbr, _⟩ := walkBody_brk _ _ _ _ _ _ _ _ hb
      rw [h o (List.mem_cons_self o l)] at hbr
      exact absurd hbr (by simp)
    | next t =>
      obtain ⟨_, hd, _⟩ := walkBody_next _ _ _ _ _ _ _ _ hb
      simp only []
      have ht : t.timetable_total_duration =
          wrapU32 (s.timetable_total_duration + durationOf o) := by
        rw [hd]
        unfold durationOf
        split_ifs
        · unfold wrapU32; omega
        · rfl
      have ht0 : 0 ≤ t.timetable_total_duration := by
        rw [ht]; unfold wrapU32; omega
      have ht1 : t.timetable_total_duration < 4294967296 := by
        rw [ht]; unfold wrapU32; omega
      rw [ih t (fun o' ho' => h o' (List.mem_cons_of_mem o ho')) ht0 ht1, ht,
        List.map_cons, List.sum_cons]
      unfold wrapU32
      omega

/-- The code after the walk pushes at most one entry, with the calling-at list built so
far, and leaves the timetable total duration alone. -/
theorem walkFinish_spec (Tdeparture_type : DepartureType) (cancelled : Bool)
    (first_order : FirstOrder) (s : WalkState) :
    (walkFinish Tdeparture_type cancelled first_order s).timetable_total_duration =
      s.timetable_total_duration ∧
    (((walkFinish Tdeparture_type cancelled first_order s).result = s.result ∧
        (walkFinish Tdeparture_type cancelled first_order s).departures_added =
          s.departures_added) ∨
      (∃ e, e.calling_at = s.departure.calling_at ∧
        (walkFinish Tdeparture_type cancelled first_order s).result = s.result ++ [e] ∧
        (walkFinish Tdeparture_type cancelled first_order s).departures_added =
          (s.departures_added + 1) % 256)) := by
  unfold walkFinish
  split_ifs
  · refine ⟨rfl, Or.inr ⟨_, ?_, rfl, rfl⟩⟩
    cases Tdeparture_type <;> rfl
  · exact ⟨rfl, Or.inl ⟨rfl, rfl⟩⟩

/-- When the byte `departures_added` has not wrapped around, every pushed entry receives
the timetable total duration as its repeat time. -/
theorem setRepeatAfter_all (result : List DepartureInfo) (d : Int) :
    setRepeatAfter result result.length d =
      result.map (fun e => { e with repeat_after := d }) := by
  unfold setRepeatAfter
  simp

/-- The entries of a vehicle: none, or the entries pushed by the walk over the orders
other than the first departure and by the code after the walk, with the repeat time set
on the last `departures_added` of them, which are all of them because a vehicle has at
most 255 orders. -/
theorem vehicleDepartures_cases (Tdeparture_type : DepartureType)
    (Tdepartures_from : DeparturesFrom) (DAY_TICKS _date _date_fract : Int)
    (station : StationID) (vehicle_type : VehicleType) (uninit : Int) (vehicle : Vehicle) :
    vehicleDepartures Tdeparture_type Tdepartures_from DAY_TICKS _date _date_fract station
      vehicle_type uninit vehicle = [] ∨
    ∃ first o1 t,
      vehicle.orders[first]? = some o1 ∧
      qualifies Tdepartures_from station o1 = true ∧ scanBreaks o1 = false ∧
      t = (walkListF Tdeparture_type Tdepartures_from DAY_TICKS station
          (vehicle.current_order.IsType .OT_GOTO_DEPOT) (visitedOrders vehicle.orders first)
          (walkStart DAY_TICKS vehicle_type uninit vehicle
            (vehicle.current_order.IsType .OT_GOTO_DEPOT)
            (FindFirstOrder Tdepartures_from DAY_TICKS _date _date_fract station vehicle)
            o1)).state ∧
      vehicleDepartures Tdeparture_type Tdepartures_from DAY_TICKS _date _date_fract station
        vehicle_type uninit vehicle =
        setRepeatAfter
          (walkFinish Tdeparture_type (vehicle.current_order.IsType .OT_GOTO_DEPOT)
            (FindFirstOrder Tdepartures_from DAY_TICKS _date _date_fract station vehicle)
            t).result
          (walkFinish Tdeparture_type (vehicle.current_order.IsType .OT_GOTO_DEPOT)
            (FindFirstOrder Tdepartures_from DAY_TICKS _date _date_fract station vehicle)
            t).departures_added
          t.timetable_total_duration ∧
      vehicleDepartures Tdeparture_type Tdepartures_from DAY_TICKS _date _date_fract station
        vehicle_type uninit vehicle =
        (walkFinish Tdeparture_type (vehicle.current_order.IsType .OT_GOTO_DEPOT)
          (FindFirstOrder Tdepartures_from DAY_TICKS _date _date_fract station vehicle)
          t).result.map
          (fun e => { e with repeat_after := t.timetable_total_duration }) := by
  unfold vehicleDepartures
  by_cases hdepot : vehicle.IsStoppedInDepot = true
  · left; rw [if_pos hdepot]
  · rw [if_neg hdepot]
    cases hfo : (FindFirstOrder Tdepartures_from DAY_TICKS _date _date_fract station
        vehicle).order with
    | none => left; simp only [hfo]
    | some first =>
      right
      obtain ⟨cur, _, heq⟩ := FindFirstOrder_eq_loop _ _ _ _ _ _ _ hfo
      have hfo2 := hfo
      rw [heq] at hfo2
      obtain ⟨_, _, _, ⟨o1, ho1, hq1, hbr1⟩, _, _⟩ :=
        FindFirstOrder_loop_spec _ _ _ _ _ _ _ _ rfl hfo2
      have hfirst : first < vehicle.orders.length := by
        rcases List.getElem?_eq_some.mp ho1 with ⟨h, _⟩
        exact h
      refine ⟨first, o1, _, ho1, hq1, hbr1, rfl, ?_⟩
      simp only [hfo, ho1, Vehicle.GetNumOrders]
      rw [walkLoop_eq_walkListF _ _ _ _ _ _ _ hfirst]
      generalize hs0 : walkStart DAY_TICKS vehicle_type uninit vehicle
        (vehicle.current_order.IsType .OT_GOTO_DEPOT)
        (FindFirstOrder Tdepartures_from DAY_TICKS _date _date_fract station vehicle) o1 = s0
      have hs0c : s0.departures_added = s0.result.length % 256 := by
        rw [← hs0]; rfl
      have hs0l : s0.result.length = 0 := by
        rw [← hs0]; rfl
      obtain ⟨hc, hl⟩ := walkListF_count Tdeparture_type Tdepartures_from DAY_TICKS station
        (vehicle.current_order.IsType .OT_GOTO_DEPOT) (visitedOrders vehicle.orders first)
        s0 hs0c
      have hvl := visitedOrders_length vehicle.orders first hfirst
      generalize (walkListF Tdeparture_type Tdepartures_from DAY_TICKS station
        (vehicle.current_order.IsType .OT_GOTO_DEPOT) (visitedOrders vehicle.orders first)
        s0).state = t at hc hl ⊢
      obtain ⟨hd, hshape⟩ := walkFinish_spec Tdeparture_type
        (vehicle.current_order.IsType .OT_GOTO_DEPOT)
        (FindFirstOrder Tdepartures_from DAY_TICKS _date _date_fract station vehicle) t
      rw [hd]
      refine ⟨rfl, ?_⟩
      have hn := vehicle.orders_le
      have hcount : (walkFinish Tdeparture_type (vehicle.current_order.IsType .OT_GOTO_DEPOT)
          (FindFirstOrder Tdepartures_from DAY_TICKS _date _date_fract station vehicle)
          t).departures_added =
          (walkFinish Tdeparture_type (vehicle.current_order.IsType .OT_GOTO_DEPOT)
          (FindFirstOrder Tdepartures_from DAY_TICKS _date _date_fract station vehicle)
          t).result.length := by
        rcases hshape with ⟨hr, hda⟩ | ⟨e, _, hr, hda⟩
        · rw [hr, hda, hc]; omega
        · rw [hr, hda, hc, List.length_append, List.length_singleton]; omega
      rw [hcount, setRepeatAfter_all]

/-- Setting the repeat time does not touch the calling-at lists. -/
theorem setRepeatAfter_calling_at (result : List DepartureInfo) (k : Nat) (d : Int)
    (e : DepartureInfo) (he : e ∈ setRepeatAfter result k d) :
    ∃ e0, e0 ∈ result ∧ e.calling_at = e0.calling_at := by
  unfold setRepeatAfter at he
  rcases List.mem_append.mp he with h | h
  · exact ⟨e, List.mem_of_mem_take h, rfl⟩
  · obtain ⟨e0, he0, rfl⟩ := List.mem_map.mp h
    exact ⟨e0, List.mem_of_mem_drop he0, rfl⟩

/-- The walk keeps the station of the board out of the calling-at lists as long as every
goto-station order to that station that stops there starts a new entry. -/
theorem walkListF_calling_at (Tdeparture_type : DepartureType)
    (Tdepartures_from : DeparturesFrom) (DAY_TICKS : Int) (station : StationID)
    (cancelled : Bool) :
    ∀ (l : List Order) (s : WalkState),
      (∀ o, o ∈ l → o.IsType .OT_GOTO_STATION = true → OrderIsVia o = false →
        o.GetDestination = station → boardsAt Tdeparture_type o = true) →
      (∀ e, e ∈ s.result → ∀ ca, ca ∈ e.calling_at → ca.station ≠ station) →
      (∀ ca, ca ∈ s.departure.calling_at → ca.station ≠ station) →
      (∀ e, e ∈ (walkListF Tdeparture_type Tdepartures_from DAY_TICKS station cancelled l
          s).state.result → ∀ ca, ca ∈ e.calling_at → ca.station ≠ station) ∧
      (∀ ca, ca ∈ (walkListF Tdeparture_type Tdepartures_from DAY_TICKS station cancelled l
          s).state.departure.calling_at → ca.station ≠ station) := by
  intro l
  induction l with
  | nil =>
    intro s _ hr hd
    exact ⟨hr, hd⟩
  | cons o l ih =>
    intro s hl hr hd
    unfold walkListF
    cases hb : walkBody Tdeparture_type Tdepartures_from DAY_TICKS station cancelled o s with
    | brk t =>
      obtain ⟨_, _, hres, _, hdep⟩ := walkBody_brk _ _ _ _ _ _ _ _ hb
      simp only [Flow.state, hres, hdep]
      exact ⟨hr, hd⟩
    | next t =>
      obtain ⟨_, _, hshape, hca⟩ := walkBody_next _ _ _ _ _ _ _ _ hb
      simp only []
      apply ih t (fun o' ho' => hl o' (List.mem_cons_of_mem o ho'))
      · intro e he
        rcases hshape with ⟨hres, _⟩ | ⟨e0, he0, hres, _⟩
        · rw [hres] at he
          exact hr e he
        · rw [hres] at he
          rcases List.mem_append.mp he with h | h
          · exact hr e h
          · have : e = e0 := by simpa using h
            subst this
            rw [he0]
            exact hd
      · intro ca hmem
        rcases hca ca hmem with h | ⟨hst, hty, hvia, hnb⟩
        · exact hd ca h
        · intro hcs
          apply hnb
          have hdest : o.GetDestination = station := by rw [← hst]; exact hcs
          exact ⟨hdest.symm, hl o (List.mem_cons_self o l) hty hvia hdest⟩

theorem durationOf_bounds (o : Order) : 0 ≤ durationOf o ∧ durationOf o ≤ 131070 := by
  have := o.GetTravelTime_nonneg
  have := o.GetTravelTime_lt
  have := o.GetWaitTime_nonneg
  have := o.GetWaitTime_lt
  unfold durationOf
  split_ifs <;> omega

theorem durationOf_sum_bounds (l : List Order) :
    0 ≤ (l.map durationOf).sum ∧ (l.map durationOf).sum ≤ 131070 * l.length := by
  induction l with
  | nil => simp
  | cons o l ih =>
    have := durationOf_bounds o
    simp only [List.map_cons, List.sum_cons, List.length_cons]
    push_cast
    omega

/-- An order that qualifies as a departure is neither conditional nor implicit. -/
theorem qualifies_type (Tdepartures_from : DeparturesFrom) (station : StationID) (o : Order)
    (h : qualifies Tdepartures_from station o = true) :
    o.IsType .OT_CONDITIONAL = false ∧ o.IsType .OT_IMPLICIT = false := by
  unfold qualifies Order.IsType at h
  unfold Order.IsType
  cases hty : o.type <;> simp [hty] at h ⊢

/-! ## C8: a conditional order switches the repeat off -/

/-- C8: for a vehicle whose order list contains a conditional order, every entry emitted
for it, in departure and in arrival mode, for a station or a waypoint, has
`repeat_after = 0`. -/
theorem repeat_after_zero_of_conditional (Tdeparture_type : DepartureType)
    (Tdepartures_from : DeparturesFrom) (DAY_TICKS _date _date_fract : Int)
    (station : StationID) (vehicle_type : VehicleType) (uninit : Int) (vehicle : Vehicle)
    (hc : ∃ o, o ∈ vehicle.orders ∧ o.IsType .OT_CONDITIONAL = true) :
    ∀ e, e ∈ vehicleDepartures Tdeparture_type Tdepartures_from DAY_TICKS _date _date_fract
      station vehicle_type uninit vehicle → e.repeat_after = 0 := by
  intro e he
  rcases vehicleDepartures_cases Tdeparture_type Tdepartures_from DAY_TICKS _date _date_fract
    station vehicle_type uninit vehicle with hnil | ⟨first, o1, t, ho1, hq1, _, ht, _, hmap⟩
  · rw [hnil] at he
    exact absurd he (List.not_mem_nil e)
  · rw [hmap] at he
    obtain ⟨e0, _, rfl⟩ := List.mem_map.mp he
    show t.timetable_total_duration = 0
    rw [ht]
    apply walkListF_duration_zero
    obtain ⟨o, ho, hcond⟩ := hc
    refine ⟨o, ?_, ?_⟩
    · rcases mem_visitedOrders vehicle.orders first o o1 ho1 ho with heq | hmem
      · subst heq
        rw [(qualifies_type _ _ _ hq1).1] at hcond
        exact absurd hcond (by simp)
      · exact hmem
    · unfold scanBreaks
      simp [hcond]

/-- C8 on a vehicle whose order list ends with a conditional order: it emits an entry for
station 1, and every entry has `repeat_after = 0`. -/
theorem repeat_after_zero_of_conditional_witness :
    (vehicleDepartures .DT_DEPARTURE .DF_STATION 74 1000 0 1 .VEH_TRAIN 7
      conditionalLater).length = 1 ∧
    ∀ e, e ∈ vehicleDepartures .DT_DEPARTURE .DF_STATION 74 1000 0 1 .VEH_TRAIN 7
      conditionalLater → e.repeat_after = 0 :=
  ⟨by decide,
    repeat_after_zero_of_conditional .DT_DEPARTURE .DF_STATION 74 1000 0 1 .VEH_TRAIN 7
      conditionalLater
      ⟨{ stationOrder 0 0 0 with type := .OT_CONDITIONAL }, by decide, by decide⟩⟩

/-! ## C9: the repeat time is the duration of the timetable -/

/-- C9 as stated fails.  The walk of `withImplicit` hits no conditional order and no
order without travel time, and the sum of travel and wait times over its three orders is
37, but its entry has `repeat_after = 30`: the implicit order is left out.  The walk of
`zeroWaitLater` hits no conditional order and no order without travel time either, and
the sum over its orders is 75, but its entry has `repeat_after = 0`: the walk gives up at
the goto-station order without wait time. -/
theorem repeat_after_counterexample :
    ((∀ o, o ∈ withImplicit.orders →
        o.IsType .OT_CONDITIONAL = false ∧ o.GetTravelTime ≠ 0) ∧
      (withImplicit.orders.map fun o => o.GetTravelTime + o.GetWaitTime).sum = 37 ∧
      (vehicleDepartures .DT_DEPARTURE .DF_STATION 74 1000 0 1 .VEH_TRAIN 7
        withImplicit).map (fun e => e.repeat_after) = [30]) ∧
    ((∀ o, o ∈ zeroWaitLater.orders →
        o.IsType .OT_CONDITIONAL = false ∧ o.GetTravelTime ≠ 0) ∧
      (zeroWaitLater.orders.map fun o => o.GetTravelTime + o.GetWaitTime).sum = 75 ∧
      (vehicleDepartures .DT_DEPARTURE .DF_STATION 74 1000 0 1 .VEH_TRAIN 7
        zeroWaitLater).map (fun e => e.repeat_after) = [0]) := by
  decide

/-- C9, amended: for a vehicle none of whose orders is conditional, without travel time,
or a goto-station order that stops at its destination without wait time, all entries
emitted for it carry the same `repeat_after`, the sum of travel time plus wait time over
every order of the cycle that is not implicit (via-only orders included). -/
theorem repeat_after_eq_cycle_duration (Tdeparture_type : DepartureType)
    (Tdepartures_from : DeparturesFrom) (DAY_TICKS _date _date_fract : Int)
    (station : StationID) (vehicle_type : VehicleType) (uninit : Int) (vehicle : Vehicle)
    (hnb : ∀ o, o ∈ vehicle.orders → scanBreaks o = false) :
    ∀ e, e ∈ vehicleDepartures Tdeparture_type Tdepartures_from DAY_TICKS _date _date_fract
      station vehicle_type uninit vehicle →
      e.repeat_after = (vehicle.orders.map durationOf).sum := by
  intro e he
  rcases vehicleDepartures_cases Tdeparture_type Tdepartures_from DAY_TICKS _date _date_fract
    station vehicle_type uninit vehicle with hnil | ⟨first, o1, t, ho1, hq1, _, ht, _, hmap⟩
  · rw [hnil] at he
    exact absurd he (List.not_mem_nil e)
  · rw [hmap] at he
    obtain ⟨e0, _, rfl⟩ := List.mem_map.mp he
    show t.timetable_total_duration = _
    have hsum := visitedOrders_sum vehicle.orders first o1 ho1 durationOf
    have hb1 := durationOf_bounds o1
    have hbv := durationOf_sum_bounds (visitedOrders vehicle.orders first)
    have hba := durationOf_sum_bounds vehicle.orders
    have hd1 : durationOf o1 = o1.GetTravelTime + o1.GetWaitTime := by
      unfold durationOf
      rw [(qualifies_type _ _ _ hq1).2]
      simp
    have hstart : (walkStart DAY_TICKS vehicle_type uninit vehicle
        (vehicle.current_order.IsType .OT_GOTO_DEPOT)
        (FindFirstOrder Tdepartures_from DAY_TICKS _date _date_fract station vehicle)
        o1).timetable_total_duration = durationOf o1 := by
      show wrapU32 (o1.GetTravelTime + o1.GetWaitTime) = _
      rw [hd1]
      unfold wrapU32
      omega
    rw [ht, walkListF_duration_sum _ _ _ _ _ _ _
      (fun o ho => hnb o (visitedOrders_subset _ _ _ ho))
      (by rw [hstart]; exact hb1.1) (by rw [hstart]; omega), hstart]
    have hlen : (vehicle.orders.length : Int) ≤ 255 := by exact_mod_cast vehicle.orders_le
    unfold wrapU32
    omega

/-- The amended C9 on the shuttle: its entry for station 1 repeats after
15 + 5 + 25 + 10 = 55 ticks. -/
theorem repeat_after_eq_cycle_duration_witness :
    (vehicleDepartures .DT_DEPARTURE .DF_STATION 74 1000 0 1 .VEH_TRAIN 7 shuttle).length = 1 ∧
    (shuttle.orders.map durationOf).sum = 55 ∧
    ∀ e, e ∈ vehicleDepartures .DT_DEPARTURE .DF_STATION 74 1000 0 1 .VEH_TRAIN 7 shuttle →
      e.repeat_after = (shuttle.orders.map durationOf).sum :=
  ⟨by decide, by decide,
    repeat_after_eq_cycle_duration .DT_DEPARTURE .DF_STATION 74 1000 0 1 .VEH_TRAIN 7 shuttle
      (by decide)⟩

/-! ## C10: the station of the board in the calling-at list -/

/-- C10 as stated fails.  On the departure board of station 1 the entry of `loopBack`
calls at station 2 and then at station 1 itself, where the vehicle comes back for
unloading only; on the arrival board of station 1 the entry of `loopBackLoadOnly` lists
station 2 and station 1 itself, where the vehicle comes back for loading only. -/
theorem calling_at_own_station_counterexample :
    (vehicleDepartures .DT_DEPARTURE .DF_STATION 74 1000 0 1 .VEH_TRAIN 7 loopBack).map
        (fun e => e.calling_at.map fun ca => ca.station) = [[2, 1]] ∧
    (vehicleDepartures .DT_ARRIVAL .DF_STATION 74 1000 0 1 .VEH_TRAIN 7 loopBackLoadOnly).map
        (fun e => e.calling_at.map fun ca => ca.station) = [[2, 1]] := by
  decide

/-- C10, amended: when every goto-station order of the vehicle that stops at the station
of the board allows pick-up (on a departure board) or set-down (on an arrival board), no
entry emitted for that station has the station itself in its calling-at list; the station
can enter the list only through a stop there that does not start a new entry. -/
theorem calling_at_excludes_own_station (Tdeparture_type : DepartureType)
    (Tdepartures_from : DeparturesFrom) (DAY_TICKS _date _date_fract : Int)
    (station : StationID) (vehicle_type : VehicleType) (uninit : Int) (vehicle : Vehicle)
    (hb : ∀ o, o ∈ vehicle.orders → o.IsType .OT_GOTO_STATION = true →
      OrderIsVia o = false → o.GetDestination = station →
      boardsAt Tdeparture_type o = true) :
    ∀ e, e ∈ vehicleDepartures Tdeparture_type Tdepartures_from DAY_TICKS _date _date_fract
      station vehicle_type uninit vehicle →
      ∀ ca, ca ∈ e.calling_at → ca.station ≠ station := by
  intro e he
  rcases vehicleDepartures_cases Tdeparture_type Tdepartures_from DAY_TICKS _date _date_fract
    station vehicle_type uninit vehicle with hnil | ⟨first, o1, t, ho1, _, _, ht, hset, _⟩
  · rw [hnil] at he
    exact absurd he (List.not_mem_nil e)
  · rw [hset] at he
    obtain ⟨e0, he0, hca⟩ := setRepeatAfter_calling_at _ _ _ _ he
    rw [hca]
    obtain ⟨hres, hdep⟩ := walkListF_calling_at Tdeparture_type Tdepartures_from DAY_TICKS
      station (vehicle.current_order.IsType .OT_GOTO_DEPOT)
      (visitedOrders vehicle.orders first)
      (walkStart DAY_TICKS vehicle_type uninit vehicle
        (vehicle.current_order.IsType .OT_GOTO_DEPOT)
        (FindFirstOrder Tdepartures_from DAY_TICKS _date _date_fract station vehicle) o1)
      (fun o ho => hb o (visitedOrders_subset _ _ _ ho))
      (fun e' he' => absurd he' (List.not_mem_nil e'))
      (fun ca hca' => absurd hca' (List.not_mem_nil ca))
    rw [← ht] at hres hdep
    obtain ⟨_, hshape⟩ := walkFinish_spec Tdeparture_type
      (vehicle.current_order.IsType .OT_GOTO_DEPOT)
      (FindFirstOrder Tdepartures_from DAY_TICKS _date _date_fract station vehicle) t
    rcases hshape with ⟨hr, _⟩ | ⟨e1, he1, hr, _⟩
    · rw [hr] at he0
      exact hres e0 he0
    · rw [hr] at he0
      rcases List.mem_append.mp he0 with h | h
      · exact hres e0 h
      · have : e0 = e1 := by simpa using h
        subst this
        rw [he1]
        exact hdep

/-- The amended C10 on the shuttle and the departure board of station 1: its entry
calls at station 2 only. -/
theorem calling_at_excludes_own_station_witness :
    (vehicleDepartures .DT_DEPARTURE .DF_STATION 74 1000 0 1 .VEH_TRAIN 7 shuttle).map
        (fun e => e.calling_at.map fun ca => ca.station) = [[2]] ∧
    ∀ e, e ∈ vehicleDepartures .DT_DEPARTURE .DF_STATION 74 1000 0 1 .VEH_TRAIN 7 shuttle →
      ∀ ca, ca ∈ e.calling_at → ca.station ≠ 1 :=
  ⟨by decide,
    calling_at_excludes_own_station .DT_DEPARTURE .DF_STATION 74 1000 0 1 .VEH_TRAIN 7 shuttle
      (by decide)⟩

/-! ## The entries of all vehicles -/

/-- The result of `RecalculateDepartures` consists of the entries of the vehicles in the
lists of the four company vehicle types. -/
theorem mem_RecalculateDepartures (Tdeparture_type : DepartureType)
    (Tdepartures_from : DeparturesFrom) (DAY_TICKS _date _date_fract : Int)
    (vehicles : VehicleType → Option (List Vehicle)) (uninit : Int) (station : StationID)
    (e : DepartureInfo) :
    e ∈ RecalculateDepartures Tdeparture_type Tdepartures_from DAY_TICKS _date _date_fract
        vehicles uninit station ↔
      ∃ vehicle_type list vehicle, vehicle_type ∈ companyVehicleTypes ∧
        vehicles vehicle_type = some list ∧ vehicle ∈ list ∧
        e ∈ vehicleDepartures Tdeparture_type Tdepartures_from DAY_TICKS _date _date_fract
          station vehicle_type uninit vehicle := by
  unfold RecalculateDepartures
  rw [List.mem_flatMap]
  constructor
  · rintro ⟨vehicle_type, hvt, he⟩
    cases hv : vehicles vehicle_type with
    | none =>
      rw [hv] at he
      exact absurd he (List.not_mem_nil e)
    | some list =>
      rw [hv] at he
      obtain ⟨vehicle, hmem, hev⟩ := List.mem_flatMap.mp he
      exact ⟨vehicle_type, list, vehicle, hvt, hv, hmem, hev⟩
  · rintro ⟨vehicle_type, list, vehicle, hvt, hv, hmem, hev⟩
    refine ⟨vehicle_type, hvt, ?_⟩
    rw [hv]
    exact List.mem_flatMap.mpr ⟨vehicle, hmem, hev⟩

/-! ## The departure synthesizer: pushed entries and their status -/

/-- The entries pushed by a handler are the departure under construction, possibly with
its arrival set to the walk clock, and the status of the departure under construction
stays or becomes the status of a later visit. -/
theorem walkDeparture_pushed (station : StationID) (cancelled : Bool) (o : Order)
    (s : WalkState) :
    (∀ e, e ∈ (walkDeparture station cancelled o s).result →
      e ∈ s.result ∨ e = s.departure) ∧
    ((walkDeparture station cancelled o s).departure.vehicle_status =
        s.departure.vehicle_status ∨
      (walkDeparture station cancelled o s).departure.vehicle_status =
        laterStatus cancelled) := by
  unfold walkDeparture DepartureInfo.Reset
  simp only []
  split_ifs <;> simp <;> tauto

theorem walkArrival_pushed (station : StationID) (cancelled : Bool) (o : Order)
    (s : WalkState) :
    (∀ e, e ∈ (walkArrival station cancelled o s).result →
      e ∈ s.result ∨ e = { s.departure with arrival := s.start }) ∧
    ((walkArrival station cancelled o s).departure.vehicle_status =
        s.departure.vehicle_status ∨
      (walkArrival station cancelled o s).departure.vehicle_status =
        laterStatus cancelled) := by
  unfold walkArrival DepartureInfo.Reset
  simp only []
  split_ifs <;> simp <;> tauto

theorem walkWaypoint_pushed (cancelled : Bool) (o : Order) (s : WalkState) :
    (∀ e, e ∈ (walkWaypoint cancelled o s).result → e ∈ s.result ∨ e = s.departure) ∧
    (walkWaypoint cancelled o s).departure.vehicle_status = laterStatus cancelled := by
  unfold walkWaypoint DepartureInfo.Reset
  simp only []
  split_ifs
  · simp
  · simp
    intro e he
    exact Or.inl he

theorem walkStops_pushed (Tdeparture_type : DepartureType) (Tdepartures_from : DeparturesFrom)
    (station : StationID) (cancelled : Bool) (o : Order) (s : WalkState) :
    (∀ e, e ∈ (walkStops Tdeparture_type Tdepartures_from station cancelled o s).result →
      e ∈ s.result ∨ e = s.departure ∨ e = { s.departure with arrival := s.start }) ∧
    ((walkStops Tdeparture_type Tdepartures_from station cancelled o
        s).departure.vehicle_status = s.departure.vehicle_status ∨
      (walkStops Tdeparture_type Tdepartures_from station cancelled o
        s).departure.vehicle_status = laterStatus cancelled) := by
  unfold walkStops
  cases hst : o.IsType .OT_GOTO_STATION with
  | true =>
    have hty : o.type = .OT_GOTO_STATION := by
      unfold Order.IsType at hst; simpa using hst
    have hwp : (o.IsType .OT_GOTO_WAYPOINT && Tdepartures_from == .DF_WAYPOINT) = false := by
      unfold Order.IsType; simp [hty]
    simp only [hwp, if_true, Bool.false_eq_true, if_false]
    cases Tdeparture_type with
    | DT_DEPARTURE =>
      simp only []
      have hr := walkDeparture_pushed station cancelled o s
      exact ⟨fun e he => (hr.1 e he).imp id Or.inl, hr.2⟩
    | DT_ARRIVAL =>
      simp only []
      have hr := walkArrival_pushed station cancelled o s
      exact ⟨fun e he => (hr.1 e he).imp id Or.inr, hr.2⟩
  | false =>
    simp only [Bool.false_eq_true, if_false]
    by_cases hwp : (o.IsType .OT_GOTO_WAYPOINT && Tdepartures_from == .DF_WAYPOINT) = true
    · rw [if_pos hwp]
      have hr := walkWaypoint_pushed cancelled o s
      exact ⟨fun e he => (hr.1 e he).imp id Or.inl, Or.inr hr.2⟩
    · rw [if_neg hwp]
      exact ⟨fun e he => Or.inl he, Or.inl rfl⟩

/-- Whatever the outcome of a pass through the body, the entries it pushes are copies of
the departure under construction, possibly with the arrival set to the walk clock at the
order, and the status of the departure under construction stays or becomes the status of
a later visit. -/
theorem walkBody_pushed (Tdeparture_type : DepartureType) (Tdepartures_from : DeparturesFrom)
    (DAY_TICKS : Int) (station : StationID) (cancelled : Bool) (o : Order)
    (s : WalkState) :
    (∀ e, e ∈ (walkBody Tdeparture_type Tdepartures_from DAY_TICKS station cancelled o
        s).state.result →
      e ∈ s.result ∨ e = s.departure ∨
        e = { s.departure with arrival := s.start.add DAY_TICKS o.GetTravelTime }) ∧
    ((walkBody Tdeparture_type Tdepartures_from DAY_TICKS station cancelled o
        s).state.departure.vehicle_status = s.departure.vehicle_status ∨
      (walkBody Tdeparture_type Tdepartures_from DAY_TICKS station cancelled o
        s).state.departure.vehicle_status = laterStatus cancelled) := by
  unfold walkBody
  split_ifs
  · exact ⟨fun e he => Or.inl he, Or.inl rfl⟩
  · exact ⟨fun e he => Or.inl he, Or.inl rfl⟩
  · exact ⟨fun e he => Or.inl he, Or.inl rfl⟩
  · exact ⟨fun e he => Or.inl he, Or.inl rfl⟩
  · exact walkStops_pushed Tdeparture_type Tdepartures_from station cancelled o
      { s with
        start := s.start.add DAY_TICKS o.GetTravelTime
        timetable_total_duration :=
          wrapU32 (s.timetable_total_duration + (o.GetTravelTime + o.GetWaitTime))
        ticks_after_departure_start :=
          wrapU32 (s.ticks_after_departure_start + (o.GetTravelTime + o.GetWaitTime)) }

/-- A property of the vehicle status that holds for the status of a later visit is kept
by the walk, for the pushed entries and for the departure under construction. -/
theorem walkListF_status (Tdeparture_type : DepartureType) (Tdepartures_from : DeparturesFrom)
    (DAY_TICKS : Int) (station : StationID) (cancelled : Bool) (P : VehicleStatus → Prop)
    (hlater : P (laterStatus cancelled)) :
    ∀ (l : List Order) (s : WalkState),
      (∀ e, e ∈ s.result → P e.vehicle_status) → P s.departure.vehicle_status →
      (∀ e, e ∈ (walkListF Tdeparture_type Tdepartures_from DAY_TICKS station cancelled l
          s).state.result → P e.vehicle_status) ∧
      P (walkListF Tdeparture_type Tdepartures_from DAY_TICKS station cancelled l
          s).state.departure.vehicle_status := by
  intro l
  induction l with
  | nil =>
    intro s hr hd
    exact ⟨hr, hd⟩
  | cons o l ih =>
    intro s hr hd
    obtain ⟨hp, hs⟩ := walkBody_pushed Tdeparture_type Tdepartures_from DAY_TICKS station
      cancelled o s
    have hr' : ∀ e, e ∈ (walkBody Tdeparture_type Tdepartures_from DAY_TICKS station
        cancelled o s).state.result → P e.vehicle_status := by
      intro e he
      rcases hp e he with h | h | h
      · exact hr e h
      · rw [h]; exact hd
      · rw [h]; exact hd
    have hd' : P (walkBody Tdeparture_type Tdepartures_from DAY_TICKS station
        cancelled o s).state.departure.vehicle_status := by
      rcases hs with h | h
      · rw [h]; exact hd
      · rw [h]; exact hlater
    unfold walkListF
    cases hb : walkBody Tdeparture_type Tdepartures_from DAY_TICKS station cancelled o s with
    | brk t =>
      rw [hb] at hr' hd'
      exact ⟨hr', hd'⟩
    | next t =>
      rw [hb] at hr' hd'
      exact ih t hr' hd'

/-- The entry pushed after the walk has the status of the departure under construction
or, on an arrival board, the status of the first departure. -/
theorem walkFinish_pushed (Tdeparture_type : DepartureType) (cancelled : Bool)
    (first_order : FirstOrder) (s : WalkState) :
    ∀ e, e ∈ (walkFinish Tdeparture_type cancelled first_order s).result →
      e ∈ s.result ∨ e = s.departure ∨
        e = { s.departure with
          arrival := first_order.arrival
          vehicle_status := firstStatus cancelled first_order.arrived } := by
  intro e he
  unfold walkFinish at he
  split_ifs at he
  · cases Tdeparture_type <;> simp at he <;> tauto
  · exact Or.inl he

/-- Progressing to the next departure turns an arrived entry into a travelling one and
leaves every other status alone. -/
theorem ProgressToNextDeparture_iterate_going (DAY_TICKS : Int) (n : Nat) :
    ∀ e : DepartureInfo,
      ((DepartureInfo.ProgressToNextDeparture DAY_TICKS)^[n] e).vehicle_status =
        .VS_GOING_TO_DEPOT ↔ e.vehicle_status = .VS_GOING_TO_DEPOT := by
  induction n with
  | zero => intro e; rfl
  | succ n ih =>
    intro e
    rw [Function.iterate_succ_apply, ih]
    unfold DepartureInfo.ProgressToNextDeparture
    simp only []
    split_ifs with h
    · rw [h]; simp
    · rfl

theorem Status_cancelled_iff (Tdeparture_type : DepartureType) (DAY_TICKS _date : Int)
    (e : DepartureInfo) :
    e.Status Tdeparture_type DAY_TICKS _date = .DS_CANCELLED ↔
      e.vehicle_status = .VS_GOING_TO_DEPOT := by
  unfold DepartureInfo.Status
  cases e.vehicle_status <;> cases Tdeparture_type <;> simp <;> split_ifs <;> simp

/-- Every entry emitted for a vehicle has the going-to-depot status exactly when the
current order of the vehicle is a goto-depot order. -/
theorem vehicleDepartures_status (Tdeparture_type : DepartureType)
    (Tdepartures_from : DeparturesFrom) (DAY_TICKS _date _date_fract : Int)
    (station : StationID) (vehicle_type : VehicleType) (uninit : Int) (vehicle : Vehicle)
    (e : DepartureInfo)
    (he : e ∈ vehicleDepartures Tdeparture_type Tdepartures_from DAY_TICKS _date _date_fract
      station vehicle_type uninit vehicle) :
    e.vehicle_status = .VS_GOING_TO_DEPOT ↔
      vehicle.current_order.IsType .OT_GOTO_DEPOT = true := by
  have hlater : ∀ c : Bool, laterStatus c = .VS_GOING_TO_DEPOT ↔ c = true := by
    intro c; cases c <;> simp [laterStatus]
  have hfirst : ∀ c a : Bool, firstStatus c a = .VS_GOING_TO_DEPOT ↔ c = true := by
    intro c a; cases c <;> cases a <;> simp [firstStatus]
  rcases vehicleDepartures_cases Tdeparture_type Tdepartures_from DAY_TICKS _date _date_fract
    station vehicle_type uninit vehicle with hnil | ⟨first, o1, t, _, _, _, ht, _, hmap⟩
  · rw [hnil] at he
    exact absurd he (List.not_mem_nil e)
  · rw [hmap] at he
    obtain ⟨e0, he0, rfl⟩ := List.mem_map.mp he
    show e0.vehicle_status = .VS_GOING_TO_DEPOT ↔ _
    obtain ⟨hres, hdep⟩ := walkListF_status Tdeparture_type Tdepartures_from DAY_TICKS
      station (vehicle.current_order.IsType .OT_GOTO_DEPOT)
      (fun st => st = .VS_GOING_TO_DEPOT ↔ vehicle.current_order.IsType .OT_GOTO_DEPOT = true)
      (hlater _) (visitedOrders vehicle.orders first)
      (walkStart DAY_TICKS vehicle_type uninit vehicle
        (vehicle.current_order.IsType .OT_GOTO_DEPOT)
        (FindFirstOrder Tdepartures_from DAY_TICKS _date _date_fract station vehicle) o1)
      (fun e' he' => absurd he' (List.not_mem_nil e'))
      (hfirst _ _)
    rw [← ht] at hres hdep
    rcases walkFinish_pushed _ _ _ _ e0 he0 with h | h | h
    · exact hres e0 h
    · rw [h]; exact hdep
    · rw [h]; exact hfirst _ _

/-! ## C11: a full unload clears the calling-at list of an arrival board -/

/-- C11: in arrival mode, a pass through the body for a goto-station order that stops at
its destination, is timetabled (travel and wait time) and unloads everything reaches the
loop increment, and the calling-at list of the departure under construction then holds
at most the station of that order; the same holds for the state of the walk right after
it has processed such an order behind any sequence of orders, so no stop recorded before
a full unload survives it. -/
theorem full_unload_clears_calling_at (Tdepartures_from : DeparturesFrom) (DAY_TICKS : Int)
    (station : StationID) (cancelled : Bool) (o : Order)
    (hst : o.IsType .OT_GOTO_STATION = true) (hvia : OrderIsVia o = false)
    (htt : o.GetTravelTime ≠ 0) (hwt : o.GetWaitTime ≠ 0)
    (hfu : OrderIsFullUnload o = true) :
    (∀ s : WalkState, ∃ t,
      walkBody .DT_ARRIVAL Tdepartures_from DAY_TICKS station cancelled o s = .next t ∧
      (t.departure.calling_at = [] ∨
        ∃ ticks, t.departure.calling_at =
          [{ station := o.GetDestination, ticks_after_departure_start := ticks }])) ∧
    (∀ (l : List Order) (s t : WalkState),
      walkListF .DT_ARRIVAL Tdepartures_from DAY_TICKS station cancelled (l ++ [o]) s =
        .next t →
      ∀ ca, ca ∈ t.departure.calling_at → ca.station = o.GetDestination) := by
  have hty : o.type = .OT_GOTO_STATION := by
    unfold Order.IsType at hst; simpa using hst
  have hsd : OrderIsSetDown o = true := by
    unfold OrderIsFullUnload at hfu
    unfold OrderIsSetDown
    have : o.GetUnloadType = .OUFB_UNLOAD := by simpa using hfu
    rw [this]; decide
  have hbody : ∀ s : WalkState, ∃ t,
      walkBody .DT_ARRIVAL Tdepartures_from DAY_TICKS station cancelled o s = .next t ∧
      (t.departure.calling_at = [] ∨
        ∃ ticks, t.departure.calling_at =
          [{ station := o.GetDestination, ticks_after_departure_start := ticks }]) := by
    intro s
    have h1 : (o.IsType .OT_CONDITIONAL || o.GetTravelTime == 0) = false := by
      unfold Order.IsType; simp [hty, htt]
    have h2 : o.IsType .OT_IMPLICIT = false := by
      unfold Order.IsType; simp [hty]
    have h3 : (o.IsType .OT_GOTO_WAYPOINT && Tdepartures_from == .DF_WAYPOINT) = false := by
      unfold Order.IsType; simp [hty]
    unfold walkBody
    simp only [h1, h2, hst, hvia, hwt, Bool.false_eq_true, if_false, Bool.and_false,
      Bool.true_and, beq_iff_eq]
    refine ⟨_, rfl, ?_⟩
    unfold walkStops
    simp only [hst, h3, if_true, Bool.false_eq_true, if_false]
    unfold walkArrival DepartureInfo.Reset
    simp only [hfu, hsd, if_true, Bool.and_true]
    split_ifs <;> simp
  refine ⟨hbody, ?_⟩
  intro l s t hl ca hca
  rw [walkListF_append] at hl
  cases hpre : walkListF .DT_ARRIVAL Tdepartures_from DAY_TICKS station cancelled l s with
  | brk u =>
    rw [hpre] at hl
    exact Flow.noConfusion hl
  | next u =>
    rw [hpre] at hl
    simp only [walkListF] at hl
    obtain ⟨t', ht', hshape⟩ := hbody u
    rw [ht'] at hl
    simp only [] at hl
    injection hl with hl
    subst hl
    rcases hshape with h | ⟨ticks, h⟩
    · rw [h] at hca
      exact absurd hca (List.not_mem_nil ca)
    · rw [h] at hca
      have : ca = { station := o.GetDestination, ticks_after_departure_start := ticks } := by
        simpa using hca
      rw [this]

/-- C11 on the full-unload order for station 3 of `unloadAtThree`, on the arrival board
of station 1: the walk over the orders for stations 2 and 3 ends with station 3 alone in
the calling-at list. -/
theorem full_unload_clears_calling_at_witness :
    ((walkListF .DT_ARRIVAL .DF_STATION 74 1 false
        ([stationOrder 2 15 5] ++ [{ stationOrder 3 20 5 with unload := .OUFB_UNLOAD }])
        (walkStart 74 .VEH_TRAIN 7 unloadAtThree false
          (FindFirstOrder .DF_STATION 74 1000 0 1 unloadAtThree)
          (stationOrder 1 25 10))).state.departure.calling_at.map fun ca => ca.station) =
      [3] ∧
    ∀ (l : List Order) (s t : WalkState),
      walkListF .DT_ARRIVAL .DF_STATION 74 1 false
        (l ++ [{ stationOrder 3 20 5 with unload := .OUFB_UNLOAD }]) s = .next t →
      ∀ ca, ca ∈ t.departure.calling_at →
        ca.station =
          ({ stationOrder 3 20 5 with unload := .OUFB_UNLOAD } : Order).GetDestination :=
  ⟨by decide,
    (full_unload_clears_calling_at .DF_STATION 74 1 false
      { stationOrder 3 20 5 with unload := .OUFB_UNLOAD }
      (by decide) (by decide) (by decide) (by decide) (by decide)).2⟩

/-! ## C13: vehicles heading for a depot -/

/-- C13: a vehicle stopped in a depot yields no entries; for a vehicle that is not, every
emitted entry has the going-to-depot status, displayed as CANCELLED, when the current
order is a goto-depot order, and keeps it through every number of
`ProgressToNextDeparture` steps; when the current order is not a goto-depot order, no
emitted entry has that status. -/
theorem going_to_depot_status (Tdeparture_type : DepartureType)
    (Tdepartures_from : DeparturesFrom) (DAY_TICKS _date _date_fract : Int)
    (station : StationID) (vehicle_type : VehicleType) (uninit : Int) (vehicle : Vehicle) :
    (vehicle.IsStoppedInDepot = true →
      vehicleDepartures Tdeparture_type Tdepartures_from DAY_TICKS _date _date_fract station
        vehicle_type uninit vehicle = []) ∧
    (vehicle.IsStoppedInDepot = false →
      ∀ e, e ∈ vehicleDepartures Tdeparture_type Tdepartures_from DAY_TICKS _date
          _date_fract station vehicle_type uninit vehicle →
        (vehicle.current_order.IsType .OT_GOTO_DEPOT = true →
          e.vehicle_status = .VS_GOING_TO_DEPOT ∧
          e.Status Tdeparture_type DAY_TICKS _date = .DS_CANCELLED ∧
          ∀ n : Nat,
            ((DepartureInfo.ProgressToNextDeparture DAY_TICKS)^[n] e).vehicle_status =
              .VS_GOING_TO_DEPOT ∧
            ((DepartureInfo.ProgressToNextDeparture DAY_TICKS)^[n] e).Status
              Tdeparture_type DAY_TICKS _date = .DS_CANCELLED) ∧
        (vehicle.current_order.IsType .OT_GOTO_DEPOT = false →
          e.vehicle_status ≠ .VS_GOING_TO_DEPOT)) := by
  refine ⟨?_, ?_⟩
  · intro hdepot
    unfold vehicleDepartures
    rw [if_pos hdepot]
  · intro _ e he
    have hiff := vehicleDepartures_status _ _ _ _ _ _ _ _ _ e he
    refine ⟨?_, ?_⟩
    · intro hc
      have hs := hiff.mpr hc
      refine ⟨hs, (Status_cancelled_iff _ _ _ e).mpr hs, ?_⟩
      intro n
      have hn := (ProgressToNextDeparture_iterate_going DAY_TICKS n e).mpr hs
      exact ⟨hn, (Status_cancelled_iff _ _ _ _).mpr hn⟩
    · intro hc hs
      rw [hiff.mp hs] at hc
      exact absurd hc (by simp)

/-- C13 on the shuttle: stopped in a depot it yields nothing; on its way to a depot its
entry for station 1 has the going-to-depot status. -/
theorem going_to_depot_status_witness :
    vehicleDepartures .DT_DEPARTURE .DF_STATION 74 1000 0 1 .VEH_TRAIN 7 shuttleInDepot = [] ∧
    (vehicleDepartures .DT_DEPARTURE .DF_STATION 74 1000 0 1 .VEH_TRAIN 7
      shuttleToDepot).map (fun e => e.vehicle_status) = [.VS_GOING_TO_DEPOT] ∧
    ∀ e, e ∈ vehicleDepartures .DT_DEPARTURE .DF_STATION 74 1000 0 1 .VEH_TRAIN 7
        shuttleToDepot →
      (shuttleToDepot.current_order.IsType .OT_GOTO_DEPOT = true →
        e.vehicle_status = .VS_GOING_TO_DEPOT ∧
        e.Status .DT_DEPARTURE 74 1000 = .DS_CANCELLED ∧
        ∀ n : Nat,
          ((DepartureInfo.ProgressToNextDeparture 74)^[n] e).vehicle_status =
            .VS_GOING_TO_DEPOT ∧
          ((DepartureInfo.ProgressToNextDeparture 74)^[n] e).Status .DT_DEPARTURE 74 1000 =
            .DS_CANCELLED) ∧
      (shuttleToDepot.current_order.IsType .OT_GOTO_DEPOT = false →
        e.vehicle_status ≠ .VS_GOING_TO_DEPOT) :=
  ⟨(going_to_depot_status .DT_DEPARTURE .DF_STATION 74 1000 0 1 .VEH_TRAIN 7
      shuttleInDepot).1 (by decide),
    by decide,
    (going_to_depot_status .DT_DEPARTURE .DF_STATION 74 1000 0 1 .VEH_TRAIN 7
      shuttleToDepot).2 (by decide)⟩

/-! ## The three-station round trip A → B → C → A -/

/-- On the round trip `[scenarioA, scenarioB, scenarioC]` the scanner of the board of
station 1 stops at order 0 wherever the vehicle is in its order list. -/
theorem scenario_first (DAY_TICKS _date _date_fract : Int) (vehicle : Vehicle)
    (horders : vehicle.orders = [scenarioA, scenarioB, scenarioC]) :
    (FindFirstOrder .DF_STATION DAY_TICKS _date _date_fract 1 vehicle).order = some 0 := by
  unfold FindFirstOrder
  simp only [horders, Vehicle.GetNumOrders, List.length_cons, List.length_nil]
  have h3 : vehicle.cur_implicit_order_index % (0 + 1 + 1 + 1) < 3 :=
    Nat.mod_lt _ (by norm_num)
  generalize vehicle.cur_implicit_order_index % (0 + 1 + 1 + 1) = i at h3 ⊢
  interval_cases i <;> rfl

/-- C12, counterexample: on the round trip A (station 1, load, travel 25, wait 10), B
(station 2, unload, travel 15, wait 5), C (station 3, via-only, travel 20, wait 0) the
departure board of station 1 holds one entry whose calling-at list is `[(2, 15)]`, not
`[(2, 15), (3, 35)]`: the via-only order is skipped before anything is appended. The same
holds when B and C carry the forced-unload flag. -/
theorem scenario_calling_at_counterexample :
    (vehicleDepartures .DT_DEPARTURE .DF_STATION 74 1000 0 1 .VEH_TRAIN 0
        scenarioVehicle).map (fun di => di.calling_at) =
      [[{ station := 2, ticks_after_departure_start := 15 }]] ∧
    (vehicleDepartures .DT_DEPARTURE .DF_STATION 74 1000 0 1 .VEH_TRAIN 0
        scenarioVehicle).map (fun di => di.calling_at) ≠
      [[{ station := 2, ticks_after_departure_start := 15 },
        { station := 3, ticks_after_departure_start := 35 }]] ∧
    (vehicleDepartures .DT_DEPARTURE .DF_STATION 74 1000 0 1 .VEH_TRAIN 0
        (vehicleWith [scenarioA, { scenarioB with unload := .OUFB_UNLOAD },
          { scenarioC with unload := .OUFB_UNLOAD }] 0)).map (fun di => di.calling_at) =
      [[{ station := 2, ticks_after_departure_start := 15 }]] := by
  decide

/-- C12, amended: for a vehicle with the orders A (station 1, load, travel 25, wait 10), B
(station 2, unload, travel 15, wait 5), C (station 3, via-only, travel 20, wait 0) that is
not stopped in a depot, the departure board of station 1 holds exactly one entry: it calls
at `[(2, 15)]` only, has no via station, arrives when the scanner reaches order 0, waits 10
ticks and repeats after 75 ticks. -/
theorem scenario_entry (DAY_TICKS _date _date_fract : Int) (vehicle_type : VehicleType)
    (uninit : Int) (vehicle : Vehicle)
    (horders : vehicle.orders = [scenarioA, scenarioB, scenarioC])
    (hdepot : vehicle.IsStoppedInDepot = false) :
    (FindFirstOrder .DF_STATION DAY_TICKS _date _date_fract 1 vehicle).order = some 0 ∧
    vehicleDepartures .DT_DEPARTURE .DF_STATION DAY_TICKS _date _date_fract 1 vehicle_type
        uninit vehicle =
      [{ calling_at := [{ station := 2, ticks_after_departure_start := 15 }]
         via := INVALID_STATION
         arrival := (FindFirstOrder .DF_STATION DAY_TICKS _date _date_fract 1 vehicle).arrival
         wait_time := 10
         vehicle_status := firstStatus (vehicle.current_order.IsType .OT_GOTO_DEPOT)
           (FindFirstOrder .DF_STATION DAY_TICKS _date _date_fract 1 vehicle).arrived
         lateness := vehicle.lateness_counter
         vehicle := vehicle
         vehicle_type := vehicle_type
         repeat_after := 75 }] := by
  have hfirst := scenario_first DAY_TICKS _date _date_fract vehicle horders
  refine ⟨hfirst, ?_⟩
  unfold vehicleDepartures
  rw [if_neg (by rw [hdepot]; simp)]
  simp only [hfirst, horders, Vehicle.GetNumOrders, List.length_cons, List.length_nil]
  generalize FindFirstOrder .DF_STATION DAY_TICKS _date _date_fract 1 vehicle = fo
  rfl

/-- C12, witness: the amended statement on the vehicle `scenarioVehicle` on day 1000. -/
theorem scenario_entry_witness :
    scenarioVehicle.orders = [scenarioA, scenarioB, scenarioC] ∧
    scenarioVehicle.IsStoppedInDepot = false ∧
    (vehicleDepartures .DT_DEPARTURE .DF_STATION 74 1000 0 1 .VEH_TRAIN 0
        scenarioVehicle).map (fun di => (di.arrival, di.repeat_after)) =
      [(⟨1000, 25⟩, 75)] :=
  ⟨rfl, rfl, by
    rw [(scenario_entry 74 1000 0 .VEH_TRAIN 0 scenarioVehicle rfl rfl).2]
    decide⟩

/-! ## C17: `ProgressToNextDeparture` -/

theorem wrapU16_idem (x : Int) : wrapU16 (wrapU16 x) = wrapU16 x := by
  unfold wrapU16; omega

/-- C17, evaluation of the code: `ProgressToNextDeparture` leaves `wait_time`, `lateness`,
the calling-at list, `via` and `repeat_after` unchanged, but it advances the arrival by
`repeat_after` converted to `uint16`, the parameter type of `operator+=`.  With 74 ticks
per day an entry arriving on day 1000, tick 0 that repeats after 65546 ticks is advanced
to day 1000, tick 10: its tick count grows by 10, not by 65546. -/
theorem ProgressToNextDeparture_truncates_repeat :
    (∀ (DAY_TICKS : Int) (d : DepartureInfo),
      (d.ProgressToNextDeparture DAY_TICKS).arrival =
        d.arrival.add DAY_TICKS (d.repeat_after % 65536) ∧
      (d.ProgressToNextDeparture DAY_TICKS).wait_time = d.wait_time ∧
      (d.ProgressToNextDeparture DAY_TICKS).lateness = d.lateness ∧
      (d.ProgressToNextDeparture DAY_TICKS).calling_at = d.calling_at ∧
      (d.ProgressToNextDeparture DAY_TICKS).via = d.via ∧
      (d.ProgressToNextDeparture DAY_TICKS).repeat_after = d.repeat_after) ∧
    ((entryAt ⟨1000, 0⟩ 10 0 65546).ProgressToNextDeparture 74).arrival = ⟨1000, 10⟩ ∧
    ((entryAt ⟨1000, 0⟩ 10 0 65546).ProgressToNextDeparture 74).arrival.Ticks 74 =
      (entryAt ⟨1000, 0⟩ 10 0 65546).arrival.Ticks 74 + 10 ∧
    ((entryAt ⟨1000, 0⟩ 10 0 65546).ProgressToNextDeparture 74).arrival.Ticks 74 ≠
      (entryAt ⟨1000, 0⟩ 10 0 65546).arrival.Ticks 74 + 65546 := by
  refine ⟨fun DAY_TICKS d => ⟨?_, rfl, rfl, rfl, rfl, rfl⟩, by decide, by decide, by decide⟩
  show d.arrival.add DAY_TICKS d.repeat_after = _
  have h : wrapU16 (d.repeat_after % 65536) = wrapU16 d.repeat_after := wrapU16_idem _
  unfold ArrivalTime.add
  rw [h]

/-! ## C18: `Status` -/

/-- Without wrap-around, `DateAfter` is the day of the tick count moved by `n`. -/
theorem ArrivalTime.DateAfter_exact (DAY_TICKS : Int) (t : ArrivalTime) (n : Int)
    (hT0 : 0 < DAY_TICKS) (hT1 : DAY_TICKS < 2147483648)
    (hd0 : 0 ≤ t.date) (hd1 : t.date < 2147483648)
    (hn0 : -2147483648 ≤ n) (hn1 : n < 2147483648)
    (h0 : 0 ≤ t.date * DAY_TICKS + t.date_fract + n)
    (hf1 : t.date_fract < 2147483648)
    (hfit : (t.date * DAY_TICKS + t.date_fract + n) / DAY_TICKS < 2147483648) :
    t.DateAfter DAY_TICKS n = (t.date * DAY_TICKS + t.date_fract + n) / DAY_TICKS := by
  have hp := day_mul_bound hd0 hd1 hT0 hT1
  have hq0 : 0 ≤ (t.date * DAY_TICKS + t.date_fract + n) / DAY_TICKS :=
    Int.ediv_nonneg h0 (le_of_lt hT0)
  unfold ArrivalTime.DateAfter
  rw [wrapI32_eq_self hn0 hn1, wrapU64_eq_self (le_of_lt hT0) (by omega),
    ArrivalTime.total_ticks_exact DAY_TICKS t n hT0 hT1 hd0 hd1 h0 (by omega),
    wrapI32_eq_self (by omega) hfit]

/-- C18, counterexample: with 74 ticks per day, a travelling entry that arrives on day
`2^31 - 1`, tick 73, waits one tick and has lateness 0 is classified EXPECTED on a
departure board: the day of its scheduled departure is `2^31`, which `ScheduledDeparture`
returns as `-2^31`, while the lateness-adjusted day is `2^31 - 1`. -/
theorem Status_expected_counterexample :
    (entryAt ⟨2147483647, 73⟩ 1 0 0).vehicle_status = .VS_TRAVELLING ∧
    (entryAt ⟨2147483647, 73⟩ 1 0 0).lateness ≤ 0 ∧
    (2147483647 * 74 + 73 + 0 : Int) / 74 = 2147483647 ∧
    (2147483647 * 74 + 73 + 1 : Int) / 74 = 2147483648 ∧
    (entryAt ⟨2147483647, 73⟩ 1 0 0).ExpectedArrival 74 = 2147483647 ∧
    (entryAt ⟨2147483647, 73⟩ 1 0 0).ScheduledDeparture 74 = -2147483648 ∧
    (entryAt ⟨2147483647, 73⟩ 1 0 0).Status .DT_DEPARTURE 74 1000 = .DS_EXPECTED := by
  decide

/-- C18, amended: `Status` classifies an entry as ARRIVED iff its vehicle status is
arrived, as CANCELLED iff it is going-to-depot; a travelling entry is EXPECTED iff
`ExpectedArrival()` is later than the scheduled day (`ScheduledDeparture()` on a departure
board, the arrival day on an arrival board), else ON_TIME iff the current day is earlier
than the scheduled day, else DELAYED.  An entry with lateness `<= 0` is not EXPECTED when
its arrival is normalized with a non-negative day, the arrival moved by the lateness is not
negative and the day of the scheduled departure fits the 32-bit `Date`. -/
theorem Status_classification (DAY_TICKS _date : Int) (d : DepartureInfo) :
    (∀ T, d.Status T DAY_TICKS _date = .DS_ARRIVED ↔ d.vehicle_status = .VS_ARRIVED) ∧
    (∀ T, d.Status T DAY_TICKS _date = .DS_CANCELLED ↔
      d.vehicle_status = .VS_GOING_TO_DEPOT) ∧
    (d.vehicle_status = .VS_TRAVELLING →
      (d.Status .DT_DEPARTURE DAY_TICKS _date = .DS_EXPECTED ↔
        d.ExpectedArrival DAY_TICKS > d.ScheduledDeparture DAY_TICKS) ∧
      (d.Status .DT_DEPARTURE DAY_TICKS _date = .DS_ON_TIME ↔
        ¬ d.ExpectedArrival DAY_TICKS > d.ScheduledDeparture DAY_TICKS ∧
          _date < d.ScheduledDeparture DAY_TICKS) ∧
      (d.Status .DT_DEPARTURE DAY_TICKS _date = .DS_DELAYED ↔
        ¬ d.ExpectedArrival DAY_TICKS > d.ScheduledDeparture DAY_TICKS ∧
          ¬ _date < d.ScheduledDeparture DAY_TICKS) ∧
      (d.Status .DT_ARRIVAL DAY_TICKS _date = .DS_EXPECTED ↔
        d.ExpectedArrival DAY_TICKS > d.arrival.date) ∧
      (d.Status .DT_ARRIVAL DAY_TICKS _date = .DS_ON_TIME ↔
        ¬ d.ExpectedArrival DAY_TICKS > d.arrival.date ∧ _date < d.arrival.date) ∧
      (d.Status .DT_ARRIVAL DAY_TICKS _date = .DS_DELAYED ↔
        ¬ d.ExpectedArrival DAY_TICKS > d.arrival.date ∧ ¬ _date < d.arrival.date)) ∧
    (0 < DAY_TICKS → DAY_TICKS < 2147483648 →
      0 ≤ d.arrival.date → d.arrival.date < 2147483648 →
      0 ≤ d.arrival.date_fract → d.arrival.date_fract < DAY_TICKS →
      -2147483648 ≤ d.lateness → d.lateness ≤ 0 →
      0 ≤ d.arrival.date * DAY_TICKS + d.arrival.date_fract + d.lateness →
      0 ≤ d.wait_time → d.wait_time < 65536 →
      (d.arrival.date * DAY_TICKS + d.arrival.date_fract + d.wait_time) / DAY_TICKS <
        2147483648 →
      ∀ T, d.Status T DAY_TICKS _date ≠ .DS_EXPECTED) := by
  refine ⟨?_, ?_, ?_, ?_⟩
  · intro T
    unfold DepartureInfo.Status
    cases d.vehicle_status <;> cases T <;> simp <;> split_ifs <;> simp
  · intro T
    unfold DepartureInfo.Status
    cases d.vehicle_status <;> cases T <;> simp <;> split_ifs <;> simp
  · intro hv
    unfold DepartureInfo.Status
    rw [hv]
    simp only []
    refine ⟨?_, ?_, ?_, ?_, ?_, ?_⟩ <;> split_ifs <;> simp_all
  · intro hT0 hT1 hd0 hd1 hf0 hf1 hl0 hl1 h0 hw0 hw1 hfit T
    have hle : (d.arrival.date * DAY_TICKS + d.arrival.date_fract + d.lateness) / DAY_TICKS ≤
        (d.arrival.date * DAY_TICKS + d.arrival.date_fract + d.wait_time) / DAY_TICKS :=
      Int.ediv_le_ediv hT0 (by omega)
    have hle0 : (d.arrival.date * DAY_TICKS + d.arrival.date_fract + d.lateness) / DAY_TICKS ≤
        (d.arrival.date * DAY_TICKS + d.arrival.date_fract) / DAY_TICKS :=
      Int.ediv_le_ediv hT0 (by omega)
    have hday : (d.arrival.date * DAY_TICKS + d.arrival.date_fract) / DAY_TICKS =
        d.arrival.date := by
      rw [Int.add_comm, Int.add_mul_ediv_right _ _ (by omega : DAY_TICKS ≠ 0),
        Int.ediv_eq_zero_of_lt hf0 hf1]
      omega
    have hexp : d.ExpectedArrival DAY_TICKS =
        (d.arrival.date * DAY_TICKS + d.arrival.date_fract + d.lateness) / DAY_TICKS :=
      ArrivalTime.DateAfter_exact DAY_TICKS d.arrival d.lateness hT0 hT1 hd0 hd1 hl0
        (by omega) h0 (by omega) (by omega)
    have hsch : d.ScheduledDeparture DAY_TICKS =
        (d.arrival.date * DAY_TICKS + d.arrival.date_fract + d.wait_time) / DAY_TICKS :=
      ArrivalTime.DateAfter_exact DAY_TICKS d.arrival d.wait_time hT0 hT1 hd0 hd1
        (by omega) (by omega) (by have := Int.mul_nonneg hd0 (le_of_lt hT0); omega)
        (by omega) hfit
    unfold DepartureInfo.Status
    cases d.vehicle_status <;> cases T <;> simp only [] <;>
      first
      | exact DepartureStatus.noConfusion
      | (rw [hexp, hsch, if_neg (by omega)]; split_ifs <;> exact DepartureStatus.noConfusion)
      | (rw [hexp, if_neg (by omega)]; split_ifs <;> exact DepartureStatus.noConfusion)

/-- C18, witness: an entry arriving on day 1000, tick 0 that waits 10 ticks and is 5 ticks
early is not EXPECTED. -/
theorem Status_classification_witness :
    (entryAt ⟨1000, 0⟩ 10 (-5) 0).vehicle_status = .VS_TRAVELLING ∧
    ((entryAt ⟨1000, 0⟩ 10 (-5) 0).Status .DT_DEPARTURE 74 999 = .DS_ON_TIME ↔
      ¬ (entryAt ⟨1000, 0⟩ 10 (-5) 0).ExpectedArrival 74 >
          (entryAt ⟨1000, 0⟩ 10 (-5) 0).ScheduledDeparture 74 ∧
        999 < (entryAt ⟨1000, 0⟩ 10 (-5) 0).ScheduledDeparture 74) ∧
    (entryAt ⟨1000, 0⟩ 10 (-5) 0).Status .DT_DEPARTURE 74 999 ≠ .DS_EXPECTED :=
  ⟨rfl,
    ((Status_classification 74 999 (entryAt ⟨1000, 0⟩ 10 (-5) 0)).2.2.1 rfl).2.1,
    (Status_classification 74 999 (entryAt ⟨1000, 0⟩ 10 (-5) 0)).2.2.2 (by decide)
      (by decide) (by decide) (by decide) (by decide) (by decide) (by decide) (by decide)
      (by decide) (by decide) (by decide) (by decide) .DT_DEPARTURE⟩

/-! ## C19: the queue ordering `DepartureAfter` -/

/-- Two normalized timestamps compare as their tick counts do. -/
theorem ArrivalTime.gt_iff_ticks (DAY_TICKS : Int) (a b : ArrivalTime)
    (ha0 : 0 ≤ a.date_fract) (ha1 : a.date_fract < DAY_TICKS)
    (hb0 : 0 ≤ b.date_fract) (hb1 : b.date_fract < DAY_TICKS) :
    a.gt b = true ↔
      a.date * DAY_TICKS + a.date_fract > b.date * DAY_TICKS + b.date_fract := by
  have hT0 : 0 ≤ DAY_TICKS := by omega
  unfold ArrivalTime.gt
  simp only [Bool.or_eq_true, Bool.and_eq_true, decide_eq_true_eq]
  constructor
  · rintro (h | ⟨h, hf⟩)
    · have := Int.mul_le_mul_of_nonneg_right (by omega : b.date + 1 ≤ a.date) hT0
      rw [Int.add_mul] at this
      omega
    · rw [h]; omega
  · intro h
    by_contra hc
    have hle : a.date ≤ b.date := by omega
    rcases lt_or_eq_of_le hle with hlt | heq
    · have := Int.mul_le_mul_of_nonneg_right (by omega : a.date + 1 ≤ b.date) hT0
      rw [Int.add_mul] at this
      omega
    · rw [heq] at h
      exact hc (Or.inr ⟨heq, by omega⟩)

/-- C19, counterexample: on a departure board two entries with the same scheduled
departure (day 1000, tick 15) and different arrivals (tick 10 and tick 5) are not ordered
by arrival: neither ranks after the other. -/
theorem DepartureAfter_no_tie_break :
    (entryAt ⟨1000, 10⟩ 5 0 0).arrival.add 74 (entryAt ⟨1000, 10⟩ 5 0 0).wait_time =
      (entryAt ⟨1000, 5⟩ 10 0 0).arrival.add 74 (entryAt ⟨1000, 5⟩ 10 0 0).wait_time ∧
    (entryAt ⟨1000, 10⟩ 5 0 0).arrival.gt (entryAt ⟨1000, 5⟩ 10 0 0).arrival = true ∧
    DepartureAfter .DT_DEPARTURE 74 (entryAt ⟨1000, 10⟩ 5 0 0) (entryAt ⟨1000, 5⟩ 10 0 0) =
      false ∧
    DepartureAfter .DT_DEPARTURE 74 (entryAt ⟨1000, 5⟩ 10 0 0) (entryAt ⟨1000, 10⟩ 5 0 0) =
      false := by
  decide

/-- C19, amended: in departure mode `lhs` ranks after `rhs` iff the scheduled departure
timestamp `arrival + wait_time` of `lhs` is greater than that of `rhs`, with no tie-break:
of two entries with equal scheduled departure neither ranks after the other; for
normalized arrivals with a non-negative day whose scheduled departure fits the 32-bit
`Date` this is the comparison of the tick counts of `arrival + wait_time`.  In arrival mode
`lhs` ranks after `rhs` iff `lhs.arrival > rhs.arrival`, whatever the wait times. -/
theorem DepartureAfter_spec (DAY_TICKS : Int) (lhs rhs : DepartureInfo) :
    (DepartureAfter .DT_DEPARTURE DAY_TICKS lhs rhs =
      (lhs.arrival.add DAY_TICKS lhs.wait_time).gt
        (rhs.arrival.add DAY_TICKS rhs.wait_time)) ∧
    (lhs.arrival.add DAY_TICKS lhs.wait_time = rhs.arrival.add DAY_TICKS rhs.wait_time →
      DepartureAfter .DT_DEPARTURE DAY_TICKS lhs rhs = false ∧
      DepartureAfter .DT_DEPARTURE DAY_TICKS rhs lhs = false) ∧
    (0 < DAY_TICKS → DAY_TICKS ≤ 65536 →
      0 ≤ lhs.arrival.date → 0 ≤ lhs.arrival.date_fract →
      0 ≤ lhs.wait_time → lhs.wait_time < 65536 →
      lhs.arrival.date * DAY_TICKS + lhs.arrival.date_fract + lhs.wait_time <
        2147483648 * DAY_TICKS →
      0 ≤ rhs.arrival.date → 0 ≤ rhs.arrival.date_fract →
      0 ≤ rhs.wait_time → rhs.wait_time < 65536 →
      rhs.arrival.date * DAY_TICKS + rhs.arrival.date_fract + rhs.wait_time <
        2147483648 * DAY_TICKS →
      (DepartureAfter .DT_DEPARTURE DAY_TICKS lhs rhs = true ↔
        lhs.arrival.date * DAY_TICKS + lhs.arrival.date_fract + lhs.wait_time >
          rhs.arrival.date * DAY_TICKS + rhs.arrival.date_fract + rhs.wait_time)) ∧
    (DepartureAfter .DT_ARRIVAL DAY_TICKS lhs rhs = lhs.arrival.gt rhs.arrival) ∧
    (∀ w w' : Int,
      DepartureAfter .DT_ARRIVAL DAY_TICKS { lhs with wait_time := w }
          { rhs with wait_time := w' } =
        DepartureAfter .DT_ARRIVAL DAY_TICKS lhs rhs) := by
  refine ⟨rfl, ?_, ?_, rfl, fun _ _ => rfl⟩
  · intro h
    have hirr : ∀ a : ArrivalTime, a.gt a = false := by
      intro a
      unfold ArrivalTime.gt
      simp
    constructor
    · show ArrivalTime.gt _ _ = false
      rw [h]; exact hirr _
    · show ArrivalTime.gt _ _ = false
      rw [h]; exact hirr _
  · intro hT0 hT1 hld hlf hlw0 hlw1 hlfit hrd hrf hrw0 hrw1 hrfit
    show ArrivalTime.gt _ _ = true ↔ _
    rw [ArrivalTime.add_eq DAY_TICKS lhs.arrival lhs.wait_time hT0 hT1 hld hlf hlw0 hlw1 hlfit,
      ArrivalTime.add_eq DAY_TICKS rhs.arrival rhs.wait_time hT0 hT1 hrd hrf hrw0 hrw1 hrfit]
    rw [ArrivalTime.gt_iff_ticks DAY_TICKS _ _ (Int.emod_nonneg _ (by omega))
      (Int.emod_lt_of_pos _ hT0) (Int.emod_nonneg _ (by omega)) (Int.emod_lt_of_pos _ hT0)]
    have h1 := Int.ediv_add_emod
      (lhs.arrival.date * DAY_TICKS + lhs.arrival.date_fract + lhs.wait_time) DAY_TICKS
    have h2 := Int.ediv_add_emod
      (rhs.arrival.date * DAY_TICKS + rhs.arrival.date_fract + rhs.wait_time) DAY_TICKS
    rw [Int.mul_comm] at h1 h2
    simp only []
    rw [h1, h2]

/-- C19, witness: with 74 ticks per day, the entry arriving on day 1000, tick 10 with a
wait of 10 ticks ranks after the entry arriving on day 1000, tick 5 with a wait of 10
ticks. -/
theorem DepartureAfter_spec_witness :
    DepartureAfter .DT_DEPARTURE 74 (entryAt ⟨1000, 10⟩ 10 0 0) (entryAt ⟨1000, 5⟩ 10 0 0) =
      true :=
  ((DepartureAfter_spec 74 (entryAt ⟨1000, 10⟩ 10 0 0) (entryAt ⟨1000, 5⟩ 10 0 0)).2.2.1
    (by decide) (by decide) (by decide) (by decide) (by decide) (by decide) (by decide)
    (by decide) (by decide) (by decide) (by decide) (by decide)).2 (by decide)

/-! ## C20: the offsets of the calling-at list -/

/-- C20, evaluation of the code at the offending input: the vehicle `pickupTwice` serves
station 1 (travel 5, wait 10), station 3 without set-down (travel 5, wait 5), station 1
again (travel 5, wait 10) and station 2 (travel 5, wait 5).  On the departure board of
station 1 on day 1000, tick 0 with 74 ticks per day its entry arrives at tick 30, waits 10
ticks and calls at station 2 with offset 30, so that arrival + wait + offset is tick 70,
while the walk clock when the order for station 2 is reached is tick 45: the second visit
of station 1 found an empty calling-at list and restarted the entry without resetting the
offset counter. -/
theorem calling_at_offset_not_reset :
    (FindFirstOrder .DF_STATION 74 1000 0 1 pickupTwice).order = some 0 ∧
    visitedOrders pickupTwice.orders 0 =
      [{ stationOrder 3 5 5 with unload := .OUFB_NO_UNLOAD }, stationOrder 1 5 10,
        stationOrder 2 5 5] ∧
    (vehicleDepartures .DT_DEPARTURE .DF_STATION 74 1000 0 1 .VEH_TRAIN 0 pickupTwice).map
        (fun e => (e.arrival, e.wait_time, e.calling_at)) =
      [(⟨1000, 30⟩, 10, [{ station := 2, ticks_after_departure_start := 30 }])] ∧
    ((ArrivalTime.mk 1000 30).add 74 10).add 74 30 = ⟨1000, 70⟩ ∧
    ((walkListF .DT_DEPARTURE .DF_STATION 74 1 false
        [{ stationOrder 3 5 5 with unload := .OUFB_NO_UNLOAD }, stationOrder 1 5 10]
        (walkStart 74 .VEH_TRAIN 0 pickupTwice false
          (FindFirstOrder .DF_STATION 74 1000 0 1 pickupTwice)
          (stationOrder 1 5 10))).state.start.add 74
      (stationOrder 2 5 5).GetTravelTime) = ⟨1000, 45⟩ := by
  decide

/-! ## The queue of `CreatePrintableDepartures` -/

theorem queuePop_eq_none (Tordering : DepartureInfo → DepartureInfo → Bool)
    (q : List DepartureInfo) : queuePop Tordering q = none ↔ q = [] := by
  cases q with
  | nil => simp [queuePop]
  | cons x xs =>
    simp only [queuePop]
    cases queuePop Tordering xs with
    | none => simp
    | some p =>
      obtain ⟨y, rest⟩ := p
      simp only []
      split_ifs <;> simp

/-- Popping takes one entry out of the queue and keeps the others. -/
theorem queuePop_perm (Tordering : DepartureInfo → DepartureInfo → Bool) :
    ∀ (q : List DepartureInfo) (top : DepartureInfo) (rest : List DepartureInfo),
      queuePop Tordering q = some (top, rest) → q.Perm (top :: rest) := by
  intro q
  induction q with
  | nil => intro top rest h; simp [queuePop] at h
  | cons x xs ih =>
    intro top rest h
    simp only [queuePop] at h
    cases hxs : queuePop Tordering xs with
    | none =>
      rw [hxs] at h
      simp only [Option.some.injEq, Prod.mk.injEq] at h
      obtain ⟨rfl, rfl⟩ := h
      rw [(queuePop_eq_none Tordering xs).1 hxs]
    | some p =>
      obtain ⟨y, rest'⟩ := p
      rw [hxs] at h
      simp only [] at h
      have hp := ih y rest' hxs
      split_ifs at h
      · simp only [Option.some.injEq, Prod.mk.injEq] at h
        obtain ⟨rfl, rfl⟩ := h
        exact (List.Perm.cons x hp).trans (List.Perm.swap _ _ _)
      · simp only [Option.some.injEq, Prod.mk.injEq] at h
        obtain ⟨rfl, rfl⟩ := h
        exact List.Perm.refl _

/-- When the ordering compares a key on the entries of the queue, the popped entry has
the least key. -/
theorem queuePop_min (Tordering : DepartureInfo → DepartureInfo → Bool)
    (I : DepartureInfo → Prop) (key : DepartureInfo → Int)
    (hafter : ∀ x y, I x → I y → (Tordering x y = true ↔ key y < key x)) :
    ∀ (q : List DepartureInfo) (top : DepartureInfo) (rest : List DepartureInfo),
      (∀ z ∈ q, I z) → queuePop Tordering q = some (top, rest) →
      ∀ z ∈ rest, key top ≤ key z := by
  intro q
  induction q with
  | nil => intro top rest _ h; simp [queuePop] at h
  | cons x xs ih =>
    intro top rest hI h
    simp only [queuePop] at h
    cases hxs : queuePop Tordering xs with
    | none =>
      rw [hxs] at h
      simp only [Option.some.injEq, Prod.mk.injEq] at h
      obtain ⟨rfl, rfl⟩ := h
      intro z hz
      exact absurd hz (List.not_mem_nil z)
    | some p =>
      obtain ⟨y, rest'⟩ := p
      rw [hxs] at h
      simp only [] at h
      have hIxs : ∀ z ∈ xs, I z := fun z hz => hI z (List.mem_cons_of_mem _ hz)
      have hmin := ih y rest' hIxs hxs
      have hp := queuePop_perm Tordering xs y rest' hxs
      have hIx : I x := hI x (List.mem_cons_self _ _)
      have hIy : I y := hIxs y (hp.mem_iff.2 (List.mem_cons_self _ _))
      split_ifs at h with hxy
      · simp only [Option.some.injEq, Prod.mk.injEq] at h
        obtain ⟨rfl, rfl⟩ := h
        have hlt := (hafter x _ hIx hIy).1 hxy
        intro z hz
        rcases List.mem_cons.1 hz with rfl | hz
        · omega
        · exact hmin z hz
      · simp only [Option.some.injEq, Prod.mk.injEq] at h
        obtain ⟨rfl, rfl⟩ := h
        have hle : key x ≤ key y := by
          by_contra hc
          exact hxy ((hafter _ y hIx hIy).2 (by omega))
        intro z hz
        rcases List.mem_cons.1 (hp.mem_iff.1 hz) with rfl | hz
        · exact hle
        · exact le_trans hle (hmin z hz)

/-- The entries of the queue after `requeue`: those before it, and the progressed entry
if it repeats and its scheduled departure is before the limit. -/
theorem mem_requeue (DAY_TICKS limit : Int) (q : List DepartureInfo) (di z : DepartureInfo)
    (hz : z ∈ requeue DAY_TICKS limit q di) :
    z ∈ q ∨ (di.Repeats = true ∧
      (di.ProgressToNextDeparture DAY_TICKS).ScheduledDeparture DAY_TICKS < limit ∧
      z = di.ProgressToNextDeparture DAY_TICKS) := by
  unfold requeue at hz
  simp only [] at hz
  split_ifs at hz with h1 h2
  · rcases List.mem_append.1 hz with h | h
    · exact Or.inl h
    · exact Or.inr ⟨h1, h2, List.mem_singleton.1 h⟩
  · exact Or.inl hz
  · exact Or.inl hz

/-- A property of the entries that survives `requeue` holds in the queue after the skip
loop. -/
theorem skipLoop_forall (Tordering : DepartureInfo → DepartureInfo → Bool)
    (DAY_TICKS limit : Int) (Q : DepartureInfo → Prop)
    (hQ : ∀ di, Q di → di.Repeats = true →
      (di.ProgressToNextDeparture DAY_TICKS).ScheduledDeparture DAY_TICKS < limit →
      Q (di.ProgressToNextDeparture DAY_TICKS)) :
    ∀ (skip : Nat) (q : List DepartureInfo), (∀ z ∈ q, Q z) →
      ∀ z ∈ skipLoop Tordering DAY_TICKS limit skip q, Q z := by
  intro skip
  induction skip with
  | zero => intro q hq z hz; exact hq z hz
  | succ n ih =>
    intro q hq z hz
    simp only [skipLoop] at hz
    cases hpop : queuePop Tordering q with
    | none => rw [hpop] at hz; exact hq z hz
    | some p =>
      obtain ⟨di, rest⟩ := p
      rw [hpop] at hz
      have hp := queuePop_perm Tordering q di rest hpop
      refine ih (requeue DAY_TICKS limit rest di) ?_ z hz
      intro w hw
      rcases mem_requeue DAY_TICKS limit rest di w hw with h | ⟨h1, h2, rfl⟩
      · exact hq w (hp.mem_iff.2 (List.mem_cons_of_mem _ h))
      · exact hQ di (hq di (hp.mem_iff.2 (List.mem_cons_self _ _))) h1 h2

/-! ## The page loop of `CreatePrintableDepartures` -/

/-- The destination loop entered inside the calling-at list ends inside it. -/
theorem findDestination_some (DAY_TICKS : Int)
    (arrivals : StationID → List DestinationStationArrival) (di : DepartureInfo) :
    ∀ (i : Nat) (via : StationID), i < di.calling_at.length →
      ∃ r, findDestination DAY_TICKS arrivals di i via = some r ∧ r.1 ≤ i := by
  intro i
  induction i with
  | zero => intro via _; exact ⟨(0, via), rfl, le_refl _⟩
  | succ n ih =>
    intro via hlt
    simp only [findDestination]
    rw [List.getElem?_eq_getElem hlt]
    simp only []
    split_ifs <;>
      first
      | exact ⟨_, rfl, le_refl _⟩
      | (obtain ⟨r, hr, hle⟩ := ih INVALID_STATION (by omega)
         exact ⟨r, hr, by omega⟩)
      | (obtain ⟨r, hr, hle⟩ := ih via (by omega)
         exact ⟨r, hr, by omega⟩)

/-- The destination of an entry is defined in arrival mode, and in departure mode when
its calling-at list is not empty; it is then an index of the list or 0. -/
theorem destinationOf_some (Tdeparture_type : DepartureType) (DAY_TICKS : Int)
    (arrivals : StationID → List DestinationStationArrival) (di : DepartureInfo)
    (h : Tdeparture_type = .DT_ARRIVAL ∨ di.calling_at ≠ []) :
    ∃ r, destinationOf Tdeparture_type DAY_TICKS arrivals di = some r ∧
      r.1 ≤ di.calling_at.length - 1 := by
  cases Tdeparture_type with
  | DT_ARRIVAL => exact ⟨(0, di.via), rfl, Nat.zero_le _⟩
  | DT_DEPARTURE =>
    have hne : di.calling_at ≠ [] := by
      rcases h with h | h
      · exact absurd h (by decide)
      · exact h
    have hlen : di.calling_at.length ≠ 0 := fun hc => hne (List.length_eq_zero.1 hc)
    simp only [destinationOf, if_neg hlen]
    exact findDestination_some DAY_TICKS arrivals di _ di.via (by omega)

/-- The page holds at most `len` entries. -/
theorem pageLoop_length (Tdeparture_type : DepartureType)
    (Tordering : DepartureInfo → DepartureInfo → Bool) (DAY_TICKS _date limit : Int)
    (arrivals : StationID → List DestinationStationArrival) :
    ∀ (len : Nat) (q : List DepartureInfo) (page : List PrintableDeparture),
      pageLoop Tdeparture_type Tordering DAY_TICKS _date limit arrivals len q = some page →
      page.length ≤ len := by
  intro len
  induction len with
  | zero =>
    intro q page h
    simp only [pageLoop, Option.some.injEq] at h
    subst h; exact le_refl _
  | succ n ih =>
    intro q page h
    simp only [pageLoop] at h
    cases hpop : queuePop Tordering q with
    | none =>
      rw [hpop] at h
      simp only [Option.some.injEq] at h
      subst h; exact Nat.zero_le _
    | some p =>
      obtain ⟨di, rest⟩ := p
      rw [hpop] at h
      simp only [] at h
      cases hdest : destinationOf Tdeparture_type DAY_TICKS arrivals di with
      | none => rw [hdest] at h; simp at h
      | some r =>
        obtain ⟨destination_index, via⟩ := r
        rw [hdest] at h
        simp only [] at h
        cases hrec : pageLoop Tdeparture_type Tordering DAY_TICKS _date limit arrivals n
            (requeue DAY_TICKS limit rest di) with
        | none => rw [hrec] at h; simp at h
        | some result =>
          rw [hrec] at h
          simp only [Option.some.injEq] at h
          subst h
          have := ih _ _ hrec
          simp only [List.length_cons]
          omega

/-- The page loop as seen from outside: either the page is empty, or the queue gives up
an entry with a destination, which heads the page, and the loop goes on with the queue
after `requeue`. -/
theorem pageLoop_cases (Tdeparture_type : DepartureType)
    (Tordering : DepartureInfo → DepartureInfo → Bool) (DAY_TICKS _date limit : Int)
    (arrivals : StationID → List DestinationStationArrival)
    (len : Nat) (q : List DepartureInfo) (page : List PrintableDeparture)
    (h : pageLoop Tdeparture_type Tordering DAY_TICKS _date limit arrivals (len + 1) q =
      some page) :
    page = [] ∨
    ∃ di rest destination_index via result,
      queuePop Tordering q = some (di, rest) ∧
      destinationOf Tdeparture_type DAY_TICKS arrivals di = some (destination_index, via) ∧
      pageLoop Tdeparture_type Tordering DAY_TICKS _date limit arrivals len
        (requeue DAY_TICKS limit rest di) = some result ∧
      page = PrintableDeparture.construct Tdeparture_type DAY_TICKS _date di
        destination_index via :: result := by
  simp only [pageLoop] at h
  cases hpop : queuePop Tordering q with
  | none =>
    rw [hpop] at h
    simp only [Option.some.injEq] at h
    exact Or.inl h.symm
  | some p =>
    obtain ⟨di, rest⟩ := p
    rw [hpop] at h
    simp only [] at h
    cases hdest : destinationOf Tdeparture_type DAY_TICKS arrivals di with
    | none => rw [hdest] at h; simp at h
    | some r =>
      obtain ⟨destination_index, via⟩ := r
      rw [hdest] at h
      simp only [] at h
      cases hrec : pageLoop Tdeparture_type Tordering DAY_TICKS _date limit arrivals len
          (requeue DAY_TICKS limit rest di) with
      | none => rw [hrec] at h; simp at h
      | some result =>
        rw [hrec] at h
        simp only [Option.some.injEq] at h
        exact Or.inr ⟨di, rest, destination_index, via, result, rfl, hdest, hrec, h.symm⟩

/-- Every entry of the page is built from an entry with a property that holds in the
queue and survives `requeue`. -/
theorem pageLoop_forall (Tdeparture_type : DepartureType)
    (Tordering : DepartureInfo → DepartureInfo → Bool) (DAY_TICKS _date limit : Int)
    (arrivals : StationID → List DestinationStationArrival) (Q : DepartureInfo → Prop)
    (hQ : ∀ di, Q di → di.Repeats = true →
      (di.ProgressToNextDeparture DAY_TICKS).ScheduledDeparture DAY_TICKS < limit →
      Q (di.ProgressToNextDeparture DAY_TICKS)) :
    ∀ (len : Nat) (q : List DepartureInfo) (page : List PrintableDeparture),
      (∀ z ∈ q, Q z) →
      pageLoop Tdeparture_type Tordering DAY_TICKS _date limit arrivals len q = some page →
      ∀ p ∈ page, ∃ di destination_index via, Q di ∧
        destinationOf Tdeparture_type DAY_TICKS arrivals di = some (destination_index, via) ∧
        p = PrintableDeparture.construct Tdeparture_type DAY_TICKS _date di
          destination_index via := by
  intro len
  induction len with
  | zero =>
    intro q page _ h p hp
    simp only [pageLoop, Option.some.injEq] at h
    subst h
    exact absurd hp (List.not_mem_nil p)
  | succ n ih =>
    intro q page hq h p hp
    rcases pageLoop_cases _ _ _ _ _ _ _ _ _ h with rfl | ⟨di, rest, dest, via, result, hpop,
      hdest, hrec, rfl⟩
    · exact absurd hp (List.not_mem_nil p)
    · have hperm := queuePop_perm Tordering q di rest hpop
      have hdi : Q di := hq di (hperm.mem_iff.2 (List.mem_cons_self _ _))
      rcases List.mem_cons.1 hp with rfl | hp
      · exact ⟨di, dest, via, hdi, hdest, rfl⟩
      · refine ih (requeue DAY_TICKS limit rest di) result ?_ hrec p hp
        intro w hw
        rcases mem_requeue DAY_TICKS limit rest di w hw with h | ⟨h1, h2, rfl⟩
        · exact hq w (hperm.mem_iff.2 (List.mem_cons_of_mem _ h))
        · exact hQ di hdi h1 h2

/-- When the ordering compares a key that `ProgressToNextDeparture` does not decrease,
the page is sorted by every field that is a monotone function of the key. -/
theorem pageLoop_sorted (Tdeparture_type : DepartureType)
    (Tordering : DepartureInfo → DepartureInfo → Bool) (DAY_TICKS _date limit : Int)
    (arrivals : StationID → List DestinationStationArrival)
    (I : DepartureInfo → Prop) (key : DepartureInfo → Int)
    (F : PrintableDeparture → Int) (g : Int → Int)
    (hafter : ∀ x y, I x → I y → (Tordering x y = true ↔ key y < key x))
    (hI : ∀ di, I di → di.Repeats = true →
      (di.ProgressToNextDeparture DAY_TICKS).ScheduledDeparture DAY_TICKS < limit →
      I (di.ProgressToNextDeparture DAY_TICKS) ∧
        key di ≤ key (di.ProgressToNextDeparture DAY_TICKS))
    (hF : ∀ di destination_index via, I di →
      F (PrintableDeparture.construct Tdeparture_type DAY_TICKS _date di destination_index
        via) = g (key di))
    (hg : ∀ a b, a ≤ b → g a ≤ g b) :
    ∀ (len : Nat) (q : List DepartureInfo) (page : List PrintableDeparture) (lb : Int),
      (∀ z ∈ q, I z ∧ lb ≤ key z) →
      pageLoop Tdeparture_type Tordering DAY_TICKS _date limit arrivals len q = some page →
      (∀ p ∈ page, g lb ≤ F p) ∧ page.Pairwise (fun a b => F a ≤ F b) := by
  intro len
  induction len with
  | zero =>
    intro q page lb _ h
    simp only [pageLoop, Option.some.injEq] at h
    subst h
    exact ⟨fun p hp => absurd hp (List.not_mem_nil p), List.Pairwise.nil⟩
  | succ n ih =>
    intro q page lb hq h
    rcases pageLoop_cases _ _ _ _ _ _ _ _ _ h with rfl | ⟨di, rest, dest, via, result, hpop,
      hdest, hrec, rfl⟩
    · exact ⟨fun p hp => absurd hp (List.not_mem_nil p), List.Pairwise.nil⟩
    · have hperm := queuePop_perm Tordering q di rest hpop
      have hdi := hq di (hperm.mem_iff.2 (List.mem_cons_self _ _))
      have hmin := queuePop_min Tordering I key hafter q di rest (fun z hz => (hq z hz).1) hpop
      have hnext : ∀ z ∈ requeue DAY_TICKS limit rest di, I z ∧ key di ≤ key z := by
        intro w hw
        rcases mem_requeue DAY_TICKS limit rest di w hw with h | ⟨h1, h2, rfl⟩
        · exact ⟨(hq w (hperm.mem_iff.2 (List.mem_cons_of_mem _ h))).1, hmin w h⟩
        · exact hI di hdi.1 h1 h2
      obtain ⟨hlb, hpair⟩ := ih (requeue DAY_TICKS limit rest di) result (key di) hnext hrec
      constructor
      · intro p hp
        rcases List.mem_cons.1 hp with rfl | hp
        · rw [hF di dest via hdi.1]
          exact hg _ _ hdi.2
        · exact le_trans (hg _ _ hdi.2) (hlb p hp)
      · refine List.Pairwise.cons ?_ hpair
        intro p hp
        rw [hF di dest via hdi.1]
        exact hlb p hp

/-- The page loop yields a page in arrival mode, and in departure mode when no entry of
the queue has an empty calling-at list. -/
theorem pageLoop_total (Tdeparture_type : DepartureType)
    (Tordering : DepartureInfo → DepartureInfo → Bool) (DAY_TICKS _date limit : Int)
    (arrivals : StationID → List DestinationStationArrival) :
    ∀ (len : Nat) (q : List DepartureInfo),
      (∀ z ∈ q, Tdeparture_type = .DT_ARRIVAL ∨ z.calling_at ≠ []) →
      ∃ page, pageLoop Tdeparture_type Tordering DAY_TICKS _date limit arrivals len q =
        some page := by
  intro len
  induction len with
  | zero => intro q _; exact ⟨[], rfl⟩
  | succ n ih =>
    intro q hq
    simp only [pageLoop]
    cases hpop : queuePop Tordering q with
    | none => exact ⟨[], rfl⟩
    | some p =>
      obtain ⟨di, rest⟩ := p
      have hperm := queuePop_perm Tordering q di rest hpop
      have hdi := hq di (hperm.mem_iff.2 (List.mem_cons_self _ _))
      obtain ⟨r, hr, _⟩ := destinationOf_some Tdeparture_type DAY_TICKS arrivals di hdi
      obtain ⟨page, hpage⟩ := ih (requeue DAY_TICKS limit rest di) (by
        intro w hw
        rcases mem_requeue DAY_TICKS limit rest di w hw with h | ⟨_, _, rfl⟩
        · exact hq w (hperm.mem_iff.2 (List.mem_cons_of_mem _ h))
        · exact hdi)
      simp only [hr, hpage]
      exact ⟨_, rfl⟩

/-! ## Entries that fit the 32-bit `Date` -/

/-- Passing a tick count to `operator+` converts it to `uint16`. -/
theorem ArrivalTime.add_wrapU16 (DAY_TICKS : Int) (a : ArrivalTime) (ticks : Int) :
    a.add DAY_TICKS ticks = a.add DAY_TICKS (wrapU16 ticks) := by
  unfold ArrivalTime.add
  rw [wrapU16_idem]

/-- The scheduled departure of an entry that fits is the day of `arrival + wait_time`,
and it lies before the bound. -/
theorem DepartureInfo.fits_ScheduledDeparture (DAY_TICKS bound : Int) (e : DepartureInfo)
    (hT0 : 0 < DAY_TICKS) (hT1 : DAY_TICKS ≤ 65536) (hb : bound ≤ 2147483648)
    (h : e.fits DAY_TICKS bound) :
    e.ScheduledDeparture DAY_TICKS =
      (e.arrival.date * DAY_TICKS + e.arrival.date_fract + e.wait_time) / DAY_TICKS ∧
    e.ScheduledDeparture DAY_TICKS < bound := by
  obtain ⟨hd0, hf0, hf1, hw0, hw1, hfit⟩ := h
  have hp : 0 ≤ e.arrival.date * DAY_TICKS := Int.mul_nonneg hd0 (le_of_lt hT0)
  have hbb : bound * DAY_TICKS ≤ 2147483648 * DAY_TICKS :=
    Int.mul_le_mul_of_nonneg_right hb (le_of_lt hT0)
  have hq : (e.arrival.date * DAY_TICKS + e.arrival.date_fract + e.wait_time) / DAY_TICKS <
      bound := Int.ediv_lt_of_lt_mul hT0 hfit
  have hd1 : e.arrival.date < 2147483648 := by
    by_contra hc
    have : (2147483648 : Int) * DAY_TICKS ≤ e.arrival.date * DAY_TICKS :=
      Int.mul_le_mul_of_nonneg_right (by omega) (le_of_lt hT0)
    omega
  have hex := ArrivalTime.DateAfter_exact DAY_TICKS e.arrival e.wait_time hT0 (by omega)
    hd0 hd1 (by omega) (by omega) (by omega) (by omega) (by omega)
  unfold DepartureInfo.ScheduledDeparture
  rw [hex]
  exact ⟨rfl, hq⟩

/-- An entry with a normalized arrival, a non-negative day and a `uint16` wait time whose
scheduled departure is computed without wrap-around fits below every day after it. -/
theorem DepartureInfo.fits_of_ScheduledDeparture (DAY_TICKS bound : Int) (e : DepartureInfo)
    (hT0 : 0 < DAY_TICKS) (hT1 : DAY_TICKS ≤ 65536)
    (h : e.fits DAY_TICKS 2147483648)
    (hs : e.ScheduledDeparture DAY_TICKS < bound) : e.fits DAY_TICKS bound := by
  have hex := (DepartureInfo.fits_ScheduledDeparture DAY_TICKS 2147483648 e hT0 hT1
    (le_refl _) h).1
  obtain ⟨hd0, hf0, hf1, hw0, hw1, hfit⟩ := h
  rw [hex] at hs
  refine ⟨hd0, hf0, hf1, hw0, hw1, ?_⟩
  exact (Int.ediv_lt_iff_lt_mul hT0).1 hs

/-- Progressing an entry that fits below `bound` moves its arrival by
`repeat_after mod 2^16` ticks, as long as `bound` leaves room for `2^16` ticks. -/
theorem DepartureInfo.fits_Progress (DAY_TICKS bound : Int) (e : DepartureInfo)
    (hT0 : 0 < DAY_TICKS) (hT1 : DAY_TICKS ≤ 65536)
    (hb : bound * DAY_TICKS + 65536 ≤ 2147483648 * DAY_TICKS)
    (h : e.fits DAY_TICKS bound) :
    (e.ProgressToNextDeparture DAY_TICKS).fits DAY_TICKS 2147483648 ∧
    (e.ProgressToNextDeparture DAY_TICKS).arrival.date * DAY_TICKS +
        (e.ProgressToNextDeparture DAY_TICKS).arrival.date_fract =
      e.arrival.date * DAY_TICKS + e.arrival.date_fract + e.repeat_after % 65536 := by
  obtain ⟨hd0, hf0, hf1, hw0, hw1, hfit⟩ := h
  have hr0 : 0 ≤ e.repeat_after % 65536 := Int.emod_nonneg _ (by norm_num)
  have hr1 : e.repeat_after % 65536 < 65536 := Int.emod_lt_of_pos _ (by norm_num)
  have hp : 0 ≤ e.arrival.date * DAY_TICKS := Int.mul_nonneg hd0 (le_of_lt hT0)
  have harr : (e.ProgressToNextDeparture DAY_TICKS).arrival =
      ⟨(e.arrival.date * DAY_TICKS + e.arrival.date_fract + e.repeat_after % 65536) /
          DAY_TICKS,
        (e.arrival.date * DAY_TICKS + e.arrival.date_fract + e.repeat_after % 65536) %
          DAY_TICKS⟩ := by
    show e.arrival.add DAY_TICKS e.repeat_after = _
    rw [ArrivalTime.add_wrapU16]
    exact ArrivalTime.add_eq DAY_TICKS e.arrival _ hT0 hT1 hd0 hf0 hr0 hr1 (by
      show _ + e.repeat_after % 65536 < _
      omega)
  have hwait : (e.ProgressToNextDeparture DAY_TICKS).wait_time = e.wait_time := rfl
  have hsplit := Int.ediv_add_emod
    (e.arrival.date * DAY_TICKS + e.arrival.date_fract + e.repeat_after % 65536) DAY_TICKS
  rw [Int.mul_comm] at hsplit
  have hq0 : 0 ≤ (e.arrival.date * DAY_TICKS + e.arrival.date_fract +
      e.repeat_after % 65536) / DAY_TICKS := Int.ediv_nonneg (by omega) (le_of_lt hT0)
  have hm0 : 0 ≤ (e.arrival.date * DAY_TICKS + e.arrival.date_fract +
      e.repeat_after % 65536) % DAY_TICKS := Int.emod_nonneg _ (by omega)
  have hm1 : (e.arrival.date * DAY_TICKS + e.arrival.date_fract +
      e.repeat_after % 65536) % DAY_TICKS < DAY_TICKS := Int.emod_lt_of_pos _ hT0
  refine ⟨⟨?_, ?_, ?_, ?_, ?_, ?_⟩, ?_⟩
  · rw [harr]; exact hq0
  · rw [harr]; exact hm0
  · rw [harr]; exact hm1
  · rw [hwait]; exact hw0
  · rw [hwait]; exact hw1
  · rw [harr, hwait]
    simp only []
    omega
  · rw [harr]
    simp only []
    omega

/-- On entries that fit, `operator>` compares the tick counts of `arrival + wait_time`. -/
theorem DepartureInfo.gt_iff_scheduled_ticks (DAY_TICKS : Int) (x y : DepartureInfo)
    (hT0 : 0 < DAY_TICKS) (hT1 : DAY_TICKS ≤ 65536)
    (hx : x.fits DAY_TICKS 2147483648) (hy : y.fits DAY_TICKS 2147483648) :
    x.gt DAY_TICKS y = true ↔
      y.arrival.date * DAY_TICKS + y.arrival.date_fract + y.wait_time <
        x.arrival.date * DAY_TICKS + x.arrival.date_fract + x.wait_time := by
  obtain ⟨hxd, hxf, _, hxw0, hxw1, hxfit⟩ := hx
  obtain ⟨hyd, hyf, _, hyw0, hyw1, hyfit⟩ := hy
  unfold DepartureInfo.gt
  rw [ArrivalTime.add_eq DAY_TICKS x.arrival x.wait_time hT0 hT1 hxd hxf hxw0 hxw1 hxfit,
    ArrivalTime.add_eq DAY_TICKS y.arrival y.wait_time hT0 hT1 hyd hyf hyw0 hyw1 hyfit]
  rw [ArrivalTime.gt_iff_ticks DAY_TICKS _ _ (Int.emod_nonneg _ (by omega))
    (Int.emod_lt_of_pos _ hT0) (Int.emod_nonneg _ (by omega)) (Int.emod_lt_of_pos _ hT0)]
  have h1 := Int.ediv_add_emod
    (x.arrival.date * DAY_TICKS + x.arrival.date_fract + x.wait_time) DAY_TICKS
  have h2 := Int.ediv_add_emod
    (y.arrival.date * DAY_TICKS + y.arrival.date_fract + y.wait_time) DAY_TICKS
  rw [Int.mul_comm] at h1 h2
  simp only []
  rw [h1, h2]

theorem DepartureInfo.fits_mono (DAY_TICKS bound bound' : Int) (e : DepartureInfo)
    (hT0 : 0 < DAY_TICKS) (hb : bound ≤ bound') (h : e.fits DAY_TICKS bound) :
    e.fits DAY_TICKS bound' := by
  obtain ⟨hd0, hf0, hf1, hw0, hw1, hfit⟩ := h
  have := Int.mul_le_mul_of_nonneg_right hb (le_of_lt hT0)
  exact ⟨hd0, hf0, hf1, hw0, hw1, by omega⟩

/-- The day of a normalized timestamp is the quotient of its tick count. -/
theorem day_of_ticks (DAY_TICKS d f : Int) (hf0 : 0 ≤ f) (hf1 : f < DAY_TICKS) :
    (d * DAY_TICKS + f) / DAY_TICKS = d := by
  rw [Int.add_comm, Int.add_mul_ediv_right _ _ (by omega : DAY_TICKS ≠ 0),
    Int.ediv_eq_zero_of_lt hf0 hf1]
  omega

/-- The entries that `CreatePrintableDepartures` keeps in its queue fit below the limit
when the entries of the list fit the 32-bit `Date` and the limit leaves room for `2^16`
ticks. -/
theorem queue_fits (Tordering : DepartureInfo → DepartureInfo → Bool)
    (IsCargoInClassPassengers : Nat → Bool) (DAY_TICKS limit : Int)
    (departures : List DepartureInfo) (vehicle_types : VehicleTypes) (skip : Nat)
    (hT0 : 0 < DAY_TICKS) (hT1 : DAY_TICKS ≤ 65536)
    (hlim : limit * DAY_TICKS + 65536 ≤ 2147483648 * DAY_TICKS)
    (hV : ∀ e ∈ departures, e.fits DAY_TICKS 2147483648) :
    (∀ di : DepartureInfo, di.fits DAY_TICKS limit → di.Repeats = true →
      (di.ProgressToNextDeparture DAY_TICKS).ScheduledDeparture DAY_TICKS < limit →
      (di.ProgressToNextDeparture DAY_TICKS).fits DAY_TICKS limit) ∧
    ∀ z ∈ skipLoop Tordering DAY_TICKS limit skip
        (departures.filter fun it =>
          decide (it.ScheduledDeparture DAY_TICKS < limit) &&
            ShowDeparture IsCargoInClassPassengers it vehicle_types),
      z.fits DAY_TICKS limit := by
  have hQ : ∀ di : DepartureInfo, di.fits DAY_TICKS limit → di.Repeats = true →
      (di.ProgressToNextDeparture DAY_TICKS).ScheduledDeparture DAY_TICKS < limit →
      (di.ProgressToNextDeparture DAY_TICKS).fits DAY_TICKS limit := by
    intro di hdi _ hs
    exact DepartureInfo.fits_of_ScheduledDeparture DAY_TICKS limit _ hT0 hT1
      (DepartureInfo.fits_Progress DAY_TICKS limit di hT0 hT1 hlim hdi).1 hs
  refine ⟨hQ, ?_⟩
  apply skipLoop_forall Tordering DAY_TICKS limit (fun z => z.fits DAY_TICKS limit) hQ
  intro z hz
  rw [List.mem_filter] at hz
  obtain ⟨hz, hc⟩ := hz
  simp only [Bool.and_eq_true, decide_eq_true_eq] at hc
  exact DepartureInfo.fits_of_ScheduledDeparture DAY_TICKS limit z hT0 hT1 (hV z hz) hc.1

/-- `CreatePrintableDepartures` yields a page in arrival mode, and in departure mode when
no entry of the list has an empty calling-at list. -/
theorem CreatePrintableDepartures_total (Tdeparture_type : DepartureType)
    (Tordering : DepartureInfo → DepartureInfo → Bool)
    (IsCargoInClassPassengers : Nat → Bool) (DAY_TICKS _date days_of_departures : Int)
    (station : StationID) (departures : List DepartureInfo) (vehicle_types : VehicleTypes)
    (skip len : Nat)
    (h : Tdeparture_type = .DT_ARRIVAL ∨ ∀ e ∈ departures, e.calling_at ≠ []) :
    ∃ page, CreatePrintableDepartures Tdeparture_type Tordering IsCargoInClassPassengers
      DAY_TICKS _date days_of_departures station departures vehicle_types skip len =
        some page := by
  unfold CreatePrintableDepartures
  apply pageLoop_total
  apply skipLoop_forall Tordering DAY_TICKS _
    (fun z => Tdeparture_type = .DT_ARRIVAL ∨ z.calling_at ≠ [])
  · intro di hdi _ _
    exact hdi
  · intro z hz
    rcases h with h | h
    · exact Or.inl h
    · exact Or.inr (h z (List.mem_filter.1 hz).1)

/-! ## C14: the page is sorted -/

/-- C14, counterexample: with 74 ticks per day, on day 2147483281 with a horizon of 366
days (the limit is day `2^31 - 1`), the list with the single train entry that arrives on
day 2147483646, tick 73, waits 0 ticks and repeats after 148 ticks gives, for skip 0 and
page size 2, a page whose scheduled departures are 2147483646 and then 406280691 (in
arrival mode the arrivals 2147483646 and then `-2^31`): the second occurrence lies past
the last day of the 32-bit `Date`. -/
theorem page_not_sorted_counterexample :
    Option.map (List.map fun p => p.scheduled_departure)
        (windowDepartures .DT_DEPARTURE (fun _ => true) 74 2147483281 366 1
          [entryAt ⟨2147483646, 73⟩ 0 0 148] allVehicleTypes 0 2) =
      some [2147483646, 406280691] ∧
    ¬ List.Pairwise (fun a b : Int => a ≤ b) [2147483646, 406280691] ∧
    Option.map (List.map fun p => p.scheduled_arrival)
        (windowDepartures .DT_ARRIVAL (fun _ => true) 74 2147483281 366 1
          [entryAt ⟨2147483646, 73⟩ 0 0 148] allVehicleTypes 0 2) =
      some [2147483646, -2147483648] ∧
    ¬ List.Pairwise (fun a b : Int => a ≤ b) [2147483646, -2147483648] := by
  decide

/-- C14, amended: `CreatePrintableDepartures` with the ordering `DepartureAfter` yields
a page in arrival mode, and in departure mode when no entry has an empty calling-at list;
the page has at most `len` entries; and when the entries of the list fit the 32-bit `Date`
(normalized arrival, non-negative day, `uint16` wait time, scheduled departure before day
`2^31`) and the limit `_date + days_of_departures` leaves room for `2^16` ticks before day
`2^31`, the page is in non-decreasing order of the scheduled departure day in departure
mode and of the arrival day in arrival mode. -/
theorem page_sorted (Tdeparture_type : DepartureType)
    (IsCargoInClassPassengers : Nat → Bool) (DAY_TICKS _date days_of_departures : Int)
    (station : StationID) (departures : List DepartureInfo) (vehicle_types : VehicleTypes)
    (skip len : Nat) :
    ((Tdeparture_type = .DT_ARRIVAL ∨ ∀ e ∈ departures, e.calling_at ≠ []) →
      ∃ page, windowDepartures Tdeparture_type IsCargoInClassPassengers DAY_TICKS _date
        days_of_departures station departures vehicle_types skip len = some page) ∧
    ∀ page, windowDepartures Tdeparture_type IsCargoInClassPassengers DAY_TICKS _date
        days_of_departures station departures vehicle_types skip len = some page →
      page.length ≤ len ∧
      (0 < DAY_TICKS → DAY_TICKS ≤ 65536 → -2147483648 ≤ _date + days_of_departures →
        (_date + days_of_departures) * DAY_TICKS + 65536 ≤ 2147483648 * DAY_TICKS →
        (∀ e ∈ departures, e.fits DAY_TICKS 2147483648) →
        (Tdeparture_type = .DT_DEPARTURE →
          page.Pairwise (fun a b => a.scheduled_departure ≤ b.scheduled_departure)) ∧
        (Tdeparture_type = .DT_ARRIVAL →
          page.Pairwise (fun a b => a.scheduled_arrival ≤ b.scheduled_arrival))) := by
  refine ⟨fun h => CreatePrintableDepartures_total _ _ _ _ _ _ _ _ _ _ _ h, ?_⟩
  intro page hpage
  unfold windowDepartures CreatePrintableDepartures at hpage
  simp only [] at hpage
  refine ⟨pageLoop_length _ _ _ _ _ _ _ _ _ hpage, ?_⟩
  intro hT0 hT1 hlo hlim hV
  have hhi : _date + days_of_departures < 2147483648 := by
    by_contra hc
    have : (2147483648 : Int) * DAY_TICKS ≤ (_date + days_of_departures) * DAY_TICKS :=
      Int.mul_le_mul_of_nonneg_right (by omega) (le_of_lt hT0)
    omega
  rw [wrapI32_eq_self hlo hhi] at hpage
  obtain ⟨hQ, hq⟩ := queue_fits (DepartureAfter Tdeparture_type DAY_TICKS)
    IsCargoInClassPassengers DAY_TICKS (_date + days_of_departures) departures vehicle_types
    skip hT0 hT1 hlim hV
  have hwide : ∀ z : DepartureInfo, z.fits DAY_TICKS (_date + days_of_departures) →
      z.fits DAY_TICKS 2147483648 := fun z hz =>
    DepartureInfo.fits_mono DAY_TICKS _ _ z hT0 (by omega) hz
  have hg : ∀ a b : Int, a ≤ b → a / DAY_TICKS ≤ b / DAY_TICKS := fun a b hab =>
    Int.ediv_le_ediv hT0 hab
  constructor
  · rintro rfl
    refine (pageLoop_sorted .DT_DEPARTURE _ DAY_TICKS _date _ _
      (fun z => z.fits DAY_TICKS (_date + days_of_departures))
      (fun z => z.arrival.date * DAY_TICKS + z.arrival.date_fract + z.wait_time)
      (fun p => p.scheduled_departure) (fun k => k / DAY_TICKS) ?_ ?_ ?_ hg _ _ page 0 ?_
      hpage).2
    · intro x y hx hy
      exact DepartureInfo.gt_iff_scheduled_ticks DAY_TICKS x y hT0 hT1 (hwide x hx) (hwide y hy)
    · intro di hdi hrep hs
      refine ⟨hQ di hdi hrep hs, ?_⟩
      have hprog := (DepartureInfo.fits_Progress DAY_TICKS _ di hT0 hT1 hlim hdi).2
      have hr0 : 0 ≤ di.repeat_after % 65536 := Int.emod_nonneg _ (by norm_num)
      have hwait : (di.ProgressToNextDeparture DAY_TICKS).wait_time = di.wait_time := rfl
      simp only []
      rw [hprog, hwait]
      omega
    · intro di destination_index via hdi
      exact (DepartureInfo.fits_ScheduledDeparture DAY_TICKS _ di hT0 hT1 (le_refl _)
        (hwide di hdi)).1
    · intro z hz
      obtain ⟨hd0, hf0, _, hw0, _, _⟩ := hq z hz
      have := Int.mul_nonneg hd0 (le_of_lt hT0)
      exact ⟨hq z hz, by simp only []; omega⟩
  · rintro rfl
    refine (pageLoop_sorted .DT_ARRIVAL _ DAY_TICKS _date _ _
      (fun z => z.fits DAY_TICKS (_date + days_of_departures))
      (fun z => z.arrival.date * DAY_TICKS + z.arrival.date_fract)
      (fun p => p.scheduled_arrival) (fun k => k / DAY_TICKS) ?_ ?_ ?_ hg _ _ page 0 ?_
      hpage).2
    · intro x y hx hy
      obtain ⟨_, hxf0, hxf1, _⟩ := hx
      obtain ⟨_, hyf0, hyf1, _⟩ := hy
      exact ArrivalTime.gt_iff_ticks DAY_TICKS x.arrival y.arrival hxf0 hxf1 hyf0 hyf1
    · intro di hdi hrep hs
      refine ⟨hQ di hdi hrep hs, ?_⟩
      have hprog := (DepartureInfo.fits_Progress DAY_TICKS _ di hT0 hT1 hlim hdi).2
      have hr0 : 0 ≤ di.repeat_after % 65536 := Int.emod_nonneg _ (by norm_num)
      simp only []
      rw [hprog]
      omega
    · intro di destination_index via hdi
      obtain ⟨_, hf0, hf1, _⟩ := hdi
      exact (day_of_ticks DAY_TICKS di.arrival.date di.arrival.date_fract hf0 hf1).symm
    · intro z hz
      obtain ⟨hd0, hf0, _, _, _, _⟩ := hq z hz
      have := Int.mul_nonneg hd0 (le_of_lt hT0)
      exact ⟨hq z hz, by simp only []; omega⟩

/-- C14, witness: on day 1000 with a horizon of 366 days and 74 ticks per day, the page
of size 4 of two repeating train entries exists, has at most 4 entries and is sorted by
scheduled departure. -/
theorem page_sorted_witness :
    ∃ page, windowDepartures .DT_DEPARTURE (fun _ => true) 74 1000 366 1
        [entryAt ⟨1001, 3⟩ 0 0 100, entryAt ⟨1000, 0⟩ 0 0 74] allVehicleTypes 0 4 =
        some page ∧
      page.length ≤ 4 ∧
      page.Pairwise (fun a b => a.scheduled_departure ≤ b.scheduled_departure) := by
  have h := page_sorted .DT_DEPARTURE (fun _ => true) 74 1000 366 1
    [entryAt ⟨1001, 3⟩ 0 0 100, entryAt ⟨1000, 0⟩ 0 0 74] allVehicleTypes 0 4
  obtain ⟨page, hpage⟩ := h.1 (Or.inr (by decide))
  exact ⟨page, hpage, (h.2 page hpage).1,
    ((h.2 page hpage).2 (by decide) (by decide) (by decide) (by decide) (by decide)).1 rfl⟩

/-! ## C15: the page stays within the horizon and the filter -/

theorem ShowDeparture_noVehicleTypes (IsCargoInClassPassengers : Nat → Bool)
    (di : DepartureInfo) : ShowDeparture IsCargoInClassPassengers di noVehicleTypes = false := by
  unfold ShowDeparture
  cases di.vehicle_type <;>
    simp [noVehicleTypes, VehicleTypes.test, ShowVehicleType.toNat]

theorem skipLoop_nil (Tordering : DepartureInfo → DepartureInfo → Bool)
    (DAY_TICKS limit : Int) (skip : Nat) : skipLoop Tordering DAY_TICKS limit skip [] = [] := by
  cases skip <;> simp [skipLoop, queuePop]

theorem pageLoop_nil (Tdeparture_type : DepartureType)
    (Tordering : DepartureInfo → DepartureInfo → Bool) (DAY_TICKS _date limit : Int)
    (arrivals : StationID → List DestinationStationArrival) (len : Nat) :
    pageLoop Tdeparture_type Tordering DAY_TICKS _date limit arrivals len [] = some [] := by
  cases len <;> simp [pageLoop, queuePop]

/-- C15: `CreatePrintableDepartures` yields a page in arrival mode, and in departure mode
when no entry has an empty calling-at list; every entry of the page has a scheduled
departure day before the limit `_date + days_of_departures` and is built from an entry of
the list for which `ShowDeparture` is true, with the same vehicle, vehicle type and
calling-at list; with no vehicle type enabled the page is empty. -/
theorem page_within_horizon_and_filter (Tdeparture_type : DepartureType)
    (Tordering : DepartureInfo → DepartureInfo → Bool)
    (IsCargoInClassPassengers : Nat → Bool) (DAY_TICKS _date days_of_departures : Int)
    (station : StationID) (departures : List DepartureInfo) (vehicle_types : VehicleTypes)
    (skip len : Nat) :
    ((Tdeparture_type = .DT_ARRIVAL ∨ ∀ e ∈ departures, e.calling_at ≠ []) →
      ∃ page, CreatePrintableDepartures Tdeparture_type Tordering IsCargoInClassPassengers
        DAY_TICKS _date days_of_departures station departures vehicle_types skip len =
          some page) ∧
    (∀ page, CreatePrintableDepartures Tdeparture_type Tordering IsCargoInClassPassengers
        DAY_TICKS _date days_of_departures station departures vehicle_types skip len =
          some page →
      ∀ p ∈ page,
        p.scheduled_departure < wrapI32 (_date + days_of_departures) ∧
        (-2147483648 ≤ _date → 0 ≤ days_of_departures →
          p.scheduled_departure < _date + days_of_departures) ∧
        ∃ di ∈ departures, ShowDeparture IsCargoInClassPassengers di vehicle_types = true ∧
          p.vehicle = di.vehicle ∧ p.vehicle_type = di.vehicle_type ∧
          p.calling_at = di.calling_at) ∧
    CreatePrintableDepartures Tdeparture_type Tordering IsCargoInClassPassengers
      DAY_TICKS _date days_of_departures station departures noVehicleTypes skip len =
        some [] := by
  refine ⟨fun h => CreatePrintableDepartures_total _ _ _ _ _ _ _ _ _ _ _ h, ?_, ?_⟩
  · intro page hpage p hp
    unfold CreatePrintableDepartures at hpage
    simp only [] at hpage
    have hQ : ∀ di : DepartureInfo,
        (di.ScheduledDeparture DAY_TICKS < wrapI32 (_date + days_of_departures) ∧
          ∃ d0 ∈ departures, ShowDeparture IsCargoInClassPassengers d0 vehicle_types = true ∧
            di.vehicle = d0.vehicle ∧ di.vehicle_type = d0.vehicle_type ∧
            di.calling_at = d0.calling_at) →
        di.Repeats = true →
        (di.ProgressToNextDeparture DAY_TICKS).ScheduledDeparture DAY_TICKS <
          wrapI32 (_date + days_of_departures) →
        ((di.ProgressToNextDeparture DAY_TICKS).ScheduledDeparture DAY_TICKS <
            wrapI32 (_date + days_of_departures) ∧
          ∃ d0 ∈ departures, ShowDeparture IsCargoInClassPassengers d0 vehicle_types = true ∧
            (di.ProgressToNextDeparture DAY_TICKS).vehicle = d0.vehicle ∧
            (di.ProgressToNextDeparture DAY_TICKS).vehicle_type = d0.vehicle_type ∧
            (di.ProgressToNextDeparture DAY_TICKS).calling_at = d0.calling_at) :=
      fun di hdi _ hs => ⟨hs, hdi.2⟩
    obtain ⟨di, destination_index, via, ⟨hs, d0, hd0, hshow, hv, hvt, hca⟩, _, rfl⟩ :=
      pageLoop_forall Tdeparture_type Tordering DAY_TICKS _date _ _ _ hQ len _ page
        (skipLoop_forall Tordering DAY_TICKS _ _ hQ skip _ (by
          intro z hz
          rw [List.mem_filter] at hz
          obtain ⟨hz, hc⟩ := hz
          simp only [Bool.and_eq_true, decide_eq_true_eq] at hc
          exact ⟨hc.1, z, hz, hc.2, rfl, rfl, rfl⟩)) hpage p hp
    refine ⟨hs, ?_, d0, hd0, hshow, hv, hvt, hca⟩
    intro hlo hdays
    have hle : wrapI32 (_date + days_of_departures) ≤ _date + days_of_departures := by
      unfold wrapI32; omega
    exact lt_of_lt_of_le hs hle
  · unfold CreatePrintableDepartures
    simp only []
    have hnil : (departures.filter fun it =>
        decide (it.ScheduledDeparture DAY_TICKS < wrapI32 (_date + days_of_departures)) &&
          ShowDeparture IsCargoInClassPassengers it noVehicleTypes) = [] := by
      rw [List.filter_eq_nil_iff]
      intro a _
      rw [ShowDeparture_noVehicleTypes]
      simp
    rw [hnil, skipLoop_nil, pageLoop_nil]

/-- C15, witness: on day 1000 with a horizon of 366 days and 74 ticks per day, the page
of size 4 of a repeating train entry exists, and each of its entries is scheduled before
day 1366. -/
theorem page_within_horizon_and_filter_witness :
    ∃ page, windowDepartures .DT_DEPARTURE (fun _ => true) 74 1000 366 1
        [entryAt ⟨1364, 0⟩ 0 0 74] allVehicleTypes 0 4 = some page ∧
      ∀ p ∈ page, p.scheduled_departure < 1000 + 366 := by
  have h := page_within_horizon_and_filter .DT_DEPARTURE (DepartureAfter .DT_DEPARTURE 74)
    (fun _ => true) 74 1000 366 1 [entryAt ⟨1364, 0⟩ 0 0 74] allVehicleTypes 0 4
  obtain ⟨page, hpage⟩ := h.1 (Or.inr (by decide))
  exact ⟨page, hpage, fun p hp => (h.2.1 page hpage p hp).2.1 (by decide) (by decide)⟩

/-! ## C16: `NumberOfDepartures` against the page -/

/-- C16, evaluation of the code at the offending input: on day 1000 with a horizon of 366
days and 74 ticks per day, for the single train entry that arrives on day 1365, tick 0,
waits 0 ticks and repeats after 74 ticks, `NumberOfDepartures` returns 2, while
`CreatePrintableDepartures` with skip 0 yields one entry whatever the page size: the next
occurrence falls on day 1366, the limit itself, which the count `1 + (limit - scheduled) /
repeat_after` includes.  In arrival mode, for the non-repeating entry that arrives on day
1365, tick 70 and waits 10 ticks, `NumberOfDepartures` returns 1 and the page is empty,
because the queue is filled by scheduled departure day in both modes. -/
theorem NumberOfDepartures_overcounts :
    NumberOfDepartures .DT_DEPARTURE (fun _ => true) 74 1000 366
      [entryAt ⟨1365, 0⟩ 0 0 74] allVehicleTypes = 2 ∧
    (∀ len : Nat, ∃ page, windowDepartures .DT_DEPARTURE (fun _ => true) 74 1000 366 1
      [entryAt ⟨1365, 0⟩ 0 0 74] allVehicleTypes 0 len = some page ∧ page.length ≤ 1) ∧
    Option.map List.length (windowDepartures .DT_DEPARTURE (fun _ => true) 74 1000 366 1
      [entryAt ⟨1365, 0⟩ 0 0 74] allVehicleTypes 0 1000) = some 1 ∧
    NumberOfDepartures .DT_ARRIVAL (fun _ => true) 74 1000 366
      [entryAt ⟨1365, 70⟩ 10 0 0] allVehicleTypes = 1 ∧
    (∀ len : Nat, windowDepartures .DT_ARRIVAL (fun _ => true) 74 1000 366 1
      [entryAt ⟨1365, 70⟩ 10 0 0] allVehicleTypes 0 len = some []) := by
  refine ⟨by decide, ?_, by decide, by decide, ?_⟩
  · intro len
    rcases len with _ | _ | len
    · exact ⟨[], rfl, by decide⟩
    · exact ⟨_, rfl, by decide⟩
    · exact ⟨[PrintableDeparture.construct .DT_DEPARTURE 74 1000 (entryAt ⟨1365, 0⟩ 0 0 74)
        0 INVALID_STATION], rfl, by decide⟩
  · intro len
    rcases len with _ | len
    · rfl
    · rfl

/-! ## C21: goto-waypoint orders on a waypoint board -/

/-- C21, evaluation of the code: on a waypoint board, the body of the walk run on a
goto-waypoint order with a travel time restarts the departure under construction (empty
calling-at list, arrival at the walk clock, wait time of the order) whatever the
destination of the order is, and pushes the previous one if it calls anywhere.  The
vehicle `twoWaypoints` passes waypoint 1, calls at station 2, passes waypoint 5 and calls
at station 3: on the departure board of waypoint 1 on day 1000, tick 0 with 74 ticks per
day it yields a second entry, which starts at waypoint 5 at tick 35 and calls at
station 3. -/
theorem waypoint_flush_ignores_destination :
    (∀ (Tdeparture_type : DepartureType) (DAY_TICKS : Int) (station : StationID)
        (cancelled : Bool) (o : Order) (s : WalkState),
      o.IsType .OT_GOTO_WAYPOINT = true → o.GetTravelTime ≠ 0 →
      ∃ t, walkBody Tdeparture_type .DF_WAYPOINT DAY_TICKS station cancelled o s = .next t ∧
        t.departure.calling_at = [] ∧
        t.departure.arrival = s.start.add DAY_TICKS o.GetTravelTime ∧
        t.departure.wait_time = o.GetWaitTime ∧
        (s.departure.calling_at ≠ [] → t.result = s.result ++ [s.departure])) ∧
    (vehicleDepartures .DT_DEPARTURE .DF_WAYPOINT 74 1000 0 1 .VEH_TRAIN 0 twoWaypoints).map
        (fun e => (e.arrival, e.wait_time, e.calling_at)) =
      [(⟨1000, 10⟩, 0, [{ station := 2, ticks_after_departure_start := 10 }]),
       (⟨1000, 35⟩, 0, [{ station := 3, ticks_after_departure_start := 10 }])] ∧
    (vehicleDepartures .DT_ARRIVAL .DF_WAYPOINT 74 1000 0 1 .VEH_TRAIN 0 twoWaypoints).map
        (fun e => e.calling_at) =
      [[{ station := 2, ticks_after_departure_start := 10 }],
       [{ station := 3, ticks_after_departure_start := 10 }]] := by
  refine ⟨?_, by decide, by decide⟩
  intro Tdeparture_type DAY_TICKS station cancelled o s hwp htt
  have hty : o.type = .OT_GOTO_WAYPOINT := by
    unfold Order.IsType at hwp; simpa using hwp
  have h1 : (o.IsType .OT_CONDITIONAL || o.GetTravelTime == 0) = false := by
    unfold Order.IsType; simp [hty, htt]
  have h2 : o.IsType .OT_IMPLICIT = false := by
    unfold Order.IsType; simp [hty]
  have h3 : o.IsType .OT_GOTO_STATION = false := by
    unfold Order.IsType; simp [hty]
  unfold walkBody
  simp only [h1, h2, h3, Bool.false_and, Bool.false_eq_true, if_false]
  unfold walkStops
  simp only [h3, hwp, Bool.false_eq_true, if_false, Bool.true_and, beq_self_eq_true, if_true]
  refine ⟨_, rfl, ?_, ?_, ?_, ?_⟩
  · unfold walkWaypoint DepartureInfo.Reset; rfl
  · unfold walkWaypoint DepartureInfo.Reset
    simp only []
    split_ifs <;> rfl
  · unfold walkWaypoint DepartureInfo.Reset; rfl
  · intro hne
    have hlen : s.departure.calling_at.length ≠ 0 := fun hc => hne (List.length_eq_zero.1 hc)
    unfold walkWaypoint DepartureInfo.Reset
    simp [hlen]

/-- C21, witness: the goto-waypoint order for waypoint 5 restarts the departure under
construction of a walk on the board of waypoint 1. -/
theorem waypoint_flush_ignores_destination_witness :
    ∃ t, walkBody .DT_DEPARTURE .DF_WAYPOINT 74 1 false (waypointOrder 5 10 0)
        (walkStart 74 .VEH_TRAIN 0 twoWaypoints false
          (FindFirstOrder .DF_WAYPOINT 74 1000 0 1 twoWaypoints) (waypointOrder 1 10 0)) =
        .next t ∧ t.departure.calling_at = [] :=
  let ⟨t, ht, hca, _⟩ := waypoint_flush_ignores_destination.1 .DT_DEPARTURE 74 1 false
    (waypointOrder 5 10 0)
    (walkStart 74 .VEH_TRAIN 0 twoWaypoints false
      (FindFirstOrder .DF_WAYPOINT 74 1000 0 1 twoWaypoints) (waypointOrder 1 10 0))
    (by decide) (by decide)
  ⟨t, ht, hca⟩

/-! ## C24: the filter of the arrival table -/

/-- C24, evaluation of the code: an entry contributes to the arrival table when the bit of
`vehicle_types` at the numeric value of its `VehicleType` is set, which is the bit of
`ShowVehicleType` for trains for a train, for buses for a road vehicle, for lorries for a
ship and for ships for an aircraft.  With only the ships enabled a ship entry passes
`ShowDeparture` and contributes nothing; with only the lorries enabled it fails
`ShowDeparture` and contributes its stop. -/
theorem arrival_table_filter_mismatch :
    (∀ (DAY_TICKS : Int) (departures : List DepartureInfo) (vehicle_types : VehicleTypes)
        (station : StationID) (a : DestinationStationArrival),
      a ∈ arrival_times .DT_DEPARTURE DAY_TICKS departures vehicle_types station ↔
        ∃ di ∈ departures, ∃ calling_at ∈ di.calling_at,
          vehicle_types.test di.vehicle_type.toNat = true ∧ calling_at.station = station ∧
          a = { start_ticks := wrapU64 (di.arrival.Ticks DAY_TICKS + di.wait_time)
                after_ticks := calling_at.ticks_after_departure_start
                every_ticks := di.repeat_after }) ∧
    ShowDeparture (fun _ => true) (shipEntryAt ⟨1000, 10⟩ 0 0 0) shipsOnly = true ∧
    arrival_times .DT_DEPARTURE 74 [shipEntryAt ⟨1000, 10⟩ 0 0 0] shipsOnly 2 = [] ∧
    ShowDeparture (fun _ => true) (shipEntryAt ⟨1000, 10⟩ 0 0 0) lorriesOnly = false ∧
    arrival_times .DT_DEPARTURE 74 [shipEntryAt ⟨1000, 10⟩ 0 0 0] lorriesOnly 2 =
      [{ start_ticks := 74010, after_ticks := 15, every_ticks := 0 }] := by
  refine ⟨?_, by decide, by decide, by decide, by decide⟩
  intro DAY_TICKS departures vehicle_types station a
  unfold arrival_times
  simp only [List.mem_flatMap, List.mem_filterMap]
  constructor
  · rintro ⟨di, hdi, ca, hca, h⟩
    split_ifs at h with hc
    simp only [Bool.and_eq_true, beq_iff_eq] at hc
    simp only [Option.some.injEq] at h
    exact ⟨di, hdi, ca, hca, hc.1, hc.2, h.symm⟩
  · rintro ⟨di, hdi, ca, hca, h1, h2, rfl⟩
    refine ⟨di, hdi, ca, hca, ?_⟩
    rw [if_pos (by simp [h1, h2])]

/-! ## Invariants of the walk -/

/-- A pass through the body of the walk changes the pushed entries and the departure
under construction only through `walkStops`, which it runs on a state with the same
pushed entries and departure under construction. -/
theorem walkBody_result_departure (Tdeparture_type : DepartureType)
    (Tdepartures_from : DeparturesFrom) (DAY_TICKS : Int) (station : StationID)
    (cancelled : Bool) (o : Order) (s : WalkState) :
    ((walkBody Tdeparture_type Tdepartures_from DAY_TICKS station cancelled o
        s).state.result = s.result ∧
      (walkBody Tdeparture_type Tdepartures_from DAY_TICKS station cancelled o
        s).state.departure = s.departure) ∨
    ∃ s' : WalkState, s'.result = s.result ∧ s'.departure = s.departure ∧
      (walkBody Tdeparture_type Tdepartures_from DAY_TICKS station cancelled o
        s).state.result =
        (walkStops Tdeparture_type Tdepartures_from station cancelled o s').result ∧
      (walkBody Tdeparture_type Tdepartures_from DAY_TICKS station cancelled o
        s).state.departure =
        (walkStops Tdeparture_type Tdepartures_from station cancelled o s').departure := by
  unfold walkBody
  split_ifs
  · exact Or.inl ⟨rfl, rfl⟩
  · exact Or.inl ⟨rfl, rfl⟩
  · exact Or.inl ⟨rfl, rfl⟩
  · exact Or.inl ⟨rfl, rfl⟩
  · exact Or.inr ⟨{ s with
      start := s.start.add DAY_TICKS o.GetTravelTime
      timetable_total_duration :=
        wrapU32 (s.timetable_total_duration + (o.GetTravelTime + o.GetWaitTime))
      ticks_after_departure_start :=
        wrapU32 (s.ticks_after_departure_start + (o.GetTravelTime + o.GetWaitTime)) },
      rfl, rfl, rfl, rfl⟩

/-- A relation between the pushed entries and the departure under construction that
every pass through `walkStops` keeps holds at the end of the walk. -/
theorem walkListF_invariant (Tdeparture_type : DepartureType)
    (Tdepartures_from : DeparturesFrom) (DAY_TICKS : Int) (station : StationID)
    (cancelled : Bool) (J : List DepartureInfo → DepartureInfo → Prop)
    (hstops : ∀ (o : Order) (s : WalkState), J s.result s.departure →
      J (walkStops Tdeparture_type Tdepartures_from station cancelled o s).result
        (walkStops Tdeparture_type Tdepartures_from station cancelled o s).departure) :
    ∀ (l : List Order) (s : WalkState), J s.result s.departure →
      J (walkListF Tdeparture_type Tdepartures_from DAY_TICKS station cancelled l
          s).state.result
        (walkListF Tdeparture_type Tdepartures_from DAY_TICKS station cancelled l
          s).state.departure := by
  intro l
  induction l with
  | nil => intro s hs; exact hs
  | cons o l ih =>
    intro s hs
    have hb : J (walkBody Tdeparture_type Tdepartures_from DAY_TICKS station cancelled o
        s).state.result (walkBody Tdeparture_type Tdepartures_from DAY_TICKS station
        cancelled o s).state.departure := by
      rcases walkBody_result_departure Tdeparture_type Tdepartures_from DAY_TICKS station
        cancelled o s with ⟨h1, h2⟩ | ⟨s', hr, hd, h1, h2⟩
      · rw [h1, h2]; exact hs
      · rw [h1, h2]
        apply hstops
        rw [hr, hd]; exact hs
    unfold walkListF
    cases hw : walkBody Tdeparture_type Tdepartures_from DAY_TICKS station cancelled o s with
    | brk t => rw [hw] at hb; exact hb
    | next t => rw [hw] at hb; exact ih t hb

/-- A property of the entries that follows, for the entries pushed by the walk and by
the code after it, from a relation kept by `walkStops`, and that does not depend on the
repeat time, holds for every entry emitted for a vehicle. -/
theorem vehicleDepartures_invariant (Tdeparture_type : DepartureType)
    (Tdepartures_from : DeparturesFrom) (DAY_TICKS _date _date_fract : Int)
    (station : StationID) (vehicle_type : VehicleType) (uninit : Int) (vehicle : Vehicle)
    (P : DepartureInfo → Prop) (J : List DepartureInfo → DepartureInfo → Prop)
    (hstart : ∀ (fo : FirstOrder) (o : Order),
      J [] (walkStart DAY_TICKS vehicle_type uninit vehicle
        (vehicle.current_order.IsType .OT_GOTO_DEPOT) fo o).departure)
    (hstops : ∀ (o : Order) (s : WalkState), J s.result s.departure →
      J (walkStops Tdeparture_type Tdepartures_from station
          (vehicle.current_order.IsType .OT_GOTO_DEPOT) o s).result
        (walkStops Tdeparture_type Tdepartures_from station
          (vehicle.current_order.IsType .OT_GOTO_DEPOT) o s).departure)
    (hfinish : ∀ (fo : FirstOrder) (s : WalkState), J s.result s.departure →
      ∀ e ∈ (walkFinish Tdeparture_type (vehicle.current_order.IsType .OT_GOTO_DEPOT) fo
        s).result, P e)
    (hrep : ∀ (e : DepartureInfo) (r : Int), P e → P { e with repeat_after := r }) :
    ∀ e ∈ vehicleDepartures Tdeparture_type Tdepartures_from DAY_TICKS _date _date_fract
      station vehicle_type uninit vehicle, P e := by
  intro e he
  rcases vehicleDepartures_cases Tdeparture_type Tdepartures_from DAY_TICKS _date
    _date_fract station vehicle_type uninit vehicle with h | ⟨first, o1, t, _, _, _, ht, _, h⟩
  · rw [h] at he
    exact absurd he (List.not_mem_nil e)
  · rw [h] at he
    obtain ⟨e0, he0, rfl⟩ := List.mem_map.1 he
    apply hrep
    refine hfinish _ t ?_ e0 he0
    rw [ht]
    exact walkListF_invariant Tdeparture_type Tdepartures_from DAY_TICKS station _ J hstops
      _ _ (hstart _ o1)

/-! ## The calling-at lists of the emitted entries -/

/-- Erasing the first stop at a station from a calling-at list with pairwise distinct
stations leaves a list with pairwise distinct stations that does not hold the station. -/
theorem erase_existing_index (x : StationID) :
    ∀ l : List CallingAt, (l.map fun ca => ca.station).Nodup →
      ((match existing_index l x with
        | some index => l.eraseIdx index
        | none => l).map fun ca : CallingAt => ca.station).Nodup ∧
      x ∉ (match existing_index l x with
        | some index => l.eraseIdx index
        | none => l).map fun ca : CallingAt => ca.station := by
  intro l
  induction l with
  | nil => intro _; simp [existing_index]
  | cons a l ih =>
    intro hnd
    rw [List.map_cons, List.nodup_cons] at hnd
    obtain ⟨ha, hl⟩ := hnd
    obtain ⟨ih1, ih2⟩ := ih hl
    unfold existing_index at ih1 ih2 ⊢
    rw [List.findIdx?_cons]
    by_cases hax : (a.station == x) = true
    · rw [if_pos hax]
      simp only [List.eraseIdx_cons_zero]
      have : a.station = x := by simpa using hax
      rw [← this]
      exact ⟨hl, ha⟩
    · rw [if_neg hax, List.findIdx?_succ]
      have hne : a.station ≠ x := by simpa using hax
      cases hf : List.findIdx? (fun ca => ca.station == x) l with
      | none =>
        rw [hf] at ih2
        simp only [Option.map_none']
        refine ⟨?_, ?_⟩
        · rw [List.map_cons, List.nodup_cons]; exact ⟨ha, hl⟩
        · rw [List.map_cons, List.mem_cons]
          rintro (h | h)
          · exact hne h.symm
          · exact ih2 h
      | some i =>
        rw [hf] at ih1 ih2
        simp only [Option.map_some', List.eraseIdx_cons_succ]
        simp only [] at ih1 ih2
        have hsub : ((l.eraseIdx i).map fun ca => ca.station).Sublist
            (l.map fun ca => ca.station) := (List.eraseIdx_sublist l i).map _
        refine ⟨?_, ?_⟩
        · rw [List.map_cons, List.nodup_cons]
          exact ⟨fun h => ha (hsub.subset h), ih1⟩
        · rw [List.map_cons, List.mem_cons]
          rintro (h | h)
          · exact hne h.symm
          · exact ih2 h

/-- The relation kept by the walk: the pushed entries have a non-empty calling-at list,
and the stations of every calling-at list, pushed or under construction, are pairwise
distinct. -/
theorem walkStops_calling_at (Tdeparture_type : DepartureType)
    (Tdepartures_from : DeparturesFrom) (station : StationID) (cancelled : Bool)
    (o : Order) (s : WalkState)
    (hr : ∀ e ∈ s.result, e.calling_at ≠ [] ∧ (e.calling_at.map fun ca => ca.station).Nodup)
    (hd : (s.departure.calling_at.map fun ca => ca.station).Nodup) :
    (∀ e ∈ (walkStops Tdeparture_type Tdepartures_from station cancelled o s).result,
      e.calling_at ≠ [] ∧ (e.calling_at.map fun ca => ca.station).Nodup) ∧
    ((walkStops Tdeparture_type Tdepartures_from station cancelled o
      s).departure.calling_at.map fun ca => ca.station).Nodup := by
  have hpush : ∀ (d : DepartureInfo), d.calling_at = s.departure.calling_at →
      (s.departure.calling_at.length != 0) = true →
      ∀ e ∈ s.result ++ [d],
        e.calling_at ≠ [] ∧ (e.calling_at.map fun ca => ca.station).Nodup := by
    intro d hdc hlen e he
    rcases List.mem_append.1 he with h | h
    · exact hr e h
    · rw [List.mem_singleton.1 h, hdc]
      refine ⟨?_, hd⟩
      intro hc
      rw [hc] at hlen
      simp at hlen
  have hwp : ∀ t : WalkState, (∀ e ∈ t.result,
        e.calling_at ≠ [] ∧ (e.calling_at.map fun ca => ca.station).Nodup) →
      (t.departure.calling_at.map fun ca => ca.station).Nodup →
      t.result = s.result → t.departure.calling_at = s.departure.calling_at →
      (∀ e ∈ (walkWaypoint cancelled o t).result,
        e.calling_at ≠ [] ∧ (e.calling_at.map fun ca => ca.station).Nodup) ∧
      ((walkWaypoint cancelled o t).departure.calling_at.map fun ca => ca.station).Nodup := by
    intro t htr htd _ _
    unfold walkWaypoint DepartureInfo.Reset
    simp only []
    split_ifs with hlen
    · refine ⟨?_, List.nodup_nil⟩
      intro e he
      rcases List.mem_append.1 he with h | h
      · exact htr e h
      · rw [List.mem_singleton.1 h]
        refine ⟨?_, htd⟩
        intro hc
        rw [hc] at hlen
        simp at hlen
    · exact ⟨htr, List.nodup_nil⟩
  unfold walkStops
  by_cases hst : o.IsType .OT_GOTO_STATION = true
  · have hty : o.type = .OT_GOTO_STATION := by
      unfold Order.IsType at hst; simpa using hst
    have hnw : (o.IsType .OT_GOTO_WAYPOINT && Tdepartures_from == .DF_WAYPOINT) = false := by
      unfold Order.IsType; simp [hty]
    simp only [hst, hnw, if_true, Bool.false_eq_true, if_false]
    cases Tdeparture_type with
    | DT_DEPARTURE =>
      simp only []
      unfold walkDeparture DepartureInfo.Reset
      simp only []
      split_ifs with h1 h2 h3 h4
      · exact ⟨hpush _ rfl h2, List.nodup_nil⟩
      · exact ⟨hr, List.nodup_nil⟩
      · refine ⟨hr, ?_⟩
        simp only [Bool.and_eq_true, Bool.not_eq_true'] at h3
        have hseen : o.GetDestination ∉ s.departure.calling_at.map fun ca => ca.station := by
          have := h3.1.2
          unfold already_seen at this
          intro hm
          obtain ⟨ca, hca, hcs⟩ := List.mem_map.1 hm
          have hany : (s.departure.calling_at.any fun ca => ca.station == o.GetDestination) =
              true := List.any_eq_true.2 ⟨ca, hca, by simpa using hcs⟩
          rw [hany] at this
          exact absurd this (by simp)
        simp only [List.map_append, List.map_cons, List.map_nil]
        exact List.Nodup.append hd (List.nodup_singleton _) (by
          intro x hx hx'
          rw [List.mem_singleton.1 hx'] at hx
          exact hseen hx)
      · refine ⟨hr, ?_⟩
        simp only [Bool.and_eq_true, Bool.not_eq_true'] at h3
        have hseen : o.GetDestination ∉ s.departure.calling_at.map fun ca => ca.station := by
          have := h3.1.2
          unfold already_seen at this
          intro hm
          obtain ⟨ca, hca, hcs⟩ := List.mem_map.1 hm
          have hany : (s.departure.calling_at.any fun ca => ca.station == o.GetDestination) =
              true := List.any_eq_true.2 ⟨ca, hca, by simpa using hcs⟩
          rw [hany] at this
          exact absurd this (by simp)
        simp only [List.map_append, List.map_cons, List.map_nil]
        exact List.Nodup.append hd (List.nodup_singleton _) (by
          intro x hx hx'
          rw [List.mem_singleton.1 hx'] at hx
          exact hseen hx)
      · exact ⟨hr, hd⟩
    | DT_ARRIVAL =>
      simp only []
      obtain ⟨he1, he2⟩ := erase_existing_index o.GetDestination s.departure.calling_at hd
      have happ : ∀ l : List CallingAt, (l.map fun ca => ca.station).Nodup →
          o.GetDestination ∉ (l.map fun ca => ca.station) → ∀ ticks : Int,
          ((l ++ [({ station := o.GetDestination, ticks_after_departure_start := ticks } :
            CallingAt)]).map fun ca => ca.station).Nodup := by
        intro l hl hx ticks
        simp only [List.map_append, List.map_cons, List.map_nil]
        exact List.Nodup.append hl (List.nodup_singleton _) (by
          intro x hx1 hx2
          rw [List.mem_singleton.1 hx2] at hx1
          exact hx hx1)
      unfold walkArrival DepartureInfo.Reset
      simp only []
      split_ifs with h1 h2 h3 h4 h5 h6 h7
      all_goals first
        | exact ⟨hpush _ rfl h2, List.nodup_nil⟩
        | exact ⟨hr, List.nodup_nil⟩
        | exact ⟨hr, hd⟩
        | exact ⟨hr, happ [] List.nodup_nil (by simp) _⟩
        | exact ⟨hr, happ _ he1 he2 _⟩
  · have hst' : o.IsType .OT_GOTO_STATION = false := by simpa using hst
    simp only [hst', Bool.false_eq_true, if_false]
    split_ifs
    · exact hwp s hr hd rfl rfl
    · exact ⟨hr, hd⟩

/-- Every entry emitted for a vehicle has a non-empty calling-at list with pairwise
distinct stations. -/
theorem vehicleDepartures_calling_at (Tdeparture_type : DepartureType)
    (Tdepartures_from : DeparturesFrom) (DAY_TICKS _date _date_fract : Int)
    (station : StationID) (vehicle_type : VehicleType) (uninit : Int) (vehicle : Vehicle) :
    ∀ e ∈ vehicleDepartures Tdeparture_type Tdepartures_from DAY_TICKS _date _date_fract
      station vehicle_type uninit vehicle,
      e.calling_at ≠ [] ∧ (e.calling_at.map fun ca => ca.station).Nodup := by
  apply vehicleDepartures_invariant Tdeparture_type Tdepartures_from DAY_TICKS _date
    _date_fract station vehicle_type uninit vehicle
    (fun e => e.calling_at ≠ [] ∧ (e.calling_at.map fun ca => ca.station).Nodup)
    (fun r d =>
      (∀ e ∈ r, e.calling_at ≠ [] ∧ (e.calling_at.map fun ca => ca.station).Nodup) ∧
      (d.calling_at.map fun ca => ca.station).Nodup)
  · intro fo o
    exact ⟨fun e he => absurd he (List.not_mem_nil e), List.nodup_nil⟩
  · intro o s hs
    exact walkStops_calling_at Tdeparture_type Tdepartures_from station _ o s hs.1 hs.2
  · intro fo s hs e he
    unfold walkFinish at he
    split_ifs at he with hlen
    · rcases List.mem_append.1 he with h | h
      · exact hs.1 e h
      · have hca : e.calling_at = s.departure.calling_at := by
          rw [List.mem_singleton.1 h]
          cases Tdeparture_type <;> rfl
        rw [hca]
        refine ⟨?_, hs.2⟩
        intro hc
        rw [hc] at hlen
        simp at hlen
    · exact hs.1 e he
  · intro e r he
    exact he

/-- Every entry returned by `RecalculateDepartures` has a non-empty calling-at list with
pairwise distinct stations. -/
theorem RecalculateDepartures_calling_at (Tdeparture_type : DepartureType)
    (Tdepartures_from : DeparturesFrom) (DAY_TICKS _date _date_fract : Int)
    (vehicles : VehicleType → Option (List Vehicle)) (uninit : Int) (station : StationID) :
    ∀ e ∈ RecalculateDepartures Tdeparture_type Tdepartures_from DAY_TICKS _date _date_fract
      vehicles uninit station,
      e.calling_at ≠ [] ∧ (e.calling_at.map fun ca => ca.station).Nodup := by
  intro e he
  obtain ⟨vehicle_type, list, vehicle, _, _, _, hev⟩ :=
    (mem_RecalculateDepartures _ _ _ _ _ _ _ _ e).1 he
  exact vehicleDepartures_calling_at _ _ _ _ _ _ _ _ _ e hev

/-- The entries of the page of a list without empty calling-at lists have a destination
index inside their calling-at list. -/
theorem page_destination_index_lt (Tdeparture_type : DepartureType)
    (Tordering : DepartureInfo → DepartureInfo → Bool)
    (IsCargoInClassPassengers : Nat → Bool) (DAY_TICKS _date days_of_departures : Int)
    (station : StationID) (departures : List DepartureInfo) (vehicle_types : VehicleTypes)
    (skip len : Nat) (hne : ∀ e ∈ departures, e.calling_at ≠ [])
    (page : List PrintableDeparture)
    (hpage : CreatePrintableDepartures Tdeparture_type Tordering IsCargoInClassPassengers
      DAY_TICKS _date days_of_departures station departures vehicle_types skip len =
        some page) :
    ∀ p ∈ page, p.destination_index < p.calling_at.length := by
  intro p hp
  unfold CreatePrintableDepartures at hpage
  simp only [] at hpage
  have hQ : ∀ di : DepartureInfo, di.calling_at ≠ [] → di.Repeats = true →
      (di.ProgressToNextDeparture DAY_TICKS).ScheduledDeparture DAY_TICKS <
        wrapI32 (_date + days_of_departures) →
      (di.ProgressToNextDeparture DAY_TICKS).calling_at ≠ [] := fun di h _ _ => h
  obtain ⟨di, destination_index, via, hdi, hdest, rfl⟩ :=
    pageLoop_forall Tdeparture_type Tordering DAY_TICKS _date _ _
      (fun di => di.calling_at ≠ []) hQ len _ page
      (skipLoop_forall Tordering DAY_TICKS _ (fun di => di.calling_at ≠ []) hQ skip _
        (fun z hz => hne z (List.mem_filter.1 hz).1)) hpage p hp
  obtain ⟨r, hr, hle⟩ := destinationOf_some Tdeparture_type DAY_TICKS
    (arrival_times Tdeparture_type DAY_TICKS departures vehicle_types) di (Or.inr hdi)
  rw [hdest] at hr
  simp only [Option.some.injEq] at hr
  subst hr
  have hlen : di.calling_at.length ≠ 0 := fun hc => hdi (List.length_eq_zero.1 hc)
  show destination_index < di.calling_at.length
  simp only [] at hle
  omega

/-! ## C25: the destination index is valid -/

/-- C25: every entry returned by `RecalculateDepartures` has a non-empty calling-at list;
`CreatePrintableDepartures` run on such a result, on any day and with any ordering,
filter, skip and page size, yields a page (the destination loop stays inside the
calling-at lists), and the destination index of every entry of the page is an index of
its calling-at list. -/
theorem destination_index_valid (Tdeparture_type : DepartureType)
    (Tdepartures_from : DeparturesFrom) (DAY_TICKS _date _date_fract : Int)
    (vehicles : VehicleType → Option (List Vehicle)) (uninit : Int) (station : StationID)
    (Tordering : DepartureInfo → DepartureInfo → Bool)
    (IsCargoInClassPassengers : Nat → Bool) (_date' days_of_departures : Int)
    (vehicle_types : VehicleTypes) (skip len : Nat) :
    (∀ e ∈ RecalculateDepartures Tdeparture_type Tdepartures_from DAY_TICKS _date _date_fract
      vehicles uninit station, e.calling_at ≠ []) ∧
    ∃ page, CreatePrintableDepartures Tdeparture_type Tordering IsCargoInClassPassengers
        DAY_TICKS _date' days_of_departures station
        (RecalculateDepartures Tdeparture_type Tdepartures_from DAY_TICKS _date _date_fract
          vehicles uninit station) vehicle_types skip len = some page ∧
      ∀ p ∈ page, p.destination_index < p.calling_at.length := by
  have hne : ∀ e ∈ RecalculateDepartures Tdeparture_type Tdepartures_from DAY_TICKS _date
      _date_fract vehicles uninit station, e.calling_at ≠ [] := fun e he =>
    (RecalculateDepartures_calling_at _ _ _ _ _ _ _ _ e he).1
  refine ⟨hne, ?_⟩
  obtain ⟨page, hpage⟩ := CreatePrintableDepartures_total Tdeparture_type Tordering
    IsCargoInClassPassengers DAY_TICKS _date' days_of_departures station _ vehicle_types
    skip len (Or.inr hne)
  exact ⟨page, hpage, page_destination_index_lt _ _ _ _ _ _ _ _ _ _ _ hne page hpage⟩

/-! ## C26: the stations of a calling-at list are distinct -/

/-- C26: in every mode, the stations of the calling-at list of every entry returned by
`RecalculateDepartures` are pairwise distinct. -/
theorem calling_at_stations_distinct (Tdeparture_type : DepartureType)
    (Tdepartures_from : DeparturesFrom) (DAY_TICKS _date _date_fract : Int)
    (vehicles : VehicleType → Option (List Vehicle)) (uninit : Int) (station : StationID) :
    ∀ e ∈ RecalculateDepartures Tdeparture_type Tdepartures_from DAY_TICKS _date _date_fract
      vehicles uninit station,
      e.calling_at.Pairwise (fun a b => a.station ≠ b.station) := by
  intro e he
  have h := (RecalculateDepartures_calling_at _ _ _ _ _ _ _ _ e he).2
  unfold List.Nodup at h
  rw [List.pairwise_map] at h
  exact h

/-- C25, witness: the board of station 1 for the vehicle `pickupTwice`, listed under each
of the four vehicle types, holds four entries, and the page of size 3 built from it on
day 1000 has valid destination indices. -/
theorem destination_index_valid_witness :
    (RecalculateDepartures .DT_DEPARTURE .DF_STATION 74 1000 0 (fun _ => some [pickupTwice])
      0 1).length = 4 ∧
    ∃ page, CreatePrintableDepartures .DT_DEPARTURE (DepartureAfter .DT_DEPARTURE 74)
        (fun _ => true) 74 1000 366 1
        (RecalculateDepartures .DT_DEPARTURE .DF_STATION 74 1000 0
          (fun _ => some [pickupTwice]) 0 1) allVehicleTypes 0 3 = some page ∧
      ∀ p ∈ page, p.destination_index < p.calling_at.length :=
  ⟨by decide,
    (destination_index_valid .DT_DEPARTURE .DF_STATION 74 1000 0 (fun _ => some [pickupTwice])
      0 1 (DepartureAfter .DT_DEPARTURE 74) (fun _ => true) 1000 366 allVehicleTypes 0 3).2⟩

/-- C26, witness: the entry of `viaThenFullUnload` on the departure board of station 1
calls at stations 5 and 6, which are distinct. -/
theorem calling_at_stations_distinct_witness :
    (RecalculateDepartures .DT_DEPARTURE .DF_STATION 74 1000 0
      (fun vehicle_type => if vehicle_type = .VEH_TRAIN then some [viaThenFullUnload] else none)
      0 1).map (fun e => e.calling_at.map fun ca => ca.station) = [[5, 6]] ∧
    ∀ e ∈ RecalculateDepartures .DT_DEPARTURE .DF_STATION 74 1000 0
      (fun vehicle_type => if vehicle_type = .VEH_TRAIN then some [viaThenFullUnload] else none)
      0 1, e.calling_at.Pairwise (fun a b => a.station ≠ b.station) :=
  ⟨by decide,
    calling_at_stations_distinct .DT_DEPARTURE .DF_STATION 74 1000 0
      (fun vehicle_type => if vehicle_type = .VEH_TRAIN then some [viaThenFullUnload] else none)
      0 1⟩

/-- The handler that `walkStops` runs. -/
theorem walkStops_cases (Tdeparture_type : DepartureType) (Tdepartures_from : DeparturesFrom)
    (station : StationID) (cancelled : Bool) (o : Order) (s : WalkState) :
    (Tdeparture_type = .DT_DEPARTURE ∧
      walkStops Tdeparture_type Tdepartures_from station cancelled o s =
        walkDeparture station cancelled o s) ∨
    (Tdeparture_type = .DT_ARRIVAL ∧
      walkStops Tdeparture_type Tdepartures_from station cancelled o s =
        walkArrival station cancelled o s) ∨
    walkStops Tdeparture_type Tdepartures_from station cancelled o s =
      walkWaypoint cancelled o s ∨
    walkStops Tdeparture_type Tdepartures_from station cancelled o s = s := by
  unfold walkStops
  by_cases hst : o.IsType .OT_GOTO_STATION = true
  · have hty : o.type = .OT_GOTO_STATION := by
      unfold Order.IsType at hst; simpa using hst
    have hnw : (o.IsType .OT_GOTO_WAYPOINT && Tdepartures_from == .DF_WAYPOINT) = false := by
      unfold Order.IsType; simp [hty]
    simp only [hst, hnw, if_true, Bool.false_eq_true, if_false]
    cases Tdeparture_type with
    | DT_DEPARTURE => exact Or.inl ⟨rfl, rfl⟩
    | DT_ARRIVAL => exact Or.inr (Or.inl ⟨rfl, rfl⟩)
  · have hst' : o.IsType .OT_GOTO_STATION = false := by simpa using hst
    simp only [hst', Bool.false_eq_true, if_false]
    split_ifs
    · exact Or.inr (Or.inr (Or.inl rfl))
    · exact Or.inr (Or.inr (Or.inr rfl))

/-! ## C27: the recorded via station -/

/-- On a departure board a pass through `walkStops` keeps the recorded via station of the
pushed entries and of the departure under construction inside their calling-at lists. -/
theorem walkStops_via (Tdepartures_from : DeparturesFrom) (station : StationID)
    (cancelled : Bool) (o : Order) (s : WalkState)
    (hr : ∀ e ∈ s.result,
      e.via = INVALID_STATION ∨ ∃ ca ∈ e.calling_at, ca.station = e.via)
    (hd : s.departure.via = INVALID_STATION ∨
      ∃ ca ∈ s.departure.calling_at, ca.station = s.departure.via) :
    (∀ e ∈ (walkStops .DT_DEPARTURE Tdepartures_from station cancelled o s).result,
      e.via = INVALID_STATION ∨ ∃ ca ∈ e.calling_at, ca.station = e.via) ∧
    ((walkStops .DT_DEPARTURE Tdepartures_from station cancelled o s).departure.via =
        INVALID_STATION ∨
      ∃ ca ∈ (walkStops .DT_DEPARTURE Tdepartures_from station cancelled o
          s).departure.calling_at,
        ca.station = (walkStops .DT_DEPARTURE Tdepartures_from station cancelled o
          s).departure.via) := by
  have hpush : ∀ e ∈ s.result ++ [s.departure],
      e.via = INVALID_STATION ∨ ∃ ca ∈ e.calling_at, ca.station = e.via := by
    intro e he
    rcases List.mem_append.1 he with h | h
    · exact hr e h
    · rw [List.mem_singleton.1 h]; exact hd
  rcases walkStops_cases .DT_DEPARTURE Tdepartures_from station cancelled o s with
    ⟨_, h⟩ | ⟨h, _⟩ | h | h
  · rw [h]
    unfold walkDeparture DepartureInfo.Reset
    simp only []
    split_ifs with h1 h2 h3 h4
    · exact ⟨hpush, Or.inl rfl⟩
    · exact ⟨hr, Or.inl rfl⟩
    · refine ⟨hr, Or.inr ⟨_, List.mem_append_right _ (List.mem_singleton_self _), rfl⟩⟩
    · refine ⟨hr, ?_⟩
      rcases hd with hd | ⟨ca, hca, hcs⟩
      · exact Or.inl hd
      · exact Or.inr ⟨ca, List.mem_append_left _ hca, hcs⟩
    · exact ⟨hr, hd⟩
  · exact absurd h (by decide)
  · rw [h]
    unfold walkWaypoint DepartureInfo.Reset
    simp only []
    split_ifs
    · exact ⟨hpush, Or.inl trivial⟩
    · exact ⟨hr, Or.inl trivial⟩
  · rw [h]; exact ⟨hr, hd⟩

/-- C27, evaluation of the code: on a departure board the recorded via station of every
emitted entry is none or the station of an element of its calling-at list.  On an arrival
board it is not: the vehicle `viaThenFullUnload` passes station 5 without stopping, stops
there, unloads everything at station 6 without loading and calls at station 7; its entry
on the arrival board of station 1 calls at station 7 only and records station 5 as via,
because the branch that skips an order clears the calling-at list on a full unload and
leaves `departure.via` alone. -/
theorem via_outside_calling_at :
    (∀ (Tdepartures_from : DeparturesFrom) (DAY_TICKS _date _date_fract : Int)
        (station : StationID) (vehicle_type : VehicleType) (uninit : Int)
        (vehicle : Vehicle),
      ∀ e ∈ vehicleDepartures .DT_DEPARTURE Tdepartures_from DAY_TICKS _date _date_fract
        station vehicle_type uninit vehicle,
        e.via = INVALID_STATION ∨ ∃ ca ∈ e.calling_at, ca.station = e.via) ∧
    (vehicleDepartures .DT_ARRIVAL .DF_STATION 74 1000 0 1 .VEH_TRAIN 0
        viaThenFullUnload).map (fun e => (e.calling_at, e.via)) =
      [([{ station := 7, ticks_after_departure_start := 50 }], 5)] ∧
    (5 : StationID) ≠ INVALID_STATION := by
  refine ⟨?_, by decide, by decide⟩
  intro Tdepartures_from DAY_TICKS _date _date_fract station vehicle_type uninit vehicle
  apply vehicleDepartures_invariant .DT_DEPARTURE Tdepartures_from DAY_TICKS _date
    _date_fract station vehicle_type uninit vehicle
    (fun e => e.via = INVALID_STATION ∨ ∃ ca ∈ e.calling_at, ca.station = e.via)
    (fun r d =>
      (∀ e ∈ r, e.via = INVALID_STATION ∨ ∃ ca ∈ e.calling_at, ca.station = e.via) ∧
      (d.via = INVALID_STATION ∨ ∃ ca ∈ d.calling_at, ca.station = d.via))
  · intro fo o
    exact ⟨fun e he => absurd he (List.not_mem_nil e), Or.inl rfl⟩
  · intro o s hs
    exact walkStops_via Tdepartures_from station _ o s hs.1 hs.2
  · intro fo s hs e he
    unfold walkFinish at he
    split_ifs at he with hlen
    · rcases List.mem_append.1 he with h | h
      · exact hs.1 e h
      · rw [List.mem_singleton.1 h]; exact hs.2
    · exact hs.1 e he
  · intro e r he
    exact he

/-- C27, witness: the entry of `viaThenFullUnload` on the departure board of station 1
calls at stations 5 and 6 and records station 5 as via. -/
theorem via_outside_calling_at_witness :
    (vehicleDepartures .DT_DEPARTURE .DF_STATION 74 1000 0 1 .VEH_TRAIN 0
        viaThenFullUnload).map (fun e => (e.calling_at.map fun ca => ca.station, e.via)) =
      [([5, 6], 5)] ∧
    ∀ e ∈ vehicleDepartures .DT_DEPARTURE .DF_STATION 74 1000 0 1 .VEH_TRAIN 0
      viaThenFullUnload,
      e.via = INVALID_STATION ∨ ∃ ca ∈ e.calling_at, ca.station = e.via :=
  ⟨by decide, via_outside_calling_at.1 .DF_STATION 74 1000 0 1 .VEH_TRAIN 0 viaThenFullUnload⟩

/-! ## C28: entries with the arrived status -/

theorem laterStatus_ne_arrived (cancelled : Bool) : laterStatus cancelled ≠ .VS_ARRIVED := by
  cases cancelled <;> decide

/-- On a departure board a pass through `walkStops` keeps the number of arrived entries,
the departure under construction included, at one at most. -/
theorem walkStops_arrived (Tdepartures_from : DeparturesFrom) (station : StationID)
    (cancelled : Bool) (o : Order) (s : WalkState)
    (h : s.result.countP (fun e => e.vehicle_status == .VS_ARRIVED) +
      (if s.departure.vehicle_status = .VS_ARRIVED then 1 else 0) ≤ 1) :
    (walkStops .DT_DEPARTURE Tdepartures_from station cancelled o s).result.countP
        (fun e => e.vehicle_status == .VS_ARRIVED) +
      (if (walkStops .DT_DEPARTURE Tdepartures_from station cancelled o
        s).departure.vehicle_status = .VS_ARRIVED then 1 else 0) ≤ 1 := by
  have hl := laterStatus_ne_arrived cancelled
  have hpush : (s.result ++ [s.departure]).countP (fun e => e.vehicle_status == .VS_ARRIVED) =
      s.result.countP (fun e => e.vehicle_status == .VS_ARRIVED) +
        (if s.departure.vehicle_status = .VS_ARRIVED then 1 else 0) := by
    rw [List.countP_append, List.countP_cons, List.countP_nil]
    simp
  rcases walkStops_cases .DT_DEPARTURE Tdepartures_from station cancelled o s with
    ⟨_, hw⟩ | ⟨hw, _⟩ | hw | hw
  · rw [hw]
    unfold walkDeparture DepartureInfo.Reset
    simp only []
    split_ifs
    all_goals (try simp only [] at *)
    all_goals first
      | exact absurd ‹laterStatus cancelled = .VS_ARRIVED› hl
      | omega
      | (split_ifs at h; omega)
  · exact absurd hw (by decide)
  · rw [hw]
    unfold walkWaypoint DepartureInfo.Reset
    simp only []
    split_ifs
    all_goals (try simp only [] at *)
    all_goals first
      | exact absurd ‹laterStatus cancelled = .VS_ARRIVED› hl
      | omega
  · rw [hw]; exact h

/-- C28, evaluation of the code: on a departure board at most one entry emitted for a
vehicle has the arrived status, and in every mode `ProgressToNextDeparture` leaves no
entry with the arrived status.  On an arrival board two entries can have it: the vehicle
`loadingTwice` calls at station 1 twice per round trip and is loading there at its first
order; on the arrival board of station 1 both of its entries, the one for its arrival at
the later visit (tick 20 of day 1000) and the one for the visit at which it is loading,
are arrived, because the departure under construction starts with the status of the first
order and is pushed at the later visit with that status. -/
theorem arrived_entries :
    (∀ (Tdepartures_from : DeparturesFrom) (DAY_TICKS _date _date_fract : Int)
        (station : StationID) (vehicle_type : VehicleType) (uninit : Int)
        (vehicle : Vehicle),
      (vehicleDepartures .DT_DEPARTURE Tdepartures_from DAY_TICKS _date _date_fract
        station vehicle_type uninit vehicle).countP
          (fun e => e.vehicle_status == .VS_ARRIVED) ≤ 1) ∧
    (∀ (DAY_TICKS : Int) (d : DepartureInfo),
      (d.ProgressToNextDeparture DAY_TICKS).vehicle_status ≠ .VS_ARRIVED) ∧
    (vehicleDepartures .DT_ARRIVAL .DF_STATION 74 1000 0 1 .VEH_TRAIN 0 loadingTwice).map
        (fun e => (e.arrival, e.calling_at.map fun ca => ca.station, e.vehicle_status)) =
      [(⟨1000, 20⟩, [2], .VS_ARRIVED), (⟨999, 44⟩, [3], .VS_ARRIVED)] := by
  refine ⟨?_, ?_, by decide⟩
  · intro Tdepartures_from DAY_TICKS _date _date_fract station vehicle_type uninit vehicle
    rcases vehicleDepartures_cases .DT_DEPARTURE Tdepartures_from DAY_TICKS _date
      _date_fract station vehicle_type uninit vehicle with h | ⟨first, o1, t, _, _, _, ht, _, h⟩
    · rw [h]; simp
    · rw [h, List.countP_map]
      have hJ := walkListF_invariant .DT_DEPARTURE Tdepartures_from DAY_TICKS station
        (vehicle.current_order.IsType .OT_GOTO_DEPOT)
        (fun r d => r.countP (fun e => e.vehicle_status == .VS_ARRIVED) +
          (if d.vehicle_status = .VS_ARRIVED then 1 else 0) ≤ 1)
        (fun o s hs => walkStops_arrived Tdepartures_from station _ o s hs)
        (visitedOrders vehicle.orders first)
        (walkStart DAY_TICKS vehicle_type uninit vehicle
          (vehicle.current_order.IsType .OT_GOTO_DEPOT)
          (FindFirstOrder Tdepartures_from DAY_TICKS _date _date_fract station vehicle) o1)
        (by
          show List.countP _ [] + _ ≤ 1
          rw [List.countP_nil]
          split_ifs <;> omega)
      rw [← ht] at hJ
      have hfun : ((fun e : DepartureInfo => e.vehicle_status == VehicleStatus.VS_ARRIVED) ∘
          fun e : DepartureInfo => { e with repeat_after := t.timetable_total_duration }) =
          fun e : DepartureInfo => e.vehicle_status == VehicleStatus.VS_ARRIVED := rfl
      rw [hfun]
      unfold walkFinish
      split_ifs
      · rw [List.countP_append, List.countP_cons, List.countP_nil]
        split_ifs at hJ ⊢ <;> simp_all
      · omega
  · intro DAY_TICKS d
    unfold DepartureInfo.ProgressToNextDeparture
    simp only []
    split_ifs with h
    · decide
    · exact h

/-! ## C29: skipping and paging -/

/-- The page of size `M` behind `N` skipped entries is the page of size `N + M` without
its first `N` entries. -/
theorem pageLoop_skipLoop (Tdeparture_type : DepartureType)
    (Tordering : DepartureInfo → DepartureInfo → Bool) (DAY_TICKS _date limit : Int)
    (arrivals : StationID → List DestinationStationArrival) (M : Nat) :
    ∀ (N : Nat) (q : List DepartureInfo) (page : List PrintableDeparture),
      pageLoop Tdeparture_type Tordering DAY_TICKS _date limit arrivals (N + M) q =
        some page →
      pageLoop Tdeparture_type Tordering DAY_TICKS _date limit arrivals M
        (skipLoop Tordering DAY_TICKS limit N q) = some (page.drop N) := by
  intro N
  induction N with
  | zero =>
    intro q page h
    rw [Nat.zero_add] at h
    simpa [skipLoop] using h
  | succ n ih =>
    intro q page h
    rw [Nat.add_right_comm] at h
    simp only [pageLoop] at h
    simp only [skipLoop]
    cases hpop : queuePop Tordering q with
    | none =>
      rw [hpop] at h
      simp only [Option.some.injEq] at h
      subst h
      rw [(queuePop_eq_none Tordering q).1 hpop, pageLoop_nil]
      rfl
    | some p =>
      obtain ⟨di, rest⟩ := p
      rw [hpop] at h
      simp only [] at h ⊢
      cases hdest : destinationOf Tdeparture_type DAY_TICKS arrivals di with
      | none => rw [hdest] at h; simp at h
      | some r =>
        obtain ⟨destination_index, via⟩ := r
        rw [hdest] at h
        simp only [] at h
        cases hrec : pageLoop Tdeparture_type Tordering DAY_TICKS _date limit arrivals
            (n + M) (requeue DAY_TICKS limit rest di) with
        | none => rw [hrec] at h; simp at h
        | some result =>
          rw [hrec] at h
          simp only [Option.some.injEq] at h
          subst h
          rw [List.drop_succ_cons]
          exact ih _ _ hrec

/-- C29: when `CreatePrintableDepartures` with skip 0 and page size `N + M` yields a page,
which it does in arrival mode and in departure mode when no entry of the list has an empty
calling-at list, then with skip `N` and page size `M` it yields on the same list exactly
the entries of that page from position `N` on, which are the entries at positions
`N .. N + M - 1`. -/
theorem skip_is_page_and_discard (Tdeparture_type : DepartureType)
    (Tordering : DepartureInfo → DepartureInfo → Bool)
    (IsCargoInClassPassengers : Nat → Bool) (DAY_TICKS _date days_of_departures : Int)
    (station : StationID) (departures : List DepartureInfo) (vehicle_types : VehicleTypes)
    (N M : Nat) :
    ((Tdeparture_type = .DT_ARRIVAL ∨ ∀ e ∈ departures, e.calling_at ≠ []) →
      ∃ page, CreatePrintableDepartures Tdeparture_type Tordering IsCargoInClassPassengers
        DAY_TICKS _date days_of_departures station departures vehicle_types 0 (N + M) =
          some page) ∧
    ∀ page, CreatePrintableDepartures Tdeparture_type Tordering IsCargoInClassPassengers
        DAY_TICKS _date days_of_departures station departures vehicle_types 0 (N + M) =
          some page →
      CreatePrintableDepartures Tdeparture_type Tordering IsCargoInClassPassengers
        DAY_TICKS _date days_of_departures station departures vehicle_types N M =
          some (page.drop N) ∧
      page.drop N = (page.drop N).take M := by
  refine ⟨fun h => CreatePrintableDepartures_total _ _ _ _ _ _ _ _ _ _ _ h, ?_⟩
  intro page hpage
  have hlen : page.length ≤ N + M := by
    unfold CreatePrintableDepartures at hpage
    exact pageLoop_length _ _ _ _ _ _ _ _ _ hpage
  refine ⟨?_, ?_⟩
  · unfold CreatePrintableDepartures at hpage ⊢
    simp only [skipLoop] at hpage
    exact pageLoop_skipLoop _ _ _ _ _ _ M N _ page hpage
  · rw [List.take_of_length_le]
    rw [List.length_drop]
    omega

/-- C29, witness: on day 1000 with a horizon of 366 days and 74 ticks per day, the page
of size 3 behind 2 skipped entries of two repeating train entries is the page of size 5
without its first 2 entries. -/
theorem skip_is_page_and_discard_witness :
    ∃ page, windowDepartures .DT_DEPARTURE (fun _ => true) 74 1000 366 1
        [entryAt ⟨1001, 3⟩ 0 0 100, entryAt ⟨1000, 0⟩ 0 0 74] allVehicleTypes 0 (2 + 3) =
        some page ∧
      windowDepartures .DT_DEPARTURE (fun _ => true) 74 1000 366 1
        [entryAt ⟨1001, 3⟩ 0 0 100, entryAt ⟨1000, 0⟩ 0 0 74] allVehicleTypes 2 3 =
        some (page.drop 2) := by
  have h := skip_is_page_and_discard .DT_DEPARTURE (DepartureAfter .DT_DEPARTURE 74)
    (fun _ => true) 74 1000 366 1 [entryAt ⟨1001, 3⟩ 0 0 100, entryAt ⟨1000, 0⟩ 0 0 74]
    allVehicleTypes 2 3
  obtain ⟨page, hpage⟩ := h.1 (Or.inr (by decide))
  exact ⟨page, hpage, (h.2 page hpage).1⟩

/-! ## The destination loop of `CreatePrintableDepartures` -/

theorem stopDropped_eq (DAY_TICKS : Int)
    (arrivals : StationID → List DestinationStationArrival) (di : DepartureInfo) (i : Nat)
    (calling_at : CallingAt) (h : di.calling_at[i]? = some calling_at) :
    stopDropped DAY_TICKS arrivals di i =
      (arrivals calling_at.station).any
        (laterDepartureArrivesEarlier (wrapU64 (di.arrival.Ticks DAY_TICKS + di.wait_time))
          (wrapU64 (wrapU64 (di.arrival.Ticks DAY_TICKS + di.wait_time) +
            calling_at.ticks_after_departure_start))) := by
  unfold stopDropped
  rw [h]

/-- The destination loop entered at index `i` with the via station `via` ends at the
largest index between 1 and `i` whose stop is not dropped, or at 0; the via station is
cleared when it is the station of a stop between the final index (or 1) and `i`, and kept
otherwise. -/
theorem findDestination_spec (DAY_TICKS : Int)
    (arrivals : StationID → List DestinationStationArrival) (di : DepartureInfo) :
    ∀ (i : Nat) (via : StationID), i < di.calling_at.length →
      ∃ dest via', findDestination DAY_TICKS arrivals di i via = some (dest, via') ∧
        dest ≤ i ∧
        (∀ j, dest < j → j ≤ i → stopDropped DAY_TICKS arrivals di j = true) ∧
        (1 ≤ dest → stopDropped DAY_TICKS arrivals di dest = false) ∧
        (via' = via ∨ via' = INVALID_STATION) ∧
        ((∃ j, 1 ≤ j ∧ dest ≤ j ∧ j ≤ i ∧
            ∃ ca, di.calling_at[j]? = some ca ∧ ca.station = via) →
          via' = INVALID_STATION) ∧
        ((∀ j, 1 ≤ j → dest ≤ j → j ≤ i →
            ∀ ca, di.calling_at[j]? = some ca → ca.station ≠ via) →
          via' = via) := by
  intro i
  induction i with
  | zero =>
    intro via _
    refine ⟨0, via, rfl, le_refl _, ?_, ?_, Or.inl rfl, ?_, fun _ => rfl⟩
    · intro j h1 h2; omega
    · intro h; omega
    · rintro ⟨j, h1, _, h3, _⟩; omega
  | succ n ih =>
    intro via hlt
    have hget : di.calling_at[n + 1]? = some di.calling_at[n + 1] :=
      List.getElem?_eq_getElem hlt
    have hdrop := stopDropped_eq DAY_TICKS arrivals di (n + 1) _ hget
    simp only [findDestination, hget]
    by_cases hany : stopDropped DAY_TICKS arrivals di (n + 1) = true
    · rw [hdrop] at hany
      rw [if_pos hany]
      rw [← hdrop] at hany
      obtain ⟨dest, via', hres, hle, hdr, hnd, hvia, hclr, hkeep⟩ :=
        ih (if (di.calling_at[n + 1]).station == via then INVALID_STATION else via)
          (by omega)
      refine ⟨dest, via', hres, by omega, ?_, hnd, ?_, ?_, ?_⟩
      · intro j h1 h2
        by_cases hj : j = n + 1
        · rw [hj]; exact hany
        · exact hdr j h1 (by omega)
      · split_ifs at hvia with hc
        · rcases hvia with h | h <;> exact Or.inr h
        · exact hvia
      · rintro ⟨j, h1, h2, h3, ca, hca, hcs⟩
        split_ifs at hvia hclr with hc
        · rcases hvia with h | h <;> exact h
        · by_cases hj : j = n + 1
          · subst hj
            rw [hget] at hca
            simp only [Option.some.injEq] at hca
            rw [hca] at hc
            exact absurd (by simpa using hcs) hc
          · exact hclr ⟨j, h1, h2, by omega, ca, hca, hcs⟩
      · intro hall
        have hne : ¬ ((di.calling_at[n + 1]).station == via) = true := by
          intro hc
          exact hall (n + 1) (by omega) (by omega) (le_refl _) _ hget (by simpa using hc)
        rw [if_neg hne] at hkeep
        exact hkeep (fun j h1 h2 h3 ca hca => hall j h1 h2 (by omega) ca hca)
    · rw [hdrop] at hany
      rw [if_neg hany]
      rw [← hdrop] at hany
      refine ⟨n + 1, _, rfl, le_refl _, ?_, ?_, ?_, ?_, ?_⟩
      · intro j h1 h2; omega
      · intro _; simpa using hany
      · split_ifs
        · exact Or.inr rfl
        · exact Or.inl rfl
      · rintro ⟨j, h1, h2, h3, ca, hca, hcs⟩
        have hj : j = n + 1 := by omega
        subst hj
        rw [hget] at hca
        simp only [Option.some.injEq] at hca
        rw [if_pos (by rw [hca]; simpa using hcs)]
      · intro hall
        rw [if_neg]
        intro hc
        exact hall (n + 1) (by omega) (le_refl _) (le_refl _) _ hget (by simpa using hc)

theorem wrapI64_eq_self {x : Int} (h0 : -9223372036854775808 ≤ x)
    (h1 : x < 9223372036854775808) : wrapI64 x = x := by
  unfold wrapI64; omega

/-- The least multiple of `every` that is not below a positive `diff` is
`((diff + every - 1) / every) * every`. -/
theorem ceil_mul_least (diff every : Int) (hd : 0 < diff) (he : 0 < every) :
    0 ≤ (diff + every - 1) / every ∧
    diff ≤ (diff + every - 1) / every * every ∧
    (diff + every - 1) / every * every ≤ diff + every - 1 ∧
    ∀ k : Int, diff ≤ k * every → (diff + every - 1) / every ≤ k := by
  have h1 := Int.ediv_mul_le (diff + every - 1) (by omega : every ≠ 0)
  have h2 := Int.lt_ediv_add_one_mul_self (diff + every - 1) he
  rw [Int.add_mul, Int.one_mul] at h2
  refine ⟨Int.ediv_nonneg (by omega) (by omega), by omega, h1, ?_⟩
  intro k hk
  by_contra hc
  have hle : k + 1 ≤ (diff + every - 1) / every := by omega
  have := Int.mul_le_mul_of_nonneg_right hle (by omega : (0 : Int) ≤ every)
  rw [Int.add_mul, Int.one_mul] at this
  omega

/-- Without wrap-around, `found_later_departure_that_arrives_earlier` is set by a service
of the arrival table exactly when its first departure at or after `d` (its only departure
if it does not repeat and that is not before `d`; otherwise `start + k * every` for the
least `k ≥ 0` that is not before `d`) reaches the station strictly before `c`. -/
theorem laterDepartureArrivesEarlier_iff (d c : Int) (a : DestinationStationArrival)
    (hd0 : 0 ≤ d) (hd1 : d < 4611686018427387904)
    (hs0 : 0 ≤ a.start_ticks) (hs1 : a.start_ticks < 4611686018427387904)
    (ha0 : 0 ≤ a.after_ticks) (ha1 : a.after_ticks < 4294967296)
    (he0 : 0 ≤ a.every_ticks) (he1 : a.every_ticks < 4294967296) :
    laterDepartureArrivesEarlier d c a = true ↔
      (a.every_ticks = 0 ∧ d ≤ a.start_ticks ∧ a.start_ticks + a.after_ticks < c) ∨
      (0 < a.every_ticks ∧ ∃ k : Int, 0 ≤ k ∧ d ≤ a.start_ticks + k * a.every_ticks ∧
        (∀ k' : Int, 0 ≤ k' → d ≤ a.start_ticks + k' * a.every_ticks → k ≤ k') ∧
        a.start_ticks + k * a.every_ticks + a.after_ticks < c) := by
  by_cases he : a.every_ticks = 0
  · have hbeq : (a.every_ticks == 0) = true := by simpa using he
    unfold laterDepartureArrivesEarlier
    rw [if_pos hbeq, wrapU64_eq_self (by omega) (by omega)]
    simp only [Bool.and_eq_true, decide_eq_true_eq, ge_iff_le]
    constructor
    · rintro ⟨h1, h2⟩
      exact Or.inl ⟨he, h1, h2⟩
    · rintro (⟨_, h1, h2⟩ | ⟨h, _⟩)
      · exact ⟨h1, h2⟩
      · omega
  · have hpos : 0 < a.every_ticks := by omega
    have hbeq : ¬ (a.every_ticks == 0) = true := by simpa using he
    have hdiff : wrapI64 (wrapU64 (wrapI64 d - a.start_ticks)) = d - a.start_ticks := by
      unfold wrapI64 wrapU64; omega
    have hkey : ∃ k0 : Int, 0 ≤ k0 ∧ d ≤ a.start_ticks + k0 * a.every_ticks ∧
        (∀ k' : Int, 0 ≤ k' → d ≤ a.start_ticks + k' * a.every_ticks → k0 ≤ k') ∧
        (laterDepartureArrivesEarlier d c a = true ↔
          a.start_ticks + k0 * a.every_ticks + a.after_ticks < c) := by
      unfold laterDepartureArrivesEarlier
      rw [if_neg hbeq]
      simp only [hdiff]
      by_cases hgt : d - a.start_ticks > 0
      · obtain ⟨hq0, hq1, hq2, hq3⟩ :=
          ceil_mul_least (d - a.start_ticks) a.every_ticks hgt hpos
        have hnum : wrapI64 (wrapI64 (d - a.start_ticks + a.every_ticks) - 1) =
            d - a.start_ticks + a.every_ticks - 1 := by
          unfold wrapI64; omega
        rw [if_pos hgt, hnum, Int.tdiv_eq_ediv (by omega) (by omega)]
        refine ⟨_, hq0, by omega, fun k' _ hk' => hq3 k' (by omega), ?_⟩
        generalize (d - a.start_ticks + a.every_ticks - 1) / a.every_ticks * a.every_ticks = P
          at hq1 hq2 ⊢
        have h1 : wrapI64 P = P := wrapI64_eq_self (by omega) (by omega)
        have h2 : wrapU64 (a.start_ticks + P) = a.start_ticks + P :=
          wrapU64_eq_self (by omega) (by omega)
        have h3 : wrapU64 (a.start_ticks + P + a.after_ticks) =
            a.start_ticks + P + a.after_ticks := wrapU64_eq_self (by omega) (by omega)
        rw [h1, h2, h3]
        simp
      · rw [if_neg hgt, wrapU64_eq_self (by omega) (by omega)]
        refine ⟨0, le_refl _, by omega, fun k' hk' _ => hk', by simp⟩
    obtain ⟨k0, hk0, hk1, hk2, hiff⟩ := hkey
    rw [hiff]
    constructor
    · intro h
      exact Or.inr ⟨hpos, k0, hk0, hk1, hk2, h⟩
    · rintro (⟨h, _⟩ | ⟨_, k, hk, hkd, hkl, hkc⟩)
      · omega
      · have : k = k0 := le_antisymm (hkl k0 hk0 hk1) (hk2 k hk hkd)
        rw [← this]; exact hkc

/-! ## C22: the destination index -/

/-- C22, counterexample: on day 1000 with 74 ticks per day, the entry that leaves at tick
74000 and calls at station 2 after 15 ticks and at station 3 after 30 ticks keeps station
3 as its destination (index 1), although the arrival table holds for station 3 the tuple
of another service that leaves at tick 74010, not before it, and reaches station 3 after
20 ticks, at tick 74030, which is no later than the entry itself: the loop drops a stop
only for a strictly earlier arrival. -/
theorem destination_kept_on_equal_arrival :
    arrival_times .DT_DEPARTURE 74
        [entryTwoStops ⟨1000, 0⟩ 0 0, entryToThree ⟨1000, 10⟩ 0 0 20] allVehicleTypes 3 =
      [{ start_ticks := 74000, after_ticks := 30, every_ticks := 0 },
       { start_ticks := 74010, after_ticks := 20, every_ticks := 0 }] ∧
    (74010 : Int) ≥ 74000 ∧ (74010 + 20 : Int) ≤ 74000 + 30 ∧
    destinationOf .DT_DEPARTURE 74
        (arrival_times .DT_DEPARTURE 74
          [entryTwoStops ⟨1000, 0⟩ 0 0, entryToThree ⟨1000, 10⟩ 0 0 20] allVehicleTypes)
        (entryTwoStops ⟨1000, 0⟩ 0 0) = some (1, INVALID_STATION) ∧
    Option.map (List.map fun p => p.destination_index)
        (windowDepartures .DT_DEPARTURE (fun _ => true) 74 1000 366 1
          [entryTwoStops ⟨1000, 0⟩ 0 0, entryToThree ⟨1000, 10⟩ 0 0 20] allVehicleTypes 0
          1) =
      some [1] := by
  decide

/-! ## C23: the projected via station -/

/-- In departure mode the destination loop clears the via station of an entry when it is
the station of a stop behind the destination, and keeps it when it is the station of a
stop in front of the destination and the stations of the calling-at list are pairwise
distinct. -/
theorem destinationOf_via (DAY_TICKS : Int)
    (arrivals : StationID → List DestinationStationArrival) (di : DepartureInfo)
    (dest : Nat) (via : StationID)
    (h : destinationOf .DT_DEPARTURE DAY_TICKS arrivals di = some (dest, via)) :
    ((∃ j, dest < j ∧ ∃ ca, di.calling_at[j]? = some ca ∧ ca.station = di.via) →
      via = INVALID_STATION) ∧
    ((∃ j, j < dest ∧ ∃ ca, di.calling_at[j]? = some ca ∧ ca.station = di.via) →
      di.calling_at.Pairwise (fun a b => a.station ≠ b.station) → via = di.via) := by
  unfold destinationOf at h
  simp only [] at h
  split_ifs at h with hlen
  obtain ⟨dest', via', hres, hle, _, _, _, hclr, hkeep⟩ :=
    findDestination_spec DAY_TICKS arrivals di (di.calling_at.length - 1) di.via (by omega)
  rw [hres] at h
  simp only [Option.some.injEq, Prod.mk.injEq] at h
  obtain ⟨rfl, rfl⟩ := h
  constructor
  · rintro ⟨j, hj, ca, hca, hcs⟩
    obtain ⟨hjl, _⟩ := List.getElem?_eq_some.1 hca
    exact hclr ⟨j, by omega, by omega, by omega, ca, hca, hcs⟩
  · rintro ⟨j0, hj0, ca0, hca0, hcs0⟩ hpw
    apply hkeep
    intro j _ hj2 _ ca hca hcs
    obtain ⟨hjl0, hg0⟩ := List.getElem?_eq_some.1 hca0
    obtain ⟨hjl, hg⟩ := List.getElem?_eq_some.1 hca
    have := List.pairwise_iff_getElem.1 hpw j0 j hjl0 hjl (by omega)
    rw [hg0, hg] at this
    exact this (hcs0.trans hcs.symm)

/-- C23: for every entry of a page that `CreatePrintableDepartures` builds from a result
of `RecalculateDepartures`, there is an entry `e` of the queue with the same calling-at
list such that, in departure mode, the projected via is none whenever the via station
recorded in `e` is the station of a stop at an index greater than the destination index,
and is the via station recorded in `e` whenever that station is the station of a stop at
an index smaller than the destination index; in arrival mode the projected via is the via
station recorded in `e`. -/
theorem projected_via (Tdeparture_type : DepartureType)
    (Tdepartures_from : DeparturesFrom) (DAY_TICKS _date _date_fract : Int)
    (vehicles : VehicleType → Option (List Vehicle)) (uninit : Int) (station : StationID)
    (Tordering : DepartureInfo → DepartureInfo → Bool)
    (IsCargoInClassPassengers : Nat → Bool) (_date' days_of_departures : Int)
    (vehicle_types : VehicleTypes) (skip len : Nat) :
    ∃ page, CreatePrintableDepartures Tdeparture_type Tordering IsCargoInClassPassengers
        DAY_TICKS _date' days_of_departures station
        (RecalculateDepartures Tdeparture_type Tdepartures_from DAY_TICKS _date _date_fract
          vehicles uninit station) vehicle_types skip len = some page ∧
      ∀ p ∈ page, ∃ e : DepartureInfo,
        (∃ e0 ∈ RecalculateDepartures Tdeparture_type Tdepartures_from DAY_TICKS _date
            _date_fract vehicles uninit station,
          e.calling_at = e0.calling_at ∧ e.via = e0.via) ∧
        p.calling_at = e.calling_at ∧
        (Tdeparture_type = .DT_DEPARTURE →
          ((∃ j, p.destination_index < j ∧
              ∃ ca, e.calling_at[j]? = some ca ∧ ca.station = e.via) →
            p.via = INVALID_STATION) ∧
          ((∃ j, j < p.destination_index ∧
              ∃ ca, e.calling_at[j]? = some ca ∧ ca.station = e.via) →
            p.via = e.via)) ∧
        (Tdeparture_type = .DT_ARRIVAL → p.via = e.via) := by
  have hne : ∀ e ∈ RecalculateDepartures Tdeparture_type Tdepartures_from DAY_TICKS _date
      _date_fract vehicles uninit station, e.calling_at ≠ [] := fun e he =>
    (RecalculateDepartures_calling_at _ _ _ _ _ _ _ _ e he).1
  obtain ⟨page, hpage⟩ := CreatePrintableDepartures_total Tdeparture_type Tordering
    IsCargoInClassPassengers DAY_TICKS _date' days_of_departures station _ vehicle_types
    skip len (Or.inr hne)
  refine ⟨page, hpage, ?_⟩
  intro p hp
  unfold CreatePrintableDepartures at hpage
  simp only [] at hpage
  have hQ : ∀ di : DepartureInfo,
      (∃ e0 ∈ RecalculateDepartures Tdeparture_type Tdepartures_from DAY_TICKS _date
          _date_fract vehicles uninit station,
        di.calling_at = e0.calling_at ∧ di.via = e0.via) → di.Repeats = true →
      (di.ProgressToNextDeparture DAY_TICKS).ScheduledDeparture DAY_TICKS <
        wrapI32 (_date' + days_of_departures) →
      (∃ e0 ∈ RecalculateDepartures Tdeparture_type Tdepartures_from DAY_TICKS _date
          _date_fract vehicles uninit station,
        (di.ProgressToNextDeparture DAY_TICKS).calling_at = e0.calling_at ∧
          (di.ProgressToNextDeparture DAY_TICKS).via = e0.via) := fun di h _ _ => h
  obtain ⟨e, destination_index, via, ⟨e0, he0, hca, hvia⟩, hdest, rfl⟩ :=
    pageLoop_forall Tdeparture_type Tordering DAY_TICKS _date' _ _ _ hQ len _ page
      (skipLoop_forall Tordering DAY_TICKS _ _ hQ skip _
        (fun z hz => ⟨z, (List.mem_filter.1 hz).1, rfl, rfl⟩)) hpage p hp
  refine ⟨e, ⟨e0, he0, hca, hvia⟩, rfl, ?_, ?_⟩
  · rintro rfl
    obtain ⟨h1, h2⟩ := destinationOf_via DAY_TICKS _ e destination_index via hdest
    refine ⟨h1, fun hj => h2 hj ?_⟩
    have hnd := (RecalculateDepartures_calling_at _ _ _ _ _ _ _ _ e0 he0).2
    unfold List.Nodup at hnd
    rw [List.pairwise_map] at hnd
    rw [hca]
    exact hnd
  · rintro rfl
    simp only [destinationOf, Option.some.injEq, Prod.mk.injEq] at hdest
    exact hdest.2.symm

/-- C23, witness: the page built on day 1000 from the departure board of station 1 for
the vehicle `viaThenFullUnload`, whose entry calls at stations 5 and 6 with station 5
recorded as via, shows station 6 as destination (index 1) and keeps station 5 as via. -/
theorem projected_via_witness :
    Option.map (List.map fun p => (p.destination_index, p.via))
        (CreatePrintableDepartures .DT_DEPARTURE (DepartureAfter .DT_DEPARTURE 74)
          (fun _ => true) 74 1000 366 1
          (RecalculateDepartures .DT_DEPARTURE .DF_STATION 74 1000 0
            (fun vehicle_type =>
              if vehicle_type = .VEH_TRAIN then some [viaThenFullUnload] else none) 0 1)
          allVehicleTypes 0 1) = some [(1, 5)] ∧
    ∃ page, CreatePrintableDepartures .DT_DEPARTURE (DepartureAfter .DT_DEPARTURE 74)
        (fun _ => true) 74 1000 366 1
        (RecalculateDepartures .DT_DEPARTURE .DF_STATION 74 1000 0
          (fun vehicle_type =>
            if vehicle_type = .VEH_TRAIN then some [viaThenFullUnload] else none) 0 1)
        allVehicleTypes 0 1 = some page ∧
      ∀ p ∈ page, ∃ e : DepartureInfo,
        (∃ e0 ∈ RecalculateDepartures .DT_DEPARTURE .DF_STATION 74 1000 0
            (fun vehicle_type =>
              if vehicle_type = .VEH_TRAIN then some [viaThenFullUnload] else none) 0 1,
          e.calling_at = e0.calling_at ∧ e.via = e0.via) ∧
        p.calling_at = e.calling_at ∧
        (DepartureType.DT_DEPARTURE = .DT_DEPARTURE →
          ((∃ j, p.destination_index < j ∧
              ∃ ca, e.calling_at[j]? = some ca ∧ ca.station = e.via) →
            p.via = INVALID_STATION) ∧
          ((∃ j, j < p.destination_index ∧
              ∃ ca, e.calling_at[j]? = some ca ∧ ca.station = e.via) →
            p.via = e.via)) ∧
        (DepartureType.DT_DEPARTURE = .DT_ARRIVAL → p.via = e.via) :=
  ⟨by decide,
    projected_via .DT_DEPARTURE .DF_STATION 74 1000 0
      (fun vehicle_type =>
        if vehicle_type = .VEH_TRAIN then some [viaThenFullUnload] else none) 0 1
      (DepartureAfter .DT_DEPARTURE 74) (fun _ => true) 1000 366 allVehicleTypes 0 1⟩

/-! ## C30: an entry and its own destination -/

/-- Below `2^31` ticks, `Ticks` is the tick count of the timestamp. -/
theorem ArrivalTime.Ticks_exact (DAY_TICKS : Int) (a : ArrivalTime) (hT0 : 0 < DAY_TICKS)
    (hd0 : 0 ≤ a.date) (hf0 : 0 ≤ a.date_fract)
    (h : a.date * DAY_TICKS + a.date_fract < 2147483648) :
    a.Ticks DAY_TICKS = a.date * DAY_TICKS + a.date_fract := by
  have hp : 0 ≤ a.date * DAY_TICKS := Int.mul_nonneg hd0 (le_of_lt hT0)
  unfold ArrivalTime.Ticks wrapU64 wrapI32
  omega

/-- The tuples of the arrival table for a station. -/
theorem mem_arrival_times (DAY_TICKS : Int) (departures : List DepartureInfo)
    (vehicle_types : VehicleTypes) (station : StationID) (a : DestinationStationArrival) :
    a ∈ arrival_times .DT_DEPARTURE DAY_TICKS departures vehicle_types station ↔
      ∃ di ∈ departures, ∃ calling_at ∈ di.calling_at,
        vehicle_types.test di.vehicle_type.toNat = true ∧ calling_at.station = station ∧
        a = { start_ticks := wrapU64 (di.arrival.Ticks DAY_TICKS + di.wait_time)
              after_ticks := calling_at.ticks_after_departure_start
              every_ticks := di.repeat_after } := by
  unfold arrival_times
  simp only [List.mem_flatMap, List.mem_filterMap]
  constructor
  · rintro ⟨di, hdi, ca, hca, h⟩
    split_ifs at h with hc
    simp only [Bool.and_eq_true, beq_iff_eq] at hc
    simp only [Option.some.injEq] at h
    exact ⟨di, hdi, ca, hca, hc.1, hc.2, h.symm⟩
  · rintro ⟨di, hdi, ca, hca, h1, h2, rfl⟩
    refine ⟨di, hdi, ca, hca, ?_⟩
    rw [if_pos (by simp [h1, h2])]

/-- An occurrence `z` of the single entry `e` of a list, not earlier than `e` and below
`2^31` ticks, drops none of its stops when the stations of its calling-at list are
pairwise distinct. -/
theorem own_stop_not_dropped (DAY_TICKS : Int) (e z : DepartureInfo)
    (vehicle_types : VehicleTypes) (hT0 : 0 < DAY_TICKS)
    (hpw : e.calling_at.Pairwise (fun a b => a.station ≠ b.station))
    (hoff : ∀ ca ∈ e.calling_at,
      0 ≤ ca.ticks_after_departure_start ∧ ca.ticks_after_departure_start < 4294967296)
    (hr0 : 0 ≤ e.repeat_after) (hr1 : e.repeat_after < 4294967296)
    (hed : 0 ≤ e.arrival.date) (hef : 0 ≤ e.arrival.date_fract)
    (hzd : 0 ≤ z.arrival.date) (hzf : 0 ≤ z.arrival.date_fract)
    (hw0 : 0 ≤ e.wait_time) (hw1 : e.wait_time < 65536)
    (hzt : z.arrival.date * DAY_TICKS + z.arrival.date_fract < 2147483648)
    (hle : e.arrival.date * DAY_TICKS + e.arrival.date_fract ≤
      z.arrival.date * DAY_TICKS + z.arrival.date_fract)
    (hca : z.calling_at = e.calling_at) (hwt : z.wait_time = e.wait_time) (i : Nat) :
    stopDropped DAY_TICKS (arrival_times .DT_DEPARTURE DAY_TICKS [e] vehicle_types) z i =
      false := by
  cases hget : z.calling_at[i]? with
  | none => unfold stopDropped; rw [hget]
  | some ca =>
    rw [stopDropped_eq DAY_TICKS _ z i ca hget]
    rw [Bool.eq_false_iff]
    intro hany
    obtain ⟨a, ha, hlae⟩ := List.any_eq_true.1 hany
    obtain ⟨di, hdi, ca', hca', _, hst, rfl⟩ :=
      (mem_arrival_times DAY_TICKS [e] vehicle_types ca.station _).1 ha
    rw [List.mem_singleton.1 hdi] at hca' hlae
    have hcaeq : ca' = ca := by
      rw [hca] at hget
      obtain ⟨hi, hgi⟩ := List.getElem?_eq_some.1 hget
      obtain ⟨k, hk, hgk⟩ := List.getElem_of_mem hca'
      by_contra hne
      have hik : k ≠ i := by
        intro hki
        subst hki
        exact hne (hgk.symm.trans hgi)
      rcases Nat.lt_or_gt_of_ne hik with hlt | hgt
      · have := List.pairwise_iff_getElem.1 hpw k i hk hi hlt
        rw [hgk, hgi] at this
        exact this hst
      · have := List.pairwise_iff_getElem.1 hpw i k hi hk hgt
        rw [hgk, hgi] at this
        exact this hst.symm
    subst hcaeq
    obtain ⟨ho0, ho1⟩ := hoff ca' hca'
    have hpe : 0 ≤ e.arrival.date * DAY_TICKS := Int.mul_nonneg hed (le_of_lt hT0)
    have hTz := ArrivalTime.Ticks_exact DAY_TICKS z.arrival hT0 hzd hzf hzt
    have hTe := ArrivalTime.Ticks_exact DAY_TICKS e.arrival hT0 hed hef (by omega)
    rw [hTz, hTe, hwt] at hlae
    rw [wrapU64_eq_self (by omega) (by omega), wrapU64_eq_self (by omega) (by omega),
      wrapU64_eq_self (by omega) (by omega)] at hlae
    rw [laterDepartureArrivesEarlier_iff _ _ _ (by omega) (by omega) (by simp only []; omega)
      (by simp only []; omega) ho0 ho1 hr0 hr1] at hlae
    simp only [] at hlae
    rcases hlae with ⟨_, h1, h2⟩ | ⟨_, k, _, h1, _, h2⟩
    · omega
    · omega

/-- C30, evaluation of the code: the page of a list with a single entry whose calling-at
stations are pairwise distinct shows every occurrence with destination index `length - 1`
as long as the tick counts of the occurrences stay below `2^31` (the limit day times
`DAY_TICKS`, plus `2^16`, is at most `2^31`).  Beyond that an occurrence trims its own
destination: with 74 ticks per day, on day 29020000 with a horizon of 366 days, the entry
that arrives on day 29020049, tick 21 (tick count `2^31 - 1`), waits 0 ticks, repeats
after 74 ticks and calls at station 2 and station 3 is shown with destination index 1,
and its next occurrence, whose `Ticks()` has wrapped around, with destination index 0. -/
theorem own_destination :
    (∀ (IsCargoInClassPassengers : Nat → Bool) (DAY_TICKS _date days_of_departures : Int)
        (station : StationID) (e : DepartureInfo) (vehicle_types : VehicleTypes)
        (skip len : Nat),
      0 < DAY_TICKS → DAY_TICKS ≤ 65536 → -2147483648 ≤ _date + days_of_departures →
      (_date + days_of_departures) * DAY_TICKS + 65536 ≤ 2147483648 →
      e.fits DAY_TICKS 2147483648 → e.calling_at ≠ [] →
      e.calling_at.Pairwise (fun a b => a.station ≠ b.station) →
      (∀ ca ∈ e.calling_at,
        0 ≤ ca.ticks_after_departure_start ∧ ca.ticks_after_departure_start < 4294967296) →
      0 ≤ e.repeat_after → e.repeat_after < 4294967296 →
      ∃ page, windowDepartures .DT_DEPARTURE IsCargoInClassPassengers DAY_TICKS _date
          days_of_departures station [e] vehicle_types skip len = some page ∧
        ∀ p ∈ page, p.destination_index = p.calling_at.length - 1) ∧
    (ArrivalTime.mk 29020049 21).Ticks 74 = 2147483647 ∧
    (ArrivalTime.mk 29020050 21).Ticks 74 = 18446744071562068041 ∧
    (entryTwoStops ⟨29020049, 21⟩ 0 74).calling_at.length - 1 = 1 ∧
    Option.map (List.map fun p => (p.scheduled_departure, p.destination_index))
        (windowDepartures .DT_DEPARTURE (fun _ => true) 74 29020000 366 1
          [entryTwoStops ⟨29020049, 21⟩ 0 74] allVehicleTypes 0 2) =
      some [(29020049, 1), (29020050, 0)] := by
  refine ⟨?_, by decide, by decide, by decide, by decide⟩
  intro IsCargoInClassPassengers DAY_TICKS _date days_of_departures station e vehicle_types
    skip len hT0 hT1 hlo hlim hfit hne hpw hoff hr0 hr1
  have hone : (1 : Int) * DAY_TICKS ≤ 2147483648 * DAY_TICKS :=
    Int.mul_le_mul_of_nonneg_right (by norm_num) (le_of_lt hT0)
  have hhi : _date + days_of_departures < 2147483648 := by
    by_contra hc
    have : (2147483648 : Int) * DAY_TICKS ≤ (_date + days_of_departures) * DAY_TICKS :=
      Int.mul_le_mul_of_nonneg_right (by omega) (le_of_lt hT0)
    omega
  have hlim' : (_date + days_of_departures) * DAY_TICKS + 65536 ≤ 2147483648 * DAY_TICKS := by
    omega
  have hQ : ∀ z : DepartureInfo,
      (z.fits DAY_TICKS (_date + days_of_departures) ∧ z.calling_at = e.calling_at ∧
        z.wait_time = e.wait_time ∧
        e.arrival.date * DAY_TICKS + e.arrival.date_fract ≤
          z.arrival.date * DAY_TICKS + z.arrival.date_fract) → z.Repeats = true →
      (z.ProgressToNextDeparture DAY_TICKS).ScheduledDeparture DAY_TICKS <
        _date + days_of_departures →
      ((z.ProgressToNextDeparture DAY_TICKS).fits DAY_TICKS (_date + days_of_departures) ∧
        (z.ProgressToNextDeparture DAY_TICKS).calling_at = e.calling_at ∧
        (z.ProgressToNextDeparture DAY_TICKS).wait_time = e.wait_time ∧
        e.arrival.date * DAY_TICKS + e.arrival.date_fract ≤
          (z.ProgressToNextDeparture DAY_TICKS).arrival.date * DAY_TICKS +
            (z.ProgressToNextDeparture DAY_TICKS).arrival.date_fract) := by
    intro z ⟨hz, hca, hwt, hle⟩ _ hs
    obtain ⟨hf, hT⟩ := DepartureInfo.fits_Progress DAY_TICKS _ z hT0 hT1 hlim' hz
    have hm : 0 ≤ z.repeat_after % 65536 := Int.emod_nonneg _ (by norm_num)
    exact ⟨DepartureInfo.fits_of_ScheduledDeparture DAY_TICKS _ _ hT0 hT1 hf hs, hca, hwt,
      by rw [hT]; omega⟩
  have hq : ∀ z ∈ skipLoop (DepartureAfter .DT_DEPARTURE DAY_TICKS) DAY_TICKS
      (_date + days_of_departures) skip
      ([e].filter fun it =>
        decide (it.ScheduledDeparture DAY_TICKS < _date + days_of_departures) &&
          ShowDeparture IsCargoInClassPassengers it vehicle_types),
      z.fits DAY_TICKS (_date + days_of_departures) ∧ z.calling_at = e.calling_at ∧
        z.wait_time = e.wait_time ∧
        e.arrival.date * DAY_TICKS + e.arrival.date_fract ≤
          z.arrival.date * DAY_TICKS + z.arrival.date_fract := by
    apply skipLoop_forall _ DAY_TICKS _ _ hQ
    intro z hz
    rw [List.mem_filter] at hz
    obtain ⟨hz, hc⟩ := hz
    simp only [Bool.and_eq_true, decide_eq_true_eq] at hc
    rw [List.mem_singleton.1 hz] at hc ⊢
    exact ⟨DepartureInfo.fits_of_ScheduledDeparture DAY_TICKS _ e hT0 hT1 hfit hc.1, rfl, rfl,
      le_refl _⟩
  unfold windowDepartures CreatePrintableDepartures
  simp only []
  rw [wrapI32_eq_self hlo hhi]
  obtain ⟨page, hpage⟩ := pageLoop_total .DT_DEPARTURE (DepartureAfter .DT_DEPARTURE DAY_TICKS)
    DAY_TICKS _date (_date + days_of_departures)
    (arrival_times .DT_DEPARTURE DAY_TICKS [e] vehicle_types) len _
    (fun z hz => Or.inr (by rw [(hq z hz).2.1]; exact hne))
  refine ⟨page, hpage, ?_⟩
  intro p hp
  obtain ⟨z, destination_index, via, ⟨hz, hca, hwt, hle⟩, hdest, rfl⟩ :=
    pageLoop_forall .DT_DEPARTURE _ DAY_TICKS _date _ _ _ hQ len _ page hq hpage p hp
  show destination_index = z.calling_at.length - 1
  have hlen : z.calling_at.length ≠ 0 := by
    rw [hca]; exact fun hc => hne (List.length_eq_zero.1 hc)
  simp only [destinationOf, if_neg hlen] at hdest
  obtain ⟨dest, via', hres, hdle, hdr, _⟩ :=
    findDestination_spec DAY_TICKS (arrival_times .DT_DEPARTURE DAY_TICKS [e] vehicle_types)
      z (z.calling_at.length - 1) z.via (by omega)
  rw [hres] at hdest
  simp only [Option.some.injEq, Prod.mk.injEq] at hdest
  obtain ⟨rfl, _⟩ := hdest
  by_contra hne'
  have hdrop := hdr (z.calling_at.length - 1) (by omega) (le_refl _)
  obtain ⟨hzd, hzf, _, hzw0, _, hzfit⟩ := hz
  obtain ⟨hed, hef, _, hw0, hw1, _⟩ := hfit
  rw [own_stop_not_dropped DAY_TICKS e z vehicle_types hT0 hpw hoff hr0 hr1 hed hef hzd hzf
    hw0 hw1 (by omega) hle hca hwt] at hdrop
  exact absurd hdrop (by simp)

/-- C30, witness: on day 1000 with a horizon of 366 days and 74 ticks per day, every
occurrence on the page of size 3 behind 2 skipped occurrences of the entry that calls at
station 2 and station 3 keeps station 3 as its destination. -/
theorem own_destination_witness :
    ∃ page, windowDepartures .DT_DEPARTURE (fun _ => true) 74 1000 366 1
        [entryTwoStops ⟨1000, 21⟩ 0 74] allVehicleTypes 2 3 = some page ∧
      ∀ p ∈ page, p.destination_index = p.calling_at.length - 1 :=
  own_destination.1 (fun _ => true) 74 1000 366 1 (entryTwoStops ⟨1000, 21⟩ 0 74)
    allVehicleTypes 2 3 (by decide) (by decide) (by decide) (by decide) (by decide)
    (by decide) (by decide) (by decide) (by decide) (by decide)

/-! ## C22: the destination index, amended -/

/-- For entries whose tick counts are computed without wrap-around,
`found_later_departure_that_arrives_earlier` is set by the tuple that the stop `ca'` of
the entry `e` contributes to the arrival table exactly when the first departure of `e`
at or after the departure tick `d` of the entry `di` reaches the stop strictly before the
arrival tick `c = d + offset` of `di` at its stop `ca`. -/
theorem laterDepartureArrivesEarlier_entries (DAY_TICKS : Int) (di e : DepartureInfo)
    (ca ca' : CallingAt) (hT0 : 0 < DAY_TICKS)
    (hdi : di.ticksFit DAY_TICKS) (he : e.ticksFit DAY_TICKS)
    (hca : ca ∈ di.calling_at) (hca' : ca' ∈ e.calling_at) :
    laterDepartureArrivesEarlier
        (wrapU64 (di.arrival.Ticks DAY_TICKS + di.wait_time))
        (wrapU64 (wrapU64 (di.arrival.Ticks DAY_TICKS + di.wait_time) +
          ca.ticks_after_departure_start))
        { start_ticks := wrapU64 (e.arrival.Ticks DAY_TICKS + e.wait_time)
          after_ticks := ca'.ticks_after_departure_start
          every_ticks := e.repeat_after } = true ↔
      (e.repeat_after = 0 ∧
        di.arrival.date * DAY_TICKS + di.arrival.date_fract + di.wait_time ≤
          e.arrival.date * DAY_TICKS + e.arrival.date_fract + e.wait_time ∧
        e.arrival.date * DAY_TICKS + e.arrival.date_fract + e.wait_time +
            ca'.ticks_after_departure_start <
          di.arrival.date * DAY_TICKS + di.arrival.date_fract + di.wait_time +
            ca.ticks_after_departure_start) ∨
      (0 < e.repeat_after ∧
        ∃ k : Int, 0 ≤ k ∧
          di.arrival.date * DAY_TICKS + di.arrival.date_fract + di.wait_time ≤
            e.arrival.date * DAY_TICKS + e.arrival.date_fract + e.wait_time +
              k * e.repeat_after ∧
          (∀ k' : Int, 0 ≤ k' →
            di.arrival.date * DAY_TICKS + di.arrival.date_fract + di.wait_time ≤
              e.arrival.date * DAY_TICKS + e.arrival.date_fract + e.wait_time +
                k' * e.repeat_after → k ≤ k') ∧
          e.arrival.date * DAY_TICKS + e.arrival.date_fract + e.wait_time +
              k * e.repeat_after + ca'.ticks_after_departure_start <
            di.arrival.date * DAY_TICKS + di.arrival.date_fract + di.wait_time +
              ca.ticks_after_departure_start) := by
  obtain ⟨hdd, hdf, hdt, hdw0, hdw1, _, _, hdo⟩ := hdi
  obtain ⟨hed, hef, het, hew0, hew1, her0, her1, heo⟩ := he
  obtain ⟨ho0, ho1⟩ := hdo ca hca
  obtain ⟨ho0', ho1'⟩ := heo ca' hca'
  have hpd : 0 ≤ di.arrival.date * DAY_TICKS := Int.mul_nonneg hdd (le_of_lt hT0)
  have hpe : 0 ≤ e.arrival.date * DAY_TICKS := Int.mul_nonneg hed (le_of_lt hT0)
  rw [ArrivalTime.Ticks_exact DAY_TICKS di.arrival hT0 hdd hdf hdt,
    ArrivalTime.Ticks_exact DAY_TICKS e.arrival hT0 hed hef het]
  have h1 : wrapU64 (di.arrival.date * DAY_TICKS + di.arrival.date_fract + di.wait_time) =
      di.arrival.date * DAY_TICKS + di.arrival.date_fract + di.wait_time :=
    wrapU64_eq_self (by omega) (by omega)
  have h2 : wrapU64 (di.arrival.date * DAY_TICKS + di.arrival.date_fract + di.wait_time +
      ca.ticks_after_departure_start) =
      di.arrival.date * DAY_TICKS + di.arrival.date_fract + di.wait_time +
        ca.ticks_after_departure_start := wrapU64_eq_self (by omega) (by omega)
  have h3 : wrapU64 (e.arrival.date * DAY_TICKS + e.arrival.date_fract + e.wait_time) =
      e.arrival.date * DAY_TICKS + e.arrival.date_fract + e.wait_time :=
    wrapU64_eq_self (by omega) (by omega)
  rw [h1, h2, h3]
  rw [laterDepartureArrivesEarlier_iff _ _ _ (by omega) (by omega) (by simp only []; omega)
    (by simp only []; omega) ho0' ho1' her0 her1]

/-- C22, amended: in departure mode the destination index of an entry with a non-empty
calling-at list is the largest index `i ≥ 1` of the list whose stop is not dropped, or 0
when every stop at an index `≥ 1` is dropped; in arrival mode it is 0.  The stop at index
`i` is dropped iff the arrival table holds for its station a tuple for which
`found_later_departure_that_arrives_earlier` is set.  Provided the tick counts of the
entry and of the entries of the list are computed without wrap-around (`ticksFit`: tick
count below `2^31`, wait time, repeat time and offsets within their unsigned types), that
is the case iff some entry `e` of the list that passes the guard of the table, the entry
itself included, calls at that station and its first departure at or after the departure
tick `d` of the entry (`start` if `every = 0` and `start ≥ d`; otherwise `start + k *
every` for the least `k ≥ 0` with `start + k * every ≥ d`) arrives strictly before the
arrival tick `c = d + offset` of the entry at the stop: first departure + `after` `< c`,
where `start` is the departure tick of `e`, `after` its offset to the station and `every`
its repeat time.  For tuples and tick counts below `2^62` the same rule describes
`found_later_departure_that_arrives_earlier` on its own.  Every entry of a page carries
the destination index and via station so computed for an entry of the queue. -/
theorem destination_index_spec (DAY_TICKS : Int)
    (arrivals : StationID → List DestinationStationArrival) (di : DepartureInfo) :
    (di.calling_at ≠ [] →
      ∃ dest via, destinationOf .DT_DEPARTURE DAY_TICKS arrivals di = some (dest, via) ∧
        dest < di.calling_at.length ∧
        (∀ j, dest < j → j < di.calling_at.length →
          stopDropped DAY_TICKS arrivals di j = true) ∧
        (1 ≤ dest → stopDropped DAY_TICKS arrivals di dest = false)) ∧
    destinationOf .DT_ARRIVAL DAY_TICKS arrivals di = some (0, di.via) ∧
    (∀ (i : Nat) (ca : CallingAt), di.calling_at[i]? = some ca →
      (stopDropped DAY_TICKS arrivals di i = true ↔
        ∃ a ∈ arrivals ca.station,
          laterDepartureArrivesEarlier
            (wrapU64 (di.arrival.Ticks DAY_TICKS + di.wait_time))
            (wrapU64 (wrapU64 (di.arrival.Ticks DAY_TICKS + di.wait_time) +
              ca.ticks_after_departure_start)) a = true)) ∧
    (∀ (departures : List DepartureInfo) (vehicle_types : VehicleTypes),
      0 < DAY_TICKS → di.ticksFit DAY_TICKS → (∀ e ∈ departures, e.ticksFit DAY_TICKS) →
      ∀ (i : Nat) (ca : CallingAt), di.calling_at[i]? = some ca →
        (stopDropped DAY_TICKS
            (arrival_times .DT_DEPARTURE DAY_TICKS departures vehicle_types) di i = true ↔
          ∃ e ∈ departures, ∃ ca' ∈ e.calling_at,
            vehicle_types.test e.vehicle_type.toNat = true ∧ ca'.station = ca.station ∧
            ((e.repeat_after = 0 ∧
                di.arrival.date * DAY_TICKS + di.arrival.date_fract + di.wait_time ≤
                  e.arrival.date * DAY_TICKS + e.arrival.date_fract + e.wait_time ∧
                e.arrival.date * DAY_TICKS + e.arrival.date_fract + e.wait_time +
                    ca'.ticks_after_departure_start <
                  di.arrival.date * DAY_TICKS + di.arrival.date_fract + di.wait_time +
                    ca.ticks_after_departure_start) ∨
              (0 < e.repeat_after ∧
                ∃ k : Int, 0 ≤ k ∧
                  di.arrival.date * DAY_TICKS + di.arrival.date_fract + di.wait_time ≤
                    e.arrival.date * DAY_TICKS + e.arrival.date_fract + e.wait_time +
                      k * e.repeat_after ∧
                  (∀ k' : Int, 0 ≤ k' →
                    di.arrival.date * DAY_TICKS + di.arrival.date_fract + di.wait_time ≤
                      e.arrival.date * DAY_TICKS + e.arrival.date_fract + e.wait_time +
                        k' * e.repeat_after → k ≤ k') ∧
                  e.arrival.date * DAY_TICKS + e.arrival.date_fract + e.wait_time +
                      k * e.repeat_after + ca'.ticks_after_departure_start <
                    di.arrival.date * DAY_TICKS + di.arrival.date_fract + di.wait_time +
                      ca.ticks_after_departure_start)))) ∧
    (∀ (d c : Int) (a : DestinationStationArrival),
      0 ≤ d → d < 4611686018427387904 →
      0 ≤ a.start_ticks → a.start_ticks < 4611686018427387904 →
      0 ≤ a.after_ticks → a.after_ticks < 4294967296 →
      0 ≤ a.every_ticks → a.every_ticks < 4294967296 →
      (laterDepartureArrivesEarlier d c a = true ↔
        (a.every_ticks = 0 ∧ d ≤ a.start_ticks ∧ a.start_ticks + a.after_ticks < c) ∨
        (0 < a.every_ticks ∧
          ∃ k : Int, 0 ≤ k ∧ d ≤ a.start_ticks + k * a.every_ticks ∧
            (∀ k' : Int, 0 ≤ k' → d ≤ a.start_ticks + k' * a.every_ticks → k ≤ k') ∧
            a.start_ticks + k * a.every_ticks + a.after_ticks < c))) ∧
    (∀ (Tdeparture_type : DepartureType) (Tordering : DepartureInfo → DepartureInfo → Bool)
        (IsCargoInClassPassengers : Nat → Bool) (_date days_of_departures : Int)
        (station : StationID) (departures : List DepartureInfo)
        (vehicle_types : VehicleTypes) (skip len : Nat) (page : List PrintableDeparture),
      CreatePrintableDepartures Tdeparture_type Tordering IsCargoInClassPassengers
        DAY_TICKS _date days_of_departures station departures vehicle_types skip len =
          some page →
      ∀ p ∈ page, ∃ e : DepartureInfo, p.calling_at = e.calling_at ∧
        destinationOf Tdeparture_type DAY_TICKS
          (arrival_times Tdeparture_type DAY_TICKS departures vehicle_types) e =
            some (p.destination_index, p.via)) := by
  refine ⟨?_, rfl, ?_, ?_, ?_, ?_⟩
  · intro hne
    have hlen : di.calling_at.length ≠ 0 := fun hc => hne (List.length_eq_zero.1 hc)
    obtain ⟨dest, via', hres, hle, hdr, hnd, _⟩ :=
      findDestination_spec DAY_TICKS arrivals di (di.calling_at.length - 1) di.via
        (by omega)
    refine ⟨dest, via', ?_, by omega, fun j h1 h2 => hdr j h1 (by omega), hnd⟩
    simp only [destinationOf, if_neg hlen]
    exact hres
  · intro i ca hca
    rw [stopDropped_eq DAY_TICKS arrivals di i ca hca, List.any_eq_true]
  · intro departures vehicle_types hT0 hdi hall i ca hca
    have hmem : ca ∈ di.calling_at := List.getElem?_mem hca
    rw [stopDropped_eq DAY_TICKS _ di i ca hca, List.any_eq_true]
    constructor
    · rintro ⟨a, ha, hlae⟩
      obtain ⟨e, he, ca', hca', htest, hst, rfl⟩ :=
        (mem_arrival_times DAY_TICKS departures vehicle_types ca.station a).1 ha
      exact ⟨e, he, ca', hca', htest, hst,
        (laterDepartureArrivesEarlier_entries DAY_TICKS di e ca ca' hT0 hdi (hall e he) hmem
          hca').1 hlae⟩
    · rintro ⟨e, he, ca', hca', htest, hst, hrule⟩
      exact ⟨_, (mem_arrival_times DAY_TICKS departures vehicle_types ca.station _).2
          ⟨e, he, ca', hca', htest, hst, rfl⟩,
        (laterDepartureArrivesEarlier_entries DAY_TICKS di e ca ca' hT0 hdi (hall e he) hmem
          hca').2 hrule⟩
  · intro d c a hd0 hd1 hs0 hs1 ha0 ha1 he0 he1
    exact laterDepartureArrivesEarlier_iff d c a hd0 hd1 hs0 hs1 ha0 ha1 he0 he1
  · intro Tdeparture_type Tordering IsCargoInClassPassengers _date days_of_departures
      station departures vehicle_types skip len page hpage p hp
    unfold CreatePrintableDepartures at hpage
    simp only [] at hpage
    obtain ⟨e, destination_index, via, _, hdest, rfl⟩ :=
      pageLoop_forall Tdeparture_type Tordering DAY_TICKS _date _ _ (fun _ => True)
        (fun _ _ _ _ => trivial) len _ page (fun _ _ => trivial) hpage p hp
    exact ⟨e, rfl, hdest⟩

/-- C22, witness: when the other service reaches station 3 one tick earlier, at tick
74029, the stop of the entry at station 3 is dropped, and the rule names the service
that drops it: the entry has a destination inside its calling-at list beyond which every
stop is dropped. -/
theorem destination_index_spec_witness :
    stopDropped 74
        (arrival_times .DT_DEPARTURE 74
          [entryTwoStops ⟨1000, 0⟩ 0 0, entryToThree ⟨1000, 10⟩ 0 0 19] allVehicleTypes)
        (entryTwoStops ⟨1000, 0⟩ 0 0) 1 = true ∧
    (∃ e ∈ [entryTwoStops ⟨1000, 0⟩ 0 0, entryToThree ⟨1000, 10⟩ 0 0 19],
      ∃ ca' ∈ e.calling_at,
        allVehicleTypes.test e.vehicle_type.toNat = true ∧ ca'.station = 3 ∧
        e.repeat_after = 0 ∧
        (1000 * 74 + 0 + 0 : Int) ≤
          e.arrival.date * 74 + e.arrival.date_fract + e.wait_time ∧
        e.arrival.date * 74 + e.arrival.date_fract + e.wait_time +
            ca'.ticks_after_departure_start < 1000 * 74 + 0 + 0 + 30) ∧
    ∃ dest via, destinationOf .DT_DEPARTURE 74
        (arrival_times .DT_DEPARTURE 74
          [entryTwoStops ⟨1000, 0⟩ 0 0, entryToThree ⟨1000, 10⟩ 0 0 19] allVehicleTypes)
        (entryTwoStops ⟨1000, 0⟩ 0 0) = some (dest, via) ∧
      dest < (entryTwoStops ⟨1000, 0⟩ 0 0).calling_at.length ∧
      (∀ j, dest < j → j < (entryTwoStops ⟨1000, 0⟩ 0 0).calling_at.length →
        stopDropped 74
          (arrival_times .DT_DEPARTURE 74
            [entryTwoStops ⟨1000, 0⟩ 0 0, entryToThree ⟨1000, 10⟩ 0 0 19] allVehicleTypes)
          (entryTwoStops ⟨1000, 0⟩ 0 0) j = true) ∧
      (1 ≤ dest →
        stopDropped 74
          (arrival_times .DT_DEPARTURE 74
            [entryTwoStops ⟨1000, 0⟩ 0 0, entryToThree ⟨1000, 10⟩ 0 0 19] allVehicleTypes)
          (entryTwoStops ⟨1000, 0⟩ 0 0) dest = false) :=
  ⟨((destination_index_spec 74
      (arrival_times .DT_DEPARTURE 74
        [entryTwoStops ⟨1000, 0⟩ 0 0, entryToThree ⟨1000, 10⟩ 0 0 19] allVehicleTypes)
      (entryTwoStops ⟨1000, 0⟩ 0 0)).2.2.2.1
      [entryTwoStops ⟨1000, 0⟩ 0 0, entryToThree ⟨1000, 10⟩ 0 0 19] allVehicleTypes
      (by decide) (by decide) (by decide) 1 { station := 3, ticks_after_departure_start := 30 }
      rfl).2
      ⟨entryToThree ⟨1000, 10⟩ 0 0 19, by decide,
        { station := 3, ticks_after_departure_start := 19 }, by decide, by decide, rfl,
        Or.inl ⟨rfl, by decide, by decide⟩⟩,
    ⟨entryToThree ⟨1000, 10⟩ 0 0 19, by decide,
      { station := 3, ticks_after_departure_start := 19 }, by decide, by decide, rfl, rfl,
      by decide, by decide⟩,
    (destination_index_spec 74
      (arrival_times .DT_DEPARTURE 74
        [entryTwoStops ⟨1000, 0⟩ 0 0, entryToThree ⟨1000, 10⟩ 0 0 19] allVehicleTypes)
      (entryTwoStops ⟨1000, 0⟩ 0 0)).1 (by decide)⟩

end Departures
